import Mathlib

/-!
# BitBox02 keystore adapter: a shallow embedding

Embedding of `backend/devices/bitbox02/keystore.go`.  Go values become Lean
structures, Go `error` results become `Except`-like outcomes, a Go run-time
panic is a separate outcome, and the in-place mutation of the proposal is made
explicit by returning the proposal as it is when the function finishes.
-/

set_option autoImplicit false

namespace Keystore

/-! ## Firmware versions (`bitbox02-api-go/util/semver`) -/

/-- Firmware version `major.minor.patch`, as `semver.SemVer`. -/
structure SemVer where
  major : Nat
  minor : Nat
  patch : Nat
deriving DecidableEq, Repr

/-- Library method `(*SemVer).AtLeast`: the first differing component decides. -/
def SemVer.AtLeast (version other : SemVer) : Bool :=
  if version.major ≠ other.major then decide (version.major > other.major)
  else if version.minor ≠ other.minor then decide (version.minor > other.minor)
  else decide (version.patch ≥ other.patch)

/-- Strict lexicographic order on versions: `a` is below `b`. -/
def SemVer.Below (a b : SemVer) : Prop :=
  a.major < b.major ∨
    (a.major = b.major ∧ (a.minor < b.minor ∨ (a.minor = b.minor ∧ a.patch < b.patch)))

instance SemVer.decidableBelow (a b : SemVer) : Decidable (SemVer.Below a b) := by
  unfold SemVer.Below
  exact inferInstance

/-- Lexicographic order on versions: `b` is at least `a`. -/
def SemVer.NotBelow (b a : SemVer) : Prop :=
  a = b ∨ SemVer.Below a b

instance SemVer.decidableNotBelow (b a : SemVer) : Decidable (SemVer.NotBelow b a) := by
  unfold SemVer.NotBelow
  exact inferInstance

/-! ## Coins, script types and errors -/

/-- Coin codes (`coinpkg.Code`, a string type in Go).  The named constructors are
the constants `CodeBTC`, `CodeTBTC`, `CodeRBTC`, `CodeLTC`, `CodeTLTC` and
`CodeETH` the keystore refers to; `other` stands for every code that is none of
them. -/
inductive Code where
  | BTC
  | TBTC
  | RBTC
  | LTC
  | TLTC
  | ETH
  | other (name : String)
deriving DecidableEq, Repr

/-- Network magic of a Bitcoin-family coin (`coin.Net().Net`). -/
inductive BitcoinNet where
  | btcMainNet
  | ltcMainNet
  | btcTestNet3
  | ltcTestNet4
  | other (magic : Nat)
deriving DecidableEq, Repr

/-- Account script types (`signing.ScriptType`, a string type in Go).  The named
constructors are the constants `ScriptTypeP2PKH`, `ScriptTypeP2WPKHP2SH`,
`ScriptTypeP2WPKH` and `ScriptTypeP2TR`; `other` stands for every script type
that is none of them. -/
inductive ScriptType where
  | P2PKH
  | P2WPKHP2SH
  | P2WPKH
  | P2TR
  | other (name : String)
deriving DecidableEq, Repr

/-- A `*btc.Coin`, seen through its methods `Code()` and `Net().Net`. -/
structure BtcCoin where
  Code : Code
  Net : BitcoinNet
deriving DecidableEq, Repr

/-- The dynamic type of a `coinpkg.Coin` value together with the data the
keystore reads from it. -/
inductive Coin where
  | btc (coin : BtcCoin)
  | eth (code : Code) (chainID : Nat) (erc20Token : Option String)
  | unknown (code : Code)
deriving DecidableEq, Repr

/-- Coin method `Code()`. -/
def Coin.Code : Coin → Code
  | .btc coin => coin.Code
  | .eth code _ _ => code
  | .unknown code => code

/-- Go `error` values seen by the keystore. -/
inductive Error where
  /-- An error made by `errp.New` or `errp.Newf`. -/
  | new (msg : String)
  /-- The sentinel `keystorePkg.ErrSigningAborted`. -/
  | ErrSigningAborted
  /-- The sentinel `keystorePkg.ErrFirmwareUpgradeRequired`. -/
  | ErrFirmwareUpgradeRequired
  /-- A `firmware.Error` reported by the device, with its error code. -/
  | device (code : Int) (msg : String)
  /-- Any other error handed back by a collaborator. -/
  | external (msg : String)
deriving DecidableEq, Repr

/-- Library constant `firmware.ErrUserAbort`. -/
def ErrUserAbort : Int := 104

/-- Library function `firmware.IsErrorAbort`: a device error with the user-abort code. -/
def IsErrorAbort : Error → Bool
  | .device code _ => decide (code = ErrUserAbort)
  | _ => false

/-! ## Capability queries -/

/-- The part of `*Device` the keystore reads without a round trip. -/
structure DeviceInfo where
  /-- Device method `Version()`. -/
  Version : SemVer
  /-- Device method `SupportsLTC()`. -/
  SupportsLTC : Bool
  /-- Device method `SupportsETH(chainID)`. -/
  SupportsETH : Nat → Bool
  /-- Device method `SupportsERC20(contractAddress)`. -/
  SupportsERC20 : String → Bool

/-- Embedding of `keystore.SupportsCoin`. -/
def SupportsCoin (device : DeviceInfo) (coin : Coin) : Bool :=
  match coin with
  | .btc _ =>
    if (coin.Code = Code.LTC ∨ coin.Code = Code.TLTC) ∧ ¬ device.SupportsLTC then
      false
    else
      true
  | .eth _ chainID erc20Token =>
    match erc20Token with
    | some contractAddress => device.SupportsERC20 contractAddress
    | none => device.SupportsETH chainID
  | .unknown _ => false

/-- Embedding of `keystore.SupportsAccount`; `meta` is the script type the Go
code obtains by the type assertion `meta.(signing.ScriptType)`. -/
def SupportsAccount (device : DeviceInfo) (coin : Coin) (scriptType : ScriptType) : Bool :=
  if ¬ SupportsCoin device coin then
    false
  else
    match coin with
    | .btc _ =>
      if scriptType = ScriptType.P2TR then
        -- Taproot available since v9.10.0.
        match coin.Code with
        | .BTC | .TBTC | .RBTC => device.Version.AtLeast ⟨9, 10, 0⟩
        | _ => false
      else
        decide (scriptType ≠ ScriptType.P2PKH)
    | _ => true

/-- Reference for `SupportsAccount` on Bitcoin-family coins, following the
words of the specification. -/
def SupportsAccount_reference (version : SemVer) (code : Code) (scriptType : ScriptType) : Bool :=
  match scriptType with
  | .P2TR =>
    decide ((code = Code.BTC ∨ code = Code.TBTC ∨ code = Code.RBTC) ∧
      SemVer.NotBelow version ⟨9, 10, 0⟩)
  | .P2PKH => false
  | _ => true

/-- Embedding of `keystore.SupportsEIP1559`. -/
def SupportsEIP1559 (device : DeviceInfo) : Bool :=
  device.Version.AtLeast ⟨9, 16, 0⟩

/-- Embedding of `keystore.SupportsPaymentRequests`; `none` is Go's `nil` error. -/
def SupportsPaymentRequests (device : DeviceInfo) : Option Error :=
  if device.Version.AtLeast ⟨9, 20, 0⟩ then
    none
  else
    some Error.ErrFirmwareUpgradeRequired

/-! ## Data model of Bitcoin signing -/

/-- One byte. -/
abbrev Byte := Fin 256

/-- Go `[]byte`. -/
abbrev Bytes := List Byte

/-- The type `wire.OutPoint`. -/
structure OutPoint where
  Hash : Bytes
  Index : Nat
deriving DecidableEq, Repr

/-- The type `wire.TxIn`, with the fields the keystore reads. -/
structure TxIn where
  PreviousOutPoint : OutPoint
  Sequence : Nat
deriving DecidableEq, Repr

/-- The type `wire.TxOut`; `Value` is an `int64`. -/
structure TxOut where
  Value : Int
  PkScript : Bytes
deriving DecidableEq, Repr

/-- The type `wire.MsgTx`; `Version` is an `int32`. -/
structure MsgTx where
  Version : Int
  TxIn : List TxIn
  TxOut : List TxOut
  LockTime : Nat
deriving DecidableEq, Repr

/-- The type `signing.Configuration`, seen through its methods `ScriptType()` and
`AbsoluteKeypath().ToUInt32()`. -/
structure Configuration where
  ScriptType : ScriptType
  AbsoluteKeypath : List Nat
deriving DecidableEq, Repr

/-- The type `addresses.AccountAddress`: the account-level configuration, the
address-level configuration, and the results of the methods `PubkeyScript()`
and `BIP352Pubkey()`. -/
structure AccountAddress where
  AccountConfiguration : Configuration
  Configuration : Configuration
  PubkeyScript : Bytes
  BIP352Pubkey : Except Error Bytes

/-- The type `maketx.SpendableOutput`. -/
structure SpendableOutput where
  TxOut : TxOut
  Address : AccountAddress

/-- Dynamic type of a `btcutil.Address` returned by `util.AddressFromPkScript`. -/
inductive AddressKind where
  | AddressPubKeyHash
  | AddressScriptHash
  | AddressWitnessPubKeyHash
  | AddressWitnessScriptHash
  | AddressTaproot
  | other
deriving DecidableEq, Repr

/-- A `btcutil.Address`: its dynamic type and the result of `ScriptAddress()`. -/
structure Address where
  kind : AddressKind
  ScriptAddress : Bytes
deriving DecidableEq, Repr

/-- The type `types.Signature`; `R` and `S` are non-negative `big.Int` values. -/
structure Signature where
  R : Nat
  S : Nat
deriving DecidableEq, Repr

/-- The type `accounts.TextMemo`. -/
structure TextMemo where
  Note : String
deriving DecidableEq, Repr

/-- The type `accounts.PaymentRequest`. -/
structure PaymentRequest where
  RecipientName : String
  Memos : List TextMemo
  Nonce : Bytes
  TotalAmount : Nat
  Signature : Bytes
deriving DecidableEq, Repr

/-- The type `coinpkg.BtcUnit`. -/
inductive BtcUnit where
  | BtcUnitDefault
  | BtcUnitSats
deriving DecidableEq, Repr

/-- The type `maketx.TxProposal` of a Bitcoin proposal.  `Coin` is the value that
`signBTCTransaction` reads through the type assertion `Coin.(*btc.Coin)`;
`PreviousOutputs` is a Go map, given by its lookup. -/
structure TxProposal where
  Coin : BtcCoin
  Transaction : MsgTx
  ChangeAddress : Option AccountAddress
  PreviousOutputs : OutPoint → Option SpendableOutput
  OutIndex : Int
  SilentPaymentAddress : String
  PaymentRequest : Option PaymentRequest

/-- The type `btc.ProposedTransaction`.  `GetKeystoreAddress` returns the triple
`(address, sameAccount, err)` of the Go callback, `Signatures` is the slice
`[]*types.Signature` in which a `nil` pointer is `none`. -/
structure ProposedTransaction where
  TXProposal : TxProposal
  SendingAccount : String
  GetPrevTx : Bytes → Except Error MsgTx
  Signatures : List (Option Signature)
  FormatUnit : BtcUnit
  GetKeystoreAddress : String → String → Except Error (Option AccountAddress × Bool)

/-! ## Device messages (`bitbox02-api-go`) -/

/-- The enum `messages.BTCCoin`. -/
inductive BTCCoin where
  | BTC
  | TBTC
  | LTC
  | TLTC
  | RBTC
deriving DecidableEq, Repr

/-- The enum `messages.BTCScriptConfig_SimpleType`. -/
inductive BTCScriptConfig_SimpleType where
  | P2WPKH
  | P2WPKH_P2SH
  | P2TR
deriving DecidableEq, Repr

/-- The enum `messages.BTCOutputType`; `UNKNOWN` is its zero value. -/
inductive BTCOutputType where
  | UNKNOWN
  | P2PKH
  | P2SH
  | P2WPKH
  | P2WSH
  | P2TR
deriving DecidableEq, Repr

/-- The enum `messages.BTCSignInitRequest_FormatUnit`. -/
inductive BTCSignInitRequest_FormatUnit where
  | DEFAULT
  | SAT
deriving DecidableEq, Repr

/-- A simple script configuration, as built by `firmware.NewBTCScriptConfigSimple`
(the keystore never builds any other kind). -/
structure BTCScriptConfig where
  SimpleType : BTCScriptConfig_SimpleType
deriving DecidableEq, Repr

/-- Library function `firmware.NewBTCScriptConfigSimple`. -/
def NewBTCScriptConfigSimple (t : BTCScriptConfig_SimpleType) : BTCScriptConfig :=
  { SimpleType := t }

/-- The message `messages.BTCScriptConfigWithKeypath`. -/
structure BTCScriptConfigWithKeypath where
  ScriptConfig : BTCScriptConfig
  Keypath : List Nat
deriving DecidableEq, Repr

/-- The message `messages.BTCSignInputRequest`. -/
structure BTCSignInputRequest where
  PrevOutHash : Bytes
  PrevOutIndex : Nat
  PrevOutValue : Nat
  Sequence : Nat
  Keypath : List Nat
  ScriptConfigIndex : Nat
deriving DecidableEq, Repr

/-- The type `firmware.BTCPrevTx`, as made by `firmware.NewBTCPrevTxFromBtcd`. -/
structure BTCPrevTx where
  fromBtcd : MsgTx
deriving DecidableEq, Repr

/-- Library function `firmware.NewBTCPrevTxFromBtcd`. -/
def NewBTCPrevTxFromBtcd (prevTx : MsgTx) : BTCPrevTx :=
  { fromBtcd := prevTx }

/-- The type `firmware.BTCTxInput`; a `nil` `PrevTx` or `BIP352Pubkey` is `none`. -/
structure BTCTxInput where
  Input : BTCSignInputRequest
  PrevTx : Option BTCPrevTx
  BIP352Pubkey : Option Bytes
deriving DecidableEq, Repr

/-- The message `messages.BTCSignOutputRequest_SilentPayment`. -/
structure BTCSignOutputRequest_SilentPayment where
  Address : String
deriving DecidableEq, Repr

/-- The message `messages.BTCSignOutputRequest`; `Type_` is its field `Type`. -/
structure BTCSignOutputRequest where
  Ours : Bool
  Type_ : BTCOutputType
  Value : Nat
  Payload : Bytes
  Keypath : List Nat
  ScriptConfigIndex : Nat
  PaymentRequestIndex : Option Nat
  SilentPayment : Option BTCSignOutputRequest_SilentPayment
  OutputScriptConfigIndex : Option Nat
deriving DecidableEq, Repr

/-- The message `messages.BTCPaymentRequestRequest`, every memo being a text memo. -/
structure BTCPaymentRequestRequest where
  RecipientName : String
  Memos : List String
  Nonce : Bytes
  TotalAmount : Nat
  Signature : Bytes
deriving DecidableEq, Repr

/-- The type `firmware.BTCTx`. -/
structure BTCTx where
  Version : Nat
  Inputs : List BTCTxInput
  Outputs : List BTCSignOutputRequest
  Locktime : Nat
  PaymentRequests : List BTCPaymentRequestRequest
deriving DecidableEq, Repr

/-- The arguments of one call of the device method `BTCSign`. -/
structure BTCSignCall where
  coin : BTCCoin
  scriptConfigs : List BTCScriptConfigWithKeypath
  outputScriptConfigs : List BTCScriptConfigWithKeypath
  tx : BTCTx
  formatUnit : BTCSignInitRequest_FormatUnit
deriving DecidableEq, Repr

/-- The type `firmware.BTCSignResult`.  `GeneratedOutputs` is a Go map from output
index to script; it is given as the list of its entries in the order in which
the `range` loop visits them. -/
structure BTCSignResult where
  Signatures : List Bytes
  GeneratedOutputs : List (Int × Bytes)
deriving DecidableEq, Repr

/-- What the keystore uses from outside the file: the device, the package-level
tables `btcMsgCoinMap` and `btcMsgScriptTypeMap`, and the helper functions
`util.AddressFromPkScript`, `blockchain.NewScriptHashHex` and
`firmware.BTCSignNeedsPrevTxs`. -/
structure Env where
  device : DeviceInfo
  BTCSign : BTCSignCall → Except Error BTCSignResult
  btcMsgCoinMap : Code → Option BTCCoin
  btcMsgScriptTypeMap : ScriptType → Option BTCScriptConfig_SimpleType
  AddressFromPkScript : Bytes → BitcoinNet → Except Error Address
  NewScriptHashHex : Bytes → String
  BTCSignNeedsPrevTxs : List BTCScriptConfigWithKeypath → Bool

/-! ## Outcomes -/

/-- How a Go function stops before its normal end: it returns an error, or it panics. -/
inductive Abort where
  | error (err : Error)
  | panic (msg : String)
deriving DecidableEq, Repr

/-- How a call of a Go function with result type `error` ends. -/
inductive Outcome where
  /-- It returns `nil`. -/
  | ok
  /-- It returns the given error. -/
  | error (err : Error)
  /-- It panics. -/
  | panic (msg : String)
deriving DecidableEq, Repr

/-- An `Abort` seen as the outcome of the whole call. -/
def Abort.toOutcome : Abort → Outcome
  | .error err => .error err
  | .panic msg => .panic msg

/-- A finished call of `signBTCTransaction`: how it ended, the proposal as the
call left it, and the calls of the device method `BTCSign` it made. -/
structure Run where
  result : Outcome
  proposal : ProposedTransaction
  calls : List BTCSignCall

/-! ## Integer conversions and `big.Int` -/

/-- Go conversion `uint32(x)`. -/
def uint32 (x : Int) : Nat := (x % 2 ^ 32).toNat

/-- Go conversion `uint64(x)`. -/
def uint64 (x : Int) : Nat := (x % 2 ^ 64).toNat

/-- Method `(*big.Int).SetBytes` on a zero receiver: the value is accumulated
from the most significant byte on. -/
def SetBytes (buf : Bytes) : Nat :=
  buf.foldl (fun acc b => acc * 256 + b.val) 0

/-- The big-endian unsigned integer written by a byte string: the first byte
weighs `256 ^ (length - 1)`, the last byte weighs `1`. -/
def bigEndian : Bytes → Nat
  | [] => 0
  | b :: rest => b.val * 256 ^ rest.length + bigEndian rest

/-! ## Script-configuration registries -/

/-- The scan of `addScriptConfig` and `addOutputScriptConfig`: the index of the
first entry whose simple type equals `t`. -/
def findScriptConfig (t : BTCScriptConfig_SimpleType) :
    List BTCScriptConfigWithKeypath → Option Nat
  | [] => none
  | sc :: rest =>
    if sc.ScriptConfig.SimpleType = t then some 0
    else (findScriptConfig t rest).map (fun i => i + 1)

/-- The closure `addScriptConfig`: the list after the call and the returned index. -/
def addScriptConfig (scriptConfigs : List BTCScriptConfigWithKeypath)
    (scriptConfig : BTCScriptConfigWithKeypath) : List BTCScriptConfigWithKeypath × Nat :=
  match findScriptConfig scriptConfig.ScriptConfig.SimpleType scriptConfigs with
  | some i => (scriptConfigs, i)
  | none => (scriptConfigs ++ [scriptConfig], (scriptConfigs ++ [scriptConfig]).length - 1)

/-- The closure `addOutputScriptConfig`: the list after the call and the returned
index, converted to `uint32`. -/
def addOutputScriptConfig (outputScriptConfigs : List BTCScriptConfigWithKeypath)
    (scriptConfig : BTCScriptConfigWithKeypath) : List BTCScriptConfigWithKeypath × Nat :=
  match findScriptConfig scriptConfig.ScriptConfig.SimpleType outputScriptConfigs with
  | some i => (outputScriptConfigs, uint32 i)
  | none =>
    (outputScriptConfigs ++ [scriptConfig],
      uint32 (((outputScriptConfigs ++ [scriptConfig]).length - 1 : Nat) : Int))

/-- No two entries of a registry have the same simple type. -/
def DistinctSimpleTypes (scriptConfigs : List BTCScriptConfigWithKeypath) : Prop :=
  scriptConfigs.Pairwise (fun a b => a.ScriptConfig.SimpleType ≠ b.ScriptConfig.SimpleType)

/-! ## `signBTCTransaction`: building the request -/

/-- The loop over `tx.TxIn` (source lines 320-358), started with the registry
`scriptConfigs`: the input descriptors in transaction order and the registry
after the loop. -/
def inputsLoop (env : Env) (btcProposedTx : ProposedTransaction) :
    List TxIn → List BTCScriptConfigWithKeypath →
      Except Abort (List BTCTxInput × List BTCScriptConfigWithKeypath)
  | [], scriptConfigs => .ok ([], scriptConfigs)
  | txIn :: rest, scriptConfigs =>
    match btcProposedTx.TXProposal.PreviousOutputs txIn.PreviousOutPoint with
    | none =>
      .error (.error (.new "There needs to be exactly one output being spent per input."))
    | some prevOut =>
      let inputAddress := prevOut.Address
      let accountConfiguration := inputAddress.AccountConfiguration
      match env.btcMsgScriptTypeMap accountConfiguration.ScriptType with
      | none => .error (.error (.new "Unsupported script type"))
      | some msgScriptType =>
        let added := addScriptConfig scriptConfigs
          { ScriptConfig := NewBTCScriptConfigSimple msgScriptType
            Keypath := accountConfiguration.AbsoluteKeypath }
        let bip352 : Except Error (Option Bytes) :=
          if btcProposedTx.TXProposal.SilentPaymentAddress ≠ "" then
            match inputAddress.BIP352Pubkey with
            | .error err => .error err
            | .ok pubkey => .ok (some pubkey)
          else .ok none
        match bip352 with
        | .error err => .error (.error err)
        | .ok bip352Pubkey =>
          let input : BTCTxInput :=
            { Input :=
                { PrevOutHash := txIn.PreviousOutPoint.Hash
                  PrevOutIndex := txIn.PreviousOutPoint.Index
                  PrevOutValue := uint64 prevOut.TxOut.Value
                  Sequence := txIn.Sequence
                  Keypath := inputAddress.Configuration.AbsoluteKeypath
                  ScriptConfigIndex := uint32 added.2 }
              PrevTx := none
              BIP352Pubkey := bip352Pubkey }
          match inputsLoop env btcProposedTx rest added.1 with
          | .error a => .error a
          | .ok (inputs, scriptConfigs2) => .ok (input :: inputs, scriptConfigs2)

/-- Source lines 381-409: the output type, the payload and the silent-payment
field of one output. -/
def outputTypeAndPayload (env : Env) (btcProposedTx : ProposedTransaction) (net : BitcoinNet)
    (isSilentPaymentOutput : Bool) (txOut : TxOut) :
    Except Abort (BTCOutputType × Bytes × Option BTCSignOutputRequest_SilentPayment) :=
  if isSilentPaymentOutput then
    .ok (.UNKNOWN, [], some { Address := btcProposedTx.TXProposal.SilentPaymentAddress })
  else
    match env.AddressFromPkScript txOut.PkScript net with
    | .error err => .error (.error err)
    | .ok outputAddress =>
      match outputAddress.kind with
      | .AddressPubKeyHash => .ok (.P2PKH, outputAddress.ScriptAddress, none)
      | .AddressScriptHash => .ok (.P2SH, outputAddress.ScriptAddress, none)
      | .AddressWitnessPubKeyHash => .ok (.P2WPKH, outputAddress.ScriptAddress, none)
      | .AddressWitnessScriptHash => .ok (.P2WSH, outputAddress.ScriptAddress, none)
      | .AddressTaproot => .ok (.P2TR, outputAddress.ScriptAddress, none)
      | .other => .error (.error (.new "unsupported output type"))

/-- Source lines 412-415: is the output the change output. -/
def isChange (txChangeAddress : Option AccountAddress) (txOut : TxOut) : Bool :=
  match txChangeAddress with
  | some changeAddress => decide (changeAddress.PubkeyScript = txOut.PkScript)
  | none => false

/-- The body of the loop over `tx.TxOut` (source lines 381-467) for the output
`txOut` at position `index`: the output request and the two registries after
this iteration. -/
def outputRequest (env : Env) (btcProposedTx : ProposedTransaction) (net : BitcoinNet)
    (index : Nat) (txOut : TxOut)
    (scriptConfigs outputScriptConfigs : List BTCScriptConfigWithKeypath) :
    Except Abort
      (BTCSignOutputRequest × List BTCScriptConfigWithKeypath × List BTCScriptConfigWithKeypath) :=
  let isSilentPaymentOutput : Bool :=
    decide ((index : Int) = btcProposedTx.TXProposal.OutIndex) &&
      decide (btcProposedTx.TXProposal.SilentPaymentAddress ≠ "")
  match outputTypeAndPayload env btcProposedTx net isSilentPaymentOutput txOut with
  | .error a => .error a
  | .ok (msgOutputType, payload, silentPayment) =>
    match btcProposedTx.GetKeystoreAddress btcProposedTx.SendingAccount
        (env.NewScriptHashHex txOut.PkScript) with
    | .error _ => .error (.error (.new "failed to get address"))
    | .ok (outputAddress, sameAccount) =>
      let isOurs0 : Bool := outputAddress.isSome
      let isOurs : Bool :=
        if (!isChange btcProposedTx.TXProposal.ChangeAddress txOut) &&
            (!env.device.Version.AtLeast ⟨9, 15, 0⟩) then
          -- For firmware older than 9.15.0, non-change outputs cannot be marked internal.
          false
        else isOurs0
      let request (isOurs : Bool) (keypath : List Nat) (scriptConfigIndex : Nat)
          (outputScriptConfigIndex : Option Nat) : BTCSignOutputRequest :=
        { Ours := isOurs
          Type_ := msgOutputType
          Value := uint64 txOut.Value
          Payload := payload
          Keypath := keypath
          ScriptConfigIndex := uint32 scriptConfigIndex
          PaymentRequestIndex := none
          SilentPayment := silentPayment
          OutputScriptConfigIndex := outputScriptConfigIndex }
      match isOurs, outputAddress with
      | false, _ => .ok (request false [] 0 none, scriptConfigs, outputScriptConfigs)
      | true, none => .error (.panic "nil pointer dereference")
      | true, some outputAddress =>
        let accountConfiguration := outputAddress.AccountConfiguration
        match env.btcMsgScriptTypeMap accountConfiguration.ScriptType with
        | none => .error (.error (.new "Unsupported script type"))
        | some msgScriptType =>
          if sameAccount then
            let added := addScriptConfig scriptConfigs
              { ScriptConfig := NewBTCScriptConfigSimple msgScriptType
                Keypath := accountConfiguration.AbsoluteKeypath }
            .ok (request true outputAddress.Configuration.AbsoluteKeypath added.2 none,
              added.1, outputScriptConfigs)
          else if env.device.Version.AtLeast ⟨9, 22, 0⟩ then
            let added := addOutputScriptConfig outputScriptConfigs
              { ScriptConfig := NewBTCScriptConfigSimple msgScriptType
                Keypath := accountConfiguration.AbsoluteKeypath }
            .ok (request true outputAddress.Configuration.AbsoluteKeypath 0 (some added.2),
              scriptConfigs, added.1)
          else
            .ok (request false [] 0 none, scriptConfigs, outputScriptConfigs)

/-- The loop over `tx.TxOut` (source lines 380-468), from position `index` on. -/
def outputsLoop (env : Env) (btcProposedTx : ProposedTransaction) (net : BitcoinNet) :
    Nat → List TxOut → List BTCScriptConfigWithKeypath → List BTCScriptConfigWithKeypath →
      Except Abort
        (List BTCSignOutputRequest × List BTCScriptConfigWithKeypath ×
          List BTCScriptConfigWithKeypath)
  | _, [], scriptConfigs, outputScriptConfigs => .ok ([], scriptConfigs, outputScriptConfigs)
  | index, txOut :: rest, scriptConfigs, outputScriptConfigs =>
    match outputRequest env btcProposedTx net index txOut scriptConfigs outputScriptConfigs with
    | .error a => .error a
    | .ok (output, scriptConfigs1, outputScriptConfigs1) =>
      match outputsLoop env btcProposedTx net (index + 1) rest scriptConfigs1
          outputScriptConfigs1 with
      | .error a => .error a
      | .ok (outputs, scriptConfigs2, outputScriptConfigs2) =>
        .ok (output :: outputs, scriptConfigs2, outputScriptConfigs2)

/-- The loop that provides the previous transactions (source lines 472-480). -/
def prevTxsLoop (btcProposedTx : ProposedTransaction) :
    List TxIn → List BTCTxInput → Except Abort (List BTCTxInput)
  | [], inputs => .ok inputs
  | _ :: _, [] => .error (.panic "index out of range")
  | txIn :: rest, input :: inputs =>
    match btcProposedTx.GetPrevTx txIn.PreviousOutPoint.Hash with
    | .error err => .error (.error err)
    | .ok prevTx =>
      match prevTxsLoop btcProposedTx rest inputs with
      | .error a => .error a
      | .ok inputs2 => .ok ({ input with PrevTx := some (NewBTCPrevTxFromBtcd prevTx) } :: inputs2)

/-- The closure `newBTCPaymentRequest` (source lines 490-510). -/
def newBTCPaymentRequest (txPaymentRequest : PaymentRequest) : BTCPaymentRequestRequest :=
  { RecipientName := txPaymentRequest.RecipientName
    Nonce := txPaymentRequest.Nonce
    TotalAmount := txPaymentRequest.TotalAmount
    Signature := txPaymentRequest.Signature
    Memos := txPaymentRequest.Memos.map (fun m => m.Note) }

/-- Source lines 512-520: the payment requests of the request, and the outputs
with the payment-request index set on the output at `OutIndex`. -/
def attachPaymentRequest (btcProposedTx : ProposedTransaction)
    (outputs : List BTCSignOutputRequest) :
    Except Abort (List BTCSignOutputRequest × List BTCPaymentRequestRequest) :=
  match btcProposedTx.TXProposal.PaymentRequest with
  | none => .ok (outputs, [])
  | some paymentRequest =>
    if btcProposedTx.TXProposal.OutIndex < 0 then .error (.panic "index out of range")
    else
      match outputs[btcProposedTx.TXProposal.OutIndex.toNat]? with
      | none => .error (.panic "index out of range")
      | some output =>
        .ok (outputs.set btcProposedTx.TXProposal.OutIndex.toNat
              { output with PaymentRequestIndex := some 0 },
            [newBTCPaymentRequest paymentRequest])

/-- Source lines 295-534: everything `signBTCTransaction` does before the device
call.  It either stops early or yields the arguments of the `BTCSign` call. -/
def buildBTCSignCall (env : Env) (btcProposedTx : ProposedTransaction) :
    Except Abort BTCSignCall :=
  let tx := btcProposedTx.TXProposal.Transaction
  let coin := btcProposedTx.TXProposal.Coin
  match env.btcMsgCoinMap coin.Code with
  | none => .error (.error (.new "coin not supported"))
  | some msgCoin =>
    match inputsLoop env btcProposedTx tx.TxIn [] with
    | .error a => .error a
    | .ok (inputs, scriptConfigs1) =>
      match outputsLoop env btcProposedTx coin.Net 0 tx.TxOut scriptConfigs1 [] with
      | .error a => .error a
      | .ok (outputs, scriptConfigs, outputScriptConfigs) =>
        let withPrevTxs : Except Abort (List BTCTxInput) :=
          if env.BTCSignNeedsPrevTxs scriptConfigs then
            prevTxsLoop btcProposedTx tx.TxIn inputs
          else .ok inputs
        match withPrevTxs with
        | .error a => .error a
        | .ok inputs2 =>
          let formatUnit :=
            if btcProposedTx.FormatUnit = BtcUnit.BtcUnitSats then
              BTCSignInitRequest_FormatUnit.SAT
            else BTCSignInitRequest_FormatUnit.DEFAULT
          match attachPaymentRequest btcProposedTx outputs with
          | .error a => .error a
          | .ok (outputs2, btcPaymentRequests) =>
            .ok
              { coin := msgCoin
                scriptConfigs := scriptConfigs
                outputScriptConfigs := outputScriptConfigs
                tx :=
                  { Version := uint32 tx.Version
                    Inputs := inputs2
                    Outputs := outputs2
                    Locktime := tx.LockTime
                    PaymentRequests := btcPaymentRequests }
                formatUnit := formatUnit }

/-! ## `signBTCTransaction`: the device call and the results -/

/-- The assignment `btcProposedTx.TXProposal.Transaction.TxOut[index].PkScript = script`
for an index within the slice. -/
def setPkScript (btcProposedTx : ProposedTransaction) (index : Nat) (script : Bytes) :
    ProposedTransaction :=
  let tx := btcProposedTx.TXProposal.Transaction
  { btcProposedTx with
    TXProposal :=
      { btcProposedTx.TXProposal with
        Transaction :=
          { tx with
            TxOut :=
              match tx.TxOut[index]? with
              | some txOut => tx.TxOut.set index { txOut with PkScript := script }
              | none => tx.TxOut } } }

/-- The loop over `signResult.GeneratedOutputs` (source lines 541-547): the
proposal when the loop stops, and why it stopped early, if it did. -/
def generatedOutputsLoop :
    List (Int × Bytes) → ProposedTransaction → ProposedTransaction × Option Abort
  | [], btcProposedTx => (btcProposedTx, none)
  | (index, generatedOutput) :: rest, btcProposedTx =>
    let isSilentPaymentOutput : Bool :=
      decide (index = btcProposedTx.TXProposal.OutIndex) &&
        decide (btcProposedTx.TXProposal.SilentPaymentAddress ≠ "")
    if !isSilentPaymentOutput then
      (btcProposedTx, some (.error (.new "expected silent payment output")))
    else if index < 0 ∨ btcProposedTx.TXProposal.Transaction.TxOut.length ≤ index.toNat then
      (btcProposedTx, some (.panic "index out of range"))
    else
      generatedOutputsLoop rest (setPkScript btcProposedTx index.toNat generatedOutput)

/-- The loop over `signResult.Signatures` (source lines 548-553), from position
`index` on.  Slicing a signature shorter than 32 bytes panics, and so does a
position outside `btcProposedTx.Signatures`. -/
def signaturesLoop :
    Nat → List Bytes → ProposedTransaction → ProposedTransaction × Option Abort
  | _, [], btcProposedTx => (btcProposedTx, none)
  | index, signature :: rest, btcProposedTx =>
    if signature.length < 32 then
      (btcProposedTx, some (.panic "slice bounds out of range"))
    else if btcProposedTx.Signatures.length ≤ index then
      (btcProposedTx, some (.panic "index out of range"))
    else
      signaturesLoop (index + 1) rest
        { btcProposedTx with
          Signatures :=
            btcProposedTx.Signatures.set index
              (some { R := SetBytes (signature.take 32), S := SetBytes (signature.drop 32) }) }

/-- Embedding of `keystore.signBTCTransaction`. -/
def signBTCTransaction (env : Env) (btcProposedTx : ProposedTransaction) : Run :=
  match buildBTCSignCall env btcProposedTx with
  | .error a => { result := a.toOutcome, proposal := btcProposedTx, calls := [] }
  | .ok call =>
    match env.BTCSign call with
    | .error err =>
      if IsErrorAbort err then
        { result := .error .ErrSigningAborted, proposal := btcProposedTx, calls := [call] }
      else
        { result := .error err, proposal := btcProposedTx, calls := [call] }
    | .ok signResult =>
      match generatedOutputsLoop signResult.GeneratedOutputs btcProposedTx with
      | (proposal1, some a) => { result := a.toOutcome, proposal := proposal1, calls := [call] }
      | (proposal1, none) =>
        match signaturesLoop 0 signResult.Signatures proposal1 with
        | (proposal2, some a) =>
          { result := a.toOutcome, proposal := proposal2, calls := [call] }
        | (proposal2, none) => { result := .ok, proposal := proposal2, calls := [call] }

/-! ## Device operations of the facade -/

/-- The enum `messages.ETHAddressCase`. -/
inductive ETHAddressCase where
  | ETH_ADDRESS_CASE_MIXED
  | ETH_ADDRESS_CASE_UPPER
  | ETH_ADDRESS_CASE_LOWER
deriving DecidableEq, Repr

/-- The enum `messages.ETHPubRequest_OutputType`. -/
inductive ETHPubRequest_OutputType where
  | ADDRESS
  | XPUB
deriving DecidableEq, Repr

/-- The enum `messages.BTCPubRequest_XPubType`, with the values the keystore uses. -/
inductive BTCPubRequest_XPubType where
  | TPUB
  | XPUB
  | YPUB
  | ZPUB
deriving DecidableEq, Repr

/-- The arguments of the device method `ETHSign`; amounts are `*big.Int` values. -/
structure ETHSignArgs where
  chainID : Nat
  keypath : List Nat
  nonce : Nat
  gasPrice : Int
  gasLimit : Nat
  recipient : Bytes
  value : Int
  data : Bytes
  recipientAddressCase : ETHAddressCase
deriving DecidableEq, Repr

/-- The arguments of the device method `ETHSignEIP1559`. -/
structure ETHSignEIP1559Args where
  chainID : Nat
  keypath : List Nat
  nonce : Nat
  maxPriorityFeePerGas : Int
  maxFeePerGas : Int
  gasLimit : Nat
  recipient : Bytes
  value : Int
  data : Bytes
  recipientAddressCase : ETHAddressCase
deriving DecidableEq, Repr

/-- The arguments of the device method `ETHPub`. -/
structure ETHPubArgs where
  chainID : Nat
  keypath : List Nat
  outputType : ETHPubRequest_OutputType
  display : Bool
  contractAddress : Bytes
deriving DecidableEq, Repr

/-- The arguments of the device method `BTCAddress`. -/
structure BTCAddressArgs where
  coin : BTCCoin
  keypath : List Nat
  scriptConfig : BTCScriptConfig
  display : Bool
deriving DecidableEq, Repr

/-- The arguments of the device method `BTCXPub`. -/
structure BTCXPubArgs where
  coin : BTCCoin
  keypath : List Nat
  xpubType : BTCPubRequest_XPubType
  display : Bool
deriving DecidableEq, Repr

/-- The arguments of the device method `BTCSignMessage`. -/
structure BTCSignMessageArgs where
  coin : BTCCoin
  scriptConfig : BTCScriptConfigWithKeypath
  message : Bytes
deriving DecidableEq, Repr

/-- The arguments of the device methods `ETHSignMessage` and `ETHSignTypedMessage`. -/
structure ETHSignMessageArgs where
  chainID : Nat
  keypath : List Nat
  message : Bytes
deriving DecidableEq, Repr

/-- One call of a device method made by the facade, with its arguments. -/
inductive DeviceCall where
  | ETHSign (args : ETHSignArgs)
  | ETHSignEIP1559 (args : ETHSignEIP1559Args)
  | ETHSignMessage (args : ETHSignMessageArgs)
  | ETHSignTypedMessage (args : ETHSignMessageArgs)
  | ETHPub (args : ETHPubArgs)
  | BTCAddress (args : BTCAddressArgs)
  | BTCXPub (args : BTCXPubArgs)
  | BTCSignMessage (args : BTCSignMessageArgs)
deriving DecidableEq, Repr

/-- The type `firmware.BTCSignMessageResult`, with the field the keystore reads. -/
structure BTCSignMessageResult where
  ElectrumSig65 : Bytes
deriving DecidableEq, Repr

/-- The pair `(signResult, err)` returned by the device method `BTCSignMessage`;
`signResult = none` is a `nil` result. -/
structure BTCSignMessageAnswer where
  signResult : Option BTCSignMessageResult
  err : Option Error
deriving DecidableEq, Repr

/-- The answers of the device to the calls of the facade. -/
structure DeviceOps where
  ETHSign : ETHSignArgs → Except Error Bytes
  ETHSignEIP1559 : ETHSignEIP1559Args → Except Error Bytes
  ETHSignMessage : ETHSignMessageArgs → Except Error Bytes
  ETHSignTypedMessage : ETHSignMessageArgs → Except Error Bytes
  ETHPub : ETHPubArgs → Except Error String
  BTCAddress : BTCAddressArgs → Except Error String
  BTCXPub : BTCXPubArgs → Except Error String
  BTCSignMessage : BTCSignMessageArgs → BTCSignMessageAnswer

/-- The signature, if any, with which the device answers a signing call. -/
def DeviceOps.signatureOf (ops : DeviceOps) : DeviceCall → Option Bytes
  | .ETHSign args => (ops.ETHSign args).toOption
  | .ETHSignEIP1559 args => (ops.ETHSignEIP1559 args).toOption
  | .ETHSignMessage args => (ops.ETHSignMessage args).toOption
  | .ETHSignTypedMessage args => (ops.ETHSignTypedMessage args).toOption
  | _ => none

/-- The error, if any, with which the device answers a call. -/
def DeviceOps.errorOf (ops : DeviceOps) : DeviceCall → Option Error
  | .ETHSign args => match ops.ETHSign args with | .error err => some err | .ok _ => none
  | .ETHSignEIP1559 args =>
    match ops.ETHSignEIP1559 args with | .error err => some err | .ok _ => none
  | .ETHSignMessage args =>
    match ops.ETHSignMessage args with | .error err => some err | .ok _ => none
  | .ETHSignTypedMessage args =>
    match ops.ETHSignTypedMessage args with | .error err => some err | .ok _ => none
  | .ETHPub args => match ops.ETHPub args with | .error err => some err | .ok _ => none
  | .BTCAddress args => match ops.BTCAddress args with | .error err => some err | .ok _ => none
  | .BTCXPub args => match ops.BTCXPub args with | .error err => some err | .ok _ => none
  | .BTCSignMessage args => (ops.BTCSignMessage args).err

/-! ## `signETHTransaction` -/

/-- A `*types.Transaction` of go-ethereum, seen through its accessor methods
`To()`, `Type()`, `Nonce()`, `GasTipCap()`, `GasFeeCap()`, `GasPrice()`, `Gas()`,
`Value()`, `Data()`, and its signature values. -/
structure EthTransaction where
  To : Option Bytes
  Type_ : Nat
  Nonce : Nat
  GasTipCap : Int
  GasFeeCap : Int
  GasPrice : Int
  Gas : Nat
  Value : Int
  Data : Bytes
  V : Nat
  R : Nat
  S : Nat
deriving DecidableEq, Repr

/-- A `types.Signer` of go-ethereum. -/
structure EthSigner where
  ChainID : Nat
deriving DecidableEq, Repr

/-- The type `eth.TxProposal`; `ChainID` is `Coin.ChainID()`. -/
structure EthTxProposal where
  ChainID : Nat
  Tx : EthTransaction
  Signer : EthSigner
  Keypath : List Nat
  RecipientAddress : String
deriving DecidableEq, Repr

/-- The type `hdkeychain.ExtendedKey`. -/
structure ExtendedKey where
  key : Bytes
  chainCode : Bytes
  depth : Nat
  parentFP : Bytes
  childNum : Nat
  version : Bytes
  isPrivate : Bool
deriving DecidableEq, Repr

/-- Library functions used by the facade: `firmware.ETHIdentifyCase`, the method
`(*types.Transaction).WithSignature`, `hdkeychain.NewKeyFromString` and the
method `(*hdkeychain.ExtendedKey).Derive`, and the method `Bytes()` of a token's
contract address, the address being given by its string.  `WithSignature`
returns the signed transaction, returns an error, or panics, as go-ethereum
does on a signature that is not 65 bytes long. -/
structure Library where
  ETHIdentifyCase : String → ETHAddressCase
  WithSignature : EthTransaction → EthSigner → Bytes → Except Abort EthTransaction
  NewKeyFromString : String → Except Error ExtendedKey
  Derive : ExtendedKey → Nat → Except Error ExtendedKey
  ContractAddressBytes : String → Bytes

/-- A finished call of `signETHTransaction`: how it ended, the proposal as the
call left it, and the device calls it made. -/
structure EthRun where
  result : Outcome
  proposal : EthTxProposal
  calls : List DeviceCall
deriving DecidableEq, Repr

/-- Embedding of `keystore.signETHTransaction`. -/
def signETHTransaction (ops : DeviceOps) (lib : Library)
    (txProposal : EthTxProposal) : EthRun :=
  let tx := txProposal.Tx
  match tx.To with
  | none =>
    { result := .error (.new "contract creation not supported")
      proposal := txProposal, calls := [] }
  | some recipient =>
    let txType := tx.Type_
    let afterDevice (call : DeviceCall) (answer : Except Error Bytes) : EthRun :=
      match answer with
      | .error err =>
        if IsErrorAbort err then
          { result := .error .ErrSigningAborted, proposal := txProposal, calls := [call] }
        else
          { result := .error err, proposal := txProposal, calls := [call] }
      | .ok signature =>
        match lib.WithSignature txProposal.Tx txProposal.Signer signature with
        | .error a => { result := a.toOutcome, proposal := txProposal, calls := [call] }
        | .ok signedTx =>
          { result := .ok, proposal := { txProposal with Tx := signedTx }, calls := [call] }
    if txType = 2 then
      let args : ETHSignEIP1559Args :=
        { chainID := txProposal.ChainID
          keypath := txProposal.Keypath
          nonce := tx.Nonce
          maxPriorityFeePerGas := tx.GasTipCap
          maxFeePerGas := tx.GasFeeCap
          gasLimit := tx.Gas
          recipient := recipient
          value := tx.Value
          data := tx.Data
          recipientAddressCase := lib.ETHIdentifyCase txProposal.RecipientAddress }
      afterDevice (.ETHSignEIP1559 args) (ops.ETHSignEIP1559 args)
    else if txType = 0 then
      let args : ETHSignArgs :=
        { chainID := txProposal.ChainID
          keypath := txProposal.Keypath
          nonce := tx.Nonce
          gasPrice := tx.GasPrice
          gasLimit := tx.Gas
          recipient := recipient
          value := tx.Value
          data := tx.Data
          recipientAddressCase := lib.ETHIdentifyCase txProposal.RecipientAddress }
      afterDevice (.ETHSign args) (ops.ETHSign args)
    else
      { result := .error (.new "unsupported transaction type")
        proposal := txProposal, calls := [] }

/-! ## `RootFingerprint` -/

/-- The mutable part of the keystore: the cached root fingerprint (`nil` is
`none`), and the number of calls of the device method `RootFingerprint` made so
far. -/
structure KeystoreState where
  rootFinger : Option Bytes
  deviceCalls : Nat
deriving DecidableEq, Repr

/-- A keystore that has not been used yet. -/
def KeystoreState.fresh : KeystoreState :=
  { rootFinger := none, deviceCalls := 0 }

/-- Embedding of `keystore.RootFingerprint`.  `device n` is the answer of the
device to its call number `n` (counted from 0); the result is the returned pair
`(bytes, err)`, an error being returned with `nil` bytes, and the keystore after
the call. -/
def RootFingerprint (device : Nat → Except Error (Option Bytes)) (keystore : KeystoreState) :
    Except Error (Option Bytes) × KeystoreState :=
  match keystore.rootFinger with
  | some cached => (.ok (some cached), keystore)
  | none =>
    match device keystore.deviceCalls with
    | .error err => (.error err, { keystore with deviceCalls := keystore.deviceCalls + 1 })
    | .ok res => (.ok res, { rootFinger := res, deviceCalls := keystore.deviceCalls + 1 })

/-- The results of `n` sequential calls of `RootFingerprint`, in order, and the
keystore after them. -/
def RootFingerprintTimes (device : Nat → Except Error (Option Bytes)) :
    Nat → KeystoreState → List (Except Error (Option Bytes)) × KeystoreState
  | 0, keystore => ([], keystore)
  | n + 1, keystore =>
    let first := RootFingerprint device keystore
    let later := RootFingerprintTimes device n first.2
    (first.1 :: later.1, later.2)

/-- A call of `RootFingerprint` returned a fingerprint: no error and bytes that are
not `nil`. -/
def returnedFingerprint : Except Error (Option Bytes) → Bool
  | .ok (some _) => true
  | _ => false

/-! ## Address and extended-public-key verification -/

/-- A finished call of a facade method with result type `error`. -/
structure FacadeRun where
  result : Outcome
  calls : List DeviceCall
deriving DecidableEq, Repr

/-- Embedding of `keystore.CanVerifyAddress`: the returned triple, the error being
`nil` on every path. -/
def CanVerifyAddress (env : Env) (coin : Coin) : Bool × Bool × Option Error :=
  match coin with
  | .btc btcCoin => ((env.btcMsgCoinMap btcCoin.Code).isSome, false, none)
  | .eth _ _ _ => (true, false, none)
  | .unknown _ => (false, false, none)

/-- What a verification does with the answer of the device (source lines 168-174
and 185-191). -/
def afterDisplay (call : DeviceCall) (answer : Except Error String) : FacadeRun :=
  match answer with
  | .error err =>
    if IsErrorAbort err then
      -- No special action on user abort.
      { result := .ok, calls := [call] }
    else
      { result := .error err, calls := [call] }
  | .ok _ => { result := .ok, calls := [call] }

/-- Embedding of `keystore.VerifyAddress`. -/
def VerifyAddress (env : Env) (ops : DeviceOps) (lib : Library)
    (configuration : Configuration) (coin : Coin) : FacadeRun :=
  match CanVerifyAddress env coin with
  | (_, _, some err) => { result := .error err, calls := [] }
  | (false, _, none) => { result := .panic "CanVerifyAddress must be true", calls := [] }
  | (true, _, none) =>
    match coin with
    | .btc btcCoin =>
      match env.btcMsgScriptTypeMap configuration.ScriptType with
      | none => { result := .panic "unsupported scripttype", calls := [] }
      | some msgScriptType =>
        match env.btcMsgCoinMap btcCoin.Code with
        | none => { result := .panic "CanVerifyAddress must be true", calls := [] }
        | some msgCoin =>
          let args : BTCAddressArgs :=
            { coin := msgCoin
              keypath := configuration.AbsoluteKeypath
              scriptConfig := NewBTCScriptConfigSimple msgScriptType
              display := true }
          afterDisplay (.BTCAddress args) (ops.BTCAddress args)
    | .eth _ chainID erc20Token =>
      -- No contract address, displays 'Ethereum' etc. depending on `msgCoin`.
      let contractAddress : Bytes :=
        match erc20Token with
        | some token => lib.ContractAddressBytes token
        | none => []
      let args : ETHPubArgs :=
        { chainID := chainID
          keypath := configuration.AbsoluteKeypath
          outputType := .ADDRESS
          display := true
          contractAddress := contractAddress }
      afterDisplay (.ETHPub args) (ops.ETHPub args)
    | .unknown _ => { result := .error (.new "unsupported coin"), calls := [] }

/-- Embedding of `keystore.CanVerifyExtendedPublicKey`. -/
def CanVerifyExtendedPublicKey : Bool := true

/-- Source lines 214-229: the xpub type requested for a network and a script type. -/
def msgXPubType (net : BitcoinNet) (scriptType : ScriptType) : BTCPubRequest_XPubType :=
  match net with
  | .btcMainNet | .ltcMainNet =>
    let msgXPubTypes : ScriptType → Option BTCPubRequest_XPubType := fun st =>
      if st = ScriptType.P2WPKHP2SH then some .YPUB
      else if st = ScriptType.P2WPKH then some .ZPUB
      else none
    match msgXPubTypes scriptType with
    | some t => t
    | none => .XPUB
  | .btcTestNet3 | .ltcTestNet4 => .TPUB
  | .other _ => .XPUB

/-- Embedding of `keystore.VerifyExtendedPublicKey`. -/
def VerifyExtendedPublicKey (env : Env) (ops : DeviceOps) (coin : Coin)
    (configuration : Configuration) : FacadeRun :=
  if ¬ CanVerifyExtendedPublicKey then
    { result := .panic "CanVerifyExtendedPublicKey must be true", calls := [] }
  else
    match coin with
    | .btc btcCoin =>
      match env.btcMsgCoinMap btcCoin.Code with
      | none => { result := .error (.new "unsupported coin"), calls := [] }
      | some msgCoin =>
        let args : BTCXPubArgs :=
          { coin := msgCoin
            keypath := configuration.AbsoluteKeypath
            xpubType := msgXPubType btcCoin.Net configuration.ScriptType
            display := true }
        afterDisplay (.BTCXPub args) (ops.BTCXPub args)
    | .eth _ _ _ => { result := .error (.new "unsupported operation"), calls := [] }
    | .unknown _ => { result := .ok, calls := [] }

/-- Reference for the requested xpub type, following the words of the
specification: the network decides first, the script type second. -/
def xpubType_reference (net : BitcoinNet) (scriptType : ScriptType) : BTCPubRequest_XPubType :=
  if net = .btcMainNet ∨ net = .ltcMainNet then
    (if scriptType = .P2WPKHP2SH then .YPUB
     else if scriptType = .P2WPKH then .ZPUB
     else .XPUB)
  else if net = .btcTestNet3 ∨ net = .ltcTestNet4 then .TPUB
  else .XPUB

/-! ## `ExtendedPublicKey` -/

/-- A finished call of `ExtendedPublicKey`: the returned pair `(key, err)`, an error
being returned with a `nil` key, and the device calls made. -/
structure KeyRun where
  result : Except Error ExtendedKey
  calls : List DeviceCall

/-- Embedding of `keystore.ExtendedPublicKey`. -/
def ExtendedPublicKey (env : Env) (ops : DeviceOps) (lib : Library) (coin : Coin)
    (keyPath : List Nat) : KeyRun :=
  match coin with
  | .btc btcCoin =>
    match env.btcMsgCoinMap btcCoin.Code with
    | none => { result := .error (.new "unsupported coin"), calls := [] }
    | some msgCoin =>
      let args : BTCXPubArgs :=
        { coin := msgCoin, keypath := keyPath, xpubType := .XPUB, display := false }
      match ops.BTCXPub args with
      | .error err => { result := .error err, calls := [.BTCXPub args] }
      | .ok xpubStr => { result := lib.NewKeyFromString xpubStr, calls := [.BTCXPub args] }
  | .eth _ chainID _ =>
    let keypathUint32 := keyPath
    if h : keypathUint32.length = 5 then
      let args : ETHPubArgs :=
        { chainID := chainID, keypath := keypathUint32.take 4, outputType := .XPUB
          display := false, contractAddress := [] }
      match ops.ETHPub args with
      | .error err => { result := .error err, calls := [.ETHPub args] }
      | .ok xpubStr =>
        match lib.NewKeyFromString xpubStr with
        | .error err => { result := .error err, calls := [.ETHPub args] }
        | .ok xpub =>
          { result := lib.Derive xpub (keypathUint32.get ⟨4, by omega⟩)
            calls := [.ETHPub args] }
    else
      let args : ETHPubArgs :=
        { chainID := chainID, keypath := keypathUint32, outputType := .XPUB
          display := false, contractAddress := [] }
      match ops.ETHPub args with
      | .error err => { result := .error err, calls := [.ETHPub args] }
      | .ok xpubStr => { result := lib.NewKeyFromString xpubStr, calls := [.ETHPub args] }
  | .unknown _ => { result := .error (.new "unsupported coin"), calls := [] }

/-! ## Message signing -/

/-- How a call of a Go function with result type `([]byte, error)` ends: it
returns the pair, a `nil` slice being the empty list, or it panics. -/
inductive BytesOutcome where
  | returned (bytes : Bytes) (err : Option Error)
  | panic (msg : String)
deriving DecidableEq, Repr

/-- A finished call of a message-signing method. -/
structure SignRun where
  result : BytesOutcome
  calls : List DeviceCall
deriving DecidableEq, Repr

/-- Embedding of `keystore.SignBTCMessage`.  Reading `signResult.ElectrumSig65`
from a `nil` result panics. -/
def SignBTCMessage (env : Env) (ops : DeviceOps) (message : Bytes) (keypath : List Nat)
    (scriptType : ScriptType) : SignRun :=
  match env.btcMsgScriptTypeMap scriptType with
  | none => { result := .returned [] (some (.new "scriptType not supported")), calls := [] }
  | some sc =>
    let args : BTCSignMessageArgs :=
      { coin := .BTC
        scriptConfig := { ScriptConfig := NewBTCScriptConfigSimple sc, Keypath := keypath }
        message := message }
    let answer := ops.BTCSignMessage args
    match answer.signResult with
    | none => { result := .panic "nil pointer dereference", calls := [.BTCSignMessage args] }
    | some signResult =>
      { result := .returned signResult.ElectrumSig65 answer.err
        calls := [.BTCSignMessage args] }

/-- Source lines 646-652, 658-664 and 680-686: what the Ethereum signing methods
do with the answer of the device. -/
def afterSigning (call : DeviceCall) (answer : Except Error Bytes) : SignRun :=
  match answer with
  | .error err =>
    if IsErrorAbort err then
      { result := .returned [] (some .ErrSigningAborted), calls := [call] }
    else
      { result := .returned [] (some err), calls := [call] }
  | .ok signature => { result := .returned signature none, calls := [call] }

/-- Embedding of `keystore.SignETHMessage`; the chain id is that of
`params.MainnetChainConfig`. -/
def SignETHMessage (ops : DeviceOps) (message : Bytes) (keypath : List Nat) : SignRun :=
  let args : ETHSignMessageArgs := { chainID := 1, keypath := keypath, message := message }
  afterSigning (.ETHSignMessage args) (ops.ETHSignMessage args)

/-- Embedding of `keystore.SignETHTypedMessage`. -/
def SignETHTypedMessage (ops : DeviceOps) (chainId : Nat) (data : Bytes)
    (keypath : List Nat) : SignRun :=
  let args : ETHSignMessageArgs := { chainID := chainId, keypath := keypath, message := data }
  afterSigning (.ETHSignTypedMessage args) (ops.ETHSignTypedMessage args)

/-- Embedding of `keystore.SignETHWalletConnectTransaction`.  Dereferencing
`tx.To()` of a transaction without recipient panics. -/
def SignETHWalletConnectTransaction (ops : DeviceOps) (chainId : Nat) (tx : EthTransaction)
    (keypath : List Nat) : SignRun :=
  match tx.To with
  | none => { result := .panic "nil pointer dereference", calls := [] }
  | some recipient =>
    let args : ETHSignArgs :=
      { chainID := chainId
        keypath := keypath
        nonce := tx.Nonce
        gasPrice := tx.GasPrice
        gasLimit := tx.Gas
        recipient := recipient
        value := tx.Value
        data := tx.Data
        recipientAddressCase := .ETH_ADDRESS_CASE_MIXED }
    afterSigning (.ETHSign args) (ops.ETHSign args)

/-! ## `MainLocaleFromNative` (`util/config/locale.go`) -/

/-- The byte `_`. -/
def underscore : Byte := 0x5f

/-- The byte `-`. -/
def hyphen : Byte := 0x2d

/-- Library function `strings.Replace(s, old, new, -1)` for one-byte `old` and `new`,
a Go string being its sequence of bytes: every `old` becomes `new`. -/
def stringsReplace (s : Bytes) (old new : Byte) : Bytes :=
  s.map (fun b => if b = old then new else b)

/-- Library function `strings.Split(s, sep)` for a one-byte `sep`: the substrings
between the separators; a string without separator gives the string alone. -/
def stringsSplit (sep : Byte) : Bytes → List Bytes
  | [] => [[]]
  | b :: rest =>
    if b = sep then [] :: stringsSplit sep rest
    else
      match stringsSplit sep rest with
      | [] => [[b]]
      | w :: ws => (b :: w) :: ws

/-- Embedding of `config.MainLocaleFromNative`; indexing an empty slice panics. -/
def MainLocaleFromNative (nativeLocale : Bytes) : Except Abort Bytes :=
  let nativeLocale := stringsReplace nativeLocale underscore hyphen
  match stringsSplit hyphen nativeLocale with
  | [] => .error (.panic "index out of range")
  | first :: _ => .ok first

/-- A string without `_` and without `-`. -/
def noSeparator (s : Bytes) : Prop :=
  ∀ b ∈ s, b ≠ underscore ∧ b ≠ hyphen

/-- The string `r` is the longest prefix of `s` that contains neither `_` nor `-`. -/
def IsLongestPrefixWithoutSeparator (r s : Bytes) : Prop :=
  r <+: s ∧ noSeparator r ∧ ∀ r2 : Bytes, r2 <+: s → noSeparator r2 → r2.length ≤ r.length

/-! ## Sequences of registry calls -/

/-- The registry after the calls `addScriptConfig(c)` for the entries `c` of
`calls`, in order, started with the registry `scriptConfigs`. -/
def addScriptConfigs (scriptConfigs calls : List BTCScriptConfigWithKeypath) :
    List BTCScriptConfigWithKeypath :=
  calls.foldl (fun l c => (addScriptConfig l c).1) scriptConfigs

/-- The registry after the calls `addOutputScriptConfig(c)` for the entries `c` of
`calls`, in order, started with the registry `outputScriptConfigs`. -/
def addOutputScriptConfigs (outputScriptConfigs calls : List BTCScriptConfigWithKeypath) :
    List BTCScriptConfigWithKeypath :=
  calls.foldl (fun l c => (addOutputScriptConfig l c).1) outputScriptConfigs

/-- The first entry of each simple type, in order of first appearance. -/
def firstOfEachType : List BTCScriptConfigWithKeypath → List BTCScriptConfigWithKeypath
  | [] => []
  | c :: rest =>
    c :: (firstOfEachType rest).filter
      (fun d => decide (d.ScriptConfig.SimpleType ≠ c.ScriptConfig.SimpleType))

/-! ## Account configurations behind the registries -/

/-- The account configuration `c` is one of those whose script configuration
`signBTCTransaction` passes to `addScriptConfig`: the account configuration of
the address of a spent output, or of an output that `GetKeystoreAddress`
resolves to the sending account. -/
def RegistersScriptConfig (env : Env) (btcProposedTx : ProposedTransaction)
    (c : Configuration) : Prop :=
  (∃ txIn ∈ btcProposedTx.TXProposal.Transaction.TxIn, ∃ prevOut,
    btcProposedTx.TXProposal.PreviousOutputs txIn.PreviousOutPoint = some prevOut ∧
      prevOut.Address.AccountConfiguration = c) ∨
  (∃ txOut ∈ btcProposedTx.TXProposal.Transaction.TxOut, ∃ a,
    btcProposedTx.GetKeystoreAddress btcProposedTx.SendingAccount
        (env.NewScriptHashHex txOut.PkScript) = .ok (some a, true) ∧
      a.AccountConfiguration = c)

/-- The account configuration `c` is one of those whose script configuration
`signBTCTransaction` passes to `addOutputScriptConfig`: the account configuration
of an output that `GetKeystoreAddress` resolves to another account. -/
def RegistersOutputScriptConfig (env : Env) (btcProposedTx : ProposedTransaction)
    (c : Configuration) : Prop :=
  ∃ txOut ∈ btcProposedTx.TXProposal.Transaction.TxOut, ∃ a,
    btcProposedTx.GetKeystoreAddress btcProposedTx.SendingAccount
        (env.NewScriptHashHex txOut.PkScript) = .ok (some a, false) ∧
      a.AccountConfiguration = c

/-- The registry entry that `signBTCTransaction` builds for an account
configuration whose script type maps to `t`. -/
def scriptConfigOf (t : BTCScriptConfig_SimpleType) (c : Configuration) :
    BTCScriptConfigWithKeypath :=
  { ScriptConfig := NewBTCScriptConfigSimple t, Keypath := c.AbsoluteKeypath }

/-! ## Concrete inputs -/

/-- The table `btcMsgCoinMap` used in the examples. -/
def exampleCoinMap : Code → Option BTCCoin
  | .BTC => some .BTC
  | .TBTC => some .TBTC
  | .RBTC => some .RBTC
  | .LTC => some .LTC
  | .TLTC => some .TLTC
  | _ => none

/-- The table `btcMsgScriptTypeMap` used in the examples. -/
def exampleScriptTypeMap : ScriptType → Option BTCScriptConfig_SimpleType
  | .P2WPKHP2SH => some .P2WPKH_P2SH
  | .P2WPKH => some .P2WPKH
  | .P2TR => some .P2TR
  | _ => none

/-- A script decoder for the examples: the first byte selects the address type. -/
def exampleAddressFromPkScript (script : Bytes) (_net : BitcoinNet) : Except Error Address :=
  match script with
  | 0x76 :: rest => .ok { kind := .AddressPubKeyHash, ScriptAddress := rest }
  | 0xa9 :: rest => .ok { kind := .AddressScriptHash, ScriptAddress := rest }
  | 0x00 :: rest => .ok { kind := .AddressWitnessPubKeyHash, ScriptAddress := rest }
  | 0x51 :: rest => .ok { kind := .AddressTaproot, ScriptAddress := rest }
  | _ => .error (.external "unknown script")

/-- A script-hash function for the examples: one letter per byte. -/
def exampleScriptHashHex (script : Bytes) : String :=
  String.mk (script.map (fun b => Char.ofNat (97 + b.val % 16)))

/-- An environment with firmware `version` whose device answers every `BTCSign`
call with `answer`. -/
def exampleEnv (version : SemVer) (answer : Except Error BTCSignResult) : Env :=
  { device :=
      { Version := version
        SupportsLTC := false
        SupportsETH := fun _ => true
        SupportsERC20 := fun _ => false }
    BTCSign := fun _ => answer
    btcMsgCoinMap := exampleCoinMap
    btcMsgScriptTypeMap := exampleScriptTypeMap
    AddressFromPkScript := exampleAddressFromPkScript
    NewScriptHashHex := exampleScriptHashHex
    BTCSignNeedsPrevTxs := fun scriptConfigs =>
      scriptConfigs.any (fun sc => decide (sc.ScriptConfig.SimpleType ≠ .P2TR)) }

/-- A native-segwit address of the account at keypath `account`, with the given script. -/
def exampleAddress (account : List Nat) (script : Bytes) : AccountAddress :=
  { AccountConfiguration := { ScriptType := .P2WPKH, AbsoluteKeypath := account }
    Configuration := { ScriptType := .P2WPKH, AbsoluteKeypath := account ++ [0, 7] }
    PubkeyScript := script
    BIP352Pubkey := .ok [2, 3] }

/-- The previous transaction every example input spends from. -/
def examplePrevTx : MsgTx :=
  { Version := 2
    TxIn := []
    TxOut := [{ Value := 1000, PkScript := [0x00, 0x11] }]
    LockTime := 0 }

/-- A proposal with `inputs` inputs, each spending an output of the sending
account, and one output per script of `scripts`; `OutIndex` is 0 and `lookup`
is the callback `GetKeystoreAddress` as a function of the script hash. -/
def exampleProposal (inputs : Nat) (scripts : List Bytes) (change : Option AccountAddress)
    (silentPaymentAddress : String)
    (lookup : String → Except Error (Option AccountAddress × Bool)) : ProposedTransaction :=
  { TXProposal :=
      { Coin := { Code := .BTC, Net := .btcMainNet }
        Transaction :=
          { Version := 2
            TxIn := (List.range inputs).map (fun i =>
              { PreviousOutPoint := { Hash := [1], Index := i }, Sequence := 4294967295 })
            TxOut := scripts.map (fun s => { Value := 500, PkScript := s })
            LockTime := 0 }
        ChangeAddress := change
        PreviousOutputs := fun op =>
          if op.Hash = [1] then
            some { TxOut := { Value := 1000, PkScript := [0x00, 0x11] }
                   Address := exampleAddress [84, 0, 0] [0x00, 0x11] }
          else none
        OutIndex := 0
        SilentPaymentAddress := silentPaymentAddress
        PaymentRequest := none }
    SendingAccount := "account-0"
    GetPrevTx := fun _ => .ok examplePrevTx
    Signatures := List.replicate inputs none
    FormatUnit := .BtcUnitDefault
    GetKeystoreAddress := fun _ hash => lookup hash }

/-- A device answer with one 64-byte signature per entry of `fill`. -/
def exampleAnswer (fill : List Byte) (generated : List (Int × Bytes)) :
    Except Error BTCSignResult :=
  .ok { Signatures := fill.map (fun b => List.replicate 64 b), GeneratedOutputs := generated }

/-- A proposal with three outputs: position 0 pays an address of another account
of the keystore, position 1 pays a non-change address of the sending account,
position 2 is the change output. -/
def exampleProposalThreeOutputs : ProposedTransaction :=
  exampleProposal 1 [[0x00, 0x21], [0x00, 0x22], [0x00, 0x23]]
    (some (exampleAddress [84, 0, 0] [0x00, 0x23])) ""
    (fun hash =>
      if hash = exampleScriptHashHex [0x00, 0x21] then
        .ok (some (exampleAddress [84, 0, 1] [0x00, 0x21]), false)
      else .ok (some (exampleAddress [84, 0, 0] [0x00, 0x22]), true))

/-- The `BTCSign` call made for `exampleProposalThreeOutputs` on firmware 9.22.0. -/
def exampleCallThreeOutputs : BTCSignCall :=
  { coin := .BTC
    scriptConfigs := [{ ScriptConfig := { SimpleType := .P2WPKH }, Keypath := [84, 0, 0] }]
    outputScriptConfigs := [{ ScriptConfig := { SimpleType := .P2WPKH }, Keypath := [84, 0, 1] }]
    tx :=
      { Version := 2
        Inputs :=
          [{ Input :=
               { PrevOutHash := [1]
                 PrevOutIndex := 0
                 PrevOutValue := 1000
                 Sequence := 4294967295
                 Keypath := [84, 0, 0, 0, 7]
                 ScriptConfigIndex := 0 }
             PrevTx := some { fromBtcd := examplePrevTx }
             BIP352Pubkey := none }]
        Outputs :=
          [{ Ours := true, Type_ := .P2WPKH, Value := 500, Payload := [0x21]
             Keypath := [84, 0, 1, 0, 7], ScriptConfigIndex := 0, PaymentRequestIndex := none
             SilentPayment := none, OutputScriptConfigIndex := some 0 },
           { Ours := true, Type_ := .P2WPKH, Value := 500, Payload := [0x22]
             Keypath := [84, 0, 0, 0, 7], ScriptConfigIndex := 0, PaymentRequestIndex := none
             SilentPayment := none, OutputScriptConfigIndex := none },
           { Ours := true, Type_ := .P2WPKH, Value := 500, Payload := [0x23]
             Keypath := [84, 0, 0, 0, 7], ScriptConfigIndex := 0, PaymentRequestIndex := none
             SilentPayment := none, OutputScriptConfigIndex := none }]
        Locktime := 0
        PaymentRequests := [] }
    formatUnit := .DEFAULT }

/-- The `BTCSign` call made for `exampleProposalThreeOutputs` on firmware 9.14.0:
only the change output is marked. -/
def exampleCallThreeOutputsOld : BTCSignCall :=
  { exampleCallThreeOutputs with
    outputScriptConfigs := []
    tx :=
      { exampleCallThreeOutputs.tx with
        Outputs :=
          [{ Ours := false, Type_ := .P2WPKH, Value := 500, Payload := [0x21]
             Keypath := [], ScriptConfigIndex := 0, PaymentRequestIndex := none
             SilentPayment := none, OutputScriptConfigIndex := none },
           { Ours := false, Type_ := .P2WPKH, Value := 500, Payload := [0x22]
             Keypath := [], ScriptConfigIndex := 0, PaymentRequestIndex := none
             SilentPayment := none, OutputScriptConfigIndex := none },
           { Ours := true, Type_ := .P2WPKH, Value := 500, Payload := [0x23]
             Keypath := [84, 0, 0, 0, 7], ScriptConfigIndex := 0, PaymentRequestIndex := none
             SilentPayment := none, OutputScriptConfigIndex := none }] } }

/-- A proposal with two inputs and one change output. -/
def exampleProposalTwoInputs : ProposedTransaction :=
  exampleProposal 2 [[0x00, 0x23]] (some (exampleAddress [84, 0, 0] [0x00, 0x23])) ""
    (fun _ => .ok (some (exampleAddress [84, 0, 0] [0x00, 0x23]), true))

/-- A silent-payment proposal: the output at position 0 (`OutIndex`) is the
silent-payment output, the output at position 1 pays an external script. -/
def exampleProposalSilentPayment : ProposedTransaction :=
  exampleProposal 1 [[0x51, 0x01], [0x00, 0x22]] none "sp1qexample"
    (fun _ => .ok (none, false))

/-- A device answer that reports generated outputs for positions 0 and 1, visited
in this order. -/
def exampleAnswerTwoGenerated : Except Error BTCSignResult :=
  exampleAnswer [1] [(0, [0x51, 0x77]), (1, [0x51, 0x78])]

/-- The example proposal with an empty `PreviousOutputs` map. -/
def exampleProposalMissingPrevOut : ProposedTransaction :=
  { exampleProposalThreeOutputs with
    TXProposal :=
      { exampleProposalThreeOutputs.TXProposal with PreviousOutputs := fun _ => none } }

/-- A device that answers every signing call with `sign`, every display or
public-key call with `display`, and every `BTCSignMessage` call with `message`. -/
def exampleOps (sign : Except Error Bytes) (display : Except Error String)
    (message : BTCSignMessageAnswer) : DeviceOps :=
  { ETHSign := fun _ => sign
    ETHSignEIP1559 := fun _ => sign
    ETHSignMessage := fun _ => sign
    ETHSignTypedMessage := fun _ => sign
    ETHPub := fun _ => display
    BTCAddress := fun _ => display
    BTCXPub := fun _ => display
    BTCSignMessage := fun _ => message }

/-- The device error of a user abort. -/
def exampleAbort : Error := .device 104 "aborted"

/-- A device that answers every call with a user abort; its `BTCSignMessage` hands
back the result `signResult` together with the error. -/
def exampleOpsAbort (signResult : Option BTCSignMessageResult) : DeviceOps :=
  exampleOps (.error exampleAbort) (.error exampleAbort)
    { signResult := signResult, err := some exampleAbort }

/-- Library functions for the examples: `WithSignature` returns an error for a
signer with chain id 0, panics on a signature that is not 65 bytes long, and
otherwise sets `R`, `S` and `V`; every non-empty string parses to a key of
depth 4, and a derivation steps one level down. -/
def exampleLibrary : Library :=
  { ETHIdentifyCase := fun _ => .ETH_ADDRESS_CASE_MIXED
    WithSignature := fun tx signer sig =>
      if signer.ChainID = 0 then .error (.error (.external "invalid chain id for signer"))
      else if sig.length = 65 then
        .ok { tx with
              R := SetBytes (sig.take 32)
              S := SetBytes ((sig.drop 32).take 32)
              V := SetBytes (sig.drop 64) }
      else .error (.panic "wrong size for signature")
    NewKeyFromString := fun s =>
      if s = "" then .error (.external "empty key")
      else
        .ok { key := [2], chainCode := [7], depth := 4, parentFP := [0, 0, 0, 0], childNum := 0
              version := [4, 136, 178, 30], isPrivate := false }
    Derive := fun k i => .ok { k with depth := k.depth + 1, childNum := i }
    ContractAddressBytes := fun _ => [0xda, 0xc1] }

/-- An Ethereum proposal of the given transaction type, with or without recipient. -/
def exampleEthProposal (txType : Nat) (recipient : Option Bytes) : EthTxProposal :=
  { ChainID := 1
    Tx :=
      { To := recipient, Type_ := txType, Nonce := 3, GasTipCap := 2, GasFeeCap := 30
        GasPrice := 25, Gas := 21000, Value := 1000, Data := [], V := 0, R := 0, S := 0 }
    Signer := { ChainID := 1 }
    Keypath := [44, 60, 0, 0, 0]
    RecipientAddress := "0xAb" }

/-- A device whose `RootFingerprint` fails on its first `failures` calls and then
answers with the fingerprint `[1, 2, 3, 4]`. -/
def exampleFingerprintDevice (failures : Nat) (n : Nat) : Except Error (Option Bytes) :=
  if n < failures then .error (.external "not connected") else .ok (some [1, 2, 3, 4])

/-- The example proposal with a `GetPrevTx` that fails for every hash. -/
def exampleProposalPrevTxFails : ProposedTransaction :=
  { exampleProposalThreeOutputs with GetPrevTx := fun _ => .error (.external "fetch failed") }

/-- A silent-payment proposal whose output at `OutIndex` (position 0) carries a
script that the decoder of the examples rejects. -/
def exampleProposalSilentPaymentUndecodable : ProposedTransaction :=
  exampleProposal 1 [[0xff, 0x01], [0x00, 0x22]] none "sp1qexample"
    (fun _ => .ok (none, false))

/-- The `BTCSign` call made for `exampleProposalSilentPaymentUndecodable`. -/
def exampleCallSilentPayment : BTCSignCall :=
  { coin := .BTC
    scriptConfigs := [{ ScriptConfig := { SimpleType := .P2WPKH }, Keypath := [84, 0, 0] }]
    outputScriptConfigs := []
    tx :=
      { Version := 2
        Inputs :=
          [{ Input :=
               { PrevOutHash := [1]
                 PrevOutIndex := 0
                 PrevOutValue := 1000
                 Sequence := 4294967295
                 Keypath := [84, 0, 0, 0, 7]
                 ScriptConfigIndex := 0 }
             PrevTx := some { fromBtcd := examplePrevTx }
             BIP352Pubkey := some [2, 3] }]
        Outputs :=
          [{ Ours := false, Type_ := .UNKNOWN, Value := 500, Payload := []
             Keypath := [], ScriptConfigIndex := 0, PaymentRequestIndex := none
             SilentPayment := some { Address := "sp1qexample" }
             OutputScriptConfigIndex := none },
           { Ours := false, Type_ := .P2WPKH, Value := 500, Payload := [0x22]
             Keypath := [], ScriptConfigIndex := 0, PaymentRequestIndex := none
             SilentPayment := none, OutputScriptConfigIndex := none }]
        Locktime := 0
        PaymentRequests := [] }
    formatUnit := .DEFAULT }

/-- A payment request with two memos. -/
def examplePaymentRequest : PaymentRequest :=
  { RecipientName := "Merchant"
    Memos := [{ Note := "first" }, { Note := "second" }]
    Nonce := [9]
    TotalAmount := 500
    Signature := [7, 7] }

/-- The example proposal with a payment request for the output at position 1. -/
def exampleProposalPaymentRequest : ProposedTransaction :=
  { exampleProposalThreeOutputs with
    TXProposal :=
      { exampleProposalThreeOutputs.TXProposal with
        OutIndex := 1
        PaymentRequest := some examplePaymentRequest } }

/-- The `BTCSign` call made for `exampleProposalPaymentRequest` on firmware 9.22.0. -/
def exampleCallPaymentRequest : BTCSignCall :=
  { exampleCallThreeOutputs with
    tx :=
      { exampleCallThreeOutputs.tx with
        Outputs :=
          [{ Ours := true, Type_ := .P2WPKH, Value := 500, Payload := [0x21]
             Keypath := [84, 0, 1, 0, 7], ScriptConfigIndex := 0, PaymentRequestIndex := none
             SilentPayment := none, OutputScriptConfigIndex := some 0 },
           { Ours := true, Type_ := .P2WPKH, Value := 500, Payload := [0x22]
             Keypath := [84, 0, 0, 0, 7], ScriptConfigIndex := 0, PaymentRequestIndex := some 0
             SilentPayment := none, OutputScriptConfigIndex := none },
           { Ours := true, Type_ := .P2WPKH, Value := 500, Payload := [0x23]
             Keypath := [84, 0, 0, 0, 7], ScriptConfigIndex := 0, PaymentRequestIndex := none
             SilentPayment := none, OutputScriptConfigIndex := none }]
        PaymentRequests :=
          [{ RecipientName := "Merchant", Memos := ["first", "second"], Nonce := [9]
             TotalAmount := 500, Signature := [7, 7] }] } }

/-- A proposal with two outputs that pay two other accounts of the keystore, at
the keypaths `[84, 0, 1]` and `[84, 0, 2]`, both native segwit. -/
def exampleProposalTwoOtherAccounts : ProposedTransaction :=
  exampleProposal 1 [[0x00, 0x21], [0x00, 0x24]] none ""
    (fun hash =>
      if hash = exampleScriptHashHex [0x00, 0x21] then
        .ok (some (exampleAddress [84, 0, 1] [0x00, 0x21]), false)
      else .ok (some (exampleAddress [84, 0, 2] [0x00, 0x24]), false))

/-! ## Firmware versions: the order -/

theorem SemVer.atLeast_iff (v o : SemVer) : v.AtLeast o = true ↔ SemVer.NotBelow v o := by
  obtain ⟨a, b, c⟩ := v
  obtain ⟨x, y, z⟩ := o
  simp only [SemVer.AtLeast, SemVer.NotBelow, SemVer.Below, SemVer.mk.injEq]
  split_ifs <;> simp <;> omega

theorem SemVer.atLeast_false_iff (v o : SemVer) : v.AtLeast o = false ↔ SemVer.Below v o := by
  obtain ⟨a, b, c⟩ := v
  obtain ⟨x, y, z⟩ := o
  simp only [SemVer.AtLeast, SemVer.Below]
  split_ifs <;> simp <;> omega

theorem SemVer.atLeast_eq_decide (v o : SemVer) :
    v.AtLeast o = decide (SemVer.NotBelow v o) := by
  rw [Bool.eq_iff_iff]
  simp [SemVer.atLeast_iff]

theorem SemVer.atLeast_trans (v a b : SemVer) (hab : a.AtLeast b = true)
    (hva : v.AtLeast a = true) : v.AtLeast b = true := by
  rw [SemVer.atLeast_iff] at *
  obtain ⟨a1, a2, a3⟩ := a
  obtain ⟨b1, b2, b3⟩ := b
  obtain ⟨v1, v2, v3⟩ := v
  simp only [SemVer.NotBelow, SemVer.Below, SemVer.mk.injEq] at *
  omega

/-! ## The request: outputs -/

/-- The ownership flag that `outputRequest` computes from the lookup result. -/
theorem outputRequest_ours (env : Env) (p : ProposedTransaction) (net : BitcoinNet)
    (index : Nat) (txOut : TxOut) (scs oscs : List BTCScriptConfigWithKeypath)
    (r : BTCSignOutputRequest × List BTCScriptConfigWithKeypath × List BTCScriptConfigWithKeypath)
    (addr : Option AccountAddress) (same : Bool)
    (hr : outputRequest env p net index txOut scs oscs = .ok r)
    (hk : p.GetKeystoreAddress p.SendingAccount (env.NewScriptHashHex txOut.PkScript) =
      .ok (addr, same)) :
    r.1.Ours =
      (addr.isSome &&
        (isChange p.TXProposal.ChangeAddress txOut || env.device.Version.AtLeast ⟨9, 15, 0⟩) &&
        (same || env.device.Version.AtLeast ⟨9, 22, 0⟩)) := by
  unfold outputRequest at hr
  rw [hk] at hr
  dsimp only at hr
  generalize outputTypeAndPayload env p net _ txOut = decoded at hr
  cases decoded with
  | error a => cases hr
  | ok v =>
    obtain ⟨ty, payload, sp⟩ := v
    dsimp only at hr
    cases hc : isChange p.TXProposal.ChangeAddress txOut <;>
      cases h15 : env.device.Version.AtLeast ⟨9, 15, 0⟩ <;>
      cases addr <;>
      simp only [hc, h15, Option.isSome, Bool.not_true, Bool.not_false, Bool.and_true,
        Bool.and_false, Bool.true_and, Bool.false_and, Bool.or_true, Bool.or_false,
        Bool.true_or, Bool.false_or, if_true, if_false, Bool.false_eq_true] at hr ⊢ <;>
      first
      | (cases hr; rfl)
      | (rename_i a
         cases hm : env.btcMsgScriptTypeMap a.AccountConfiguration.ScriptType with
         | none => simp [hm] at hr
         | some t =>
           simp only [hm] at hr
           cases same <;> cases h22 : env.device.Version.AtLeast ⟨9, 22, 0⟩ <;>
             simp only [h22, if_true, if_false, Bool.false_eq_true] at hr <;>
             cases hr <;> rfl)

/-- Every output of a finished `outputsLoop` is the request `outputRequest` builds
for the transaction output at the same position. -/
theorem outputsLoop_get (env : Env) (p : ProposedTransaction) (net : BitcoinNet) :
    ∀ (txOuts : List TxOut) (k : Nat) (scs oscs : List BTCScriptConfigWithKeypath)
      (res : List BTCSignOutputRequest × List BTCScriptConfigWithKeypath ×
        List BTCScriptConfigWithKeypath),
      outputsLoop env p net k txOuts scs oscs = .ok res →
      ∀ (i : Nat) (txOut : TxOut), txOuts[i]? = some txOut →
        ∃ scs1 oscs1 r, outputRequest env p net (k + i) txOut scs1 oscs1 = .ok r ∧
          res.1[i]? = some r.1 := by
  intro txOuts
  induction txOuts with
  | nil => intro k scs oscs res _ i txOut hi; simp at hi
  | cons t rest ih =>
    intro k scs oscs res h i txOut hi
    unfold outputsLoop at h
    cases h1 : outputRequest env p net k t scs oscs with
    | error a => simp [h1] at h
    | ok v =>
      obtain ⟨o, scs1, oscs1⟩ := v
      simp only [h1] at h
      cases h2 : outputsLoop env p net (k + 1) rest scs1 oscs1 with
      | error a => simp [h2] at h
      | ok w =>
        obtain ⟨os, scs2, oscs2⟩ := w
        simp only [h2] at h
        cases h
        cases i with
        | zero =>
          simp at hi
          subst hi
          exact ⟨scs, oscs, _, h1, by simp⟩
        | succ j =>
          simp at hi
          obtain ⟨a, b, r, hr, hget⟩ := ih (k + 1) scs1 oscs1 _ h2 j txOut hi
          refine ⟨a, b, r, ?_, by simpa using hget⟩
          have : k + 1 + j = k + (j + 1) := by omega
          rw [← this]
          exact hr

/-- Attaching the payment request changes nothing but `PaymentRequestIndex`. -/
theorem attachPaymentRequest_get (p : ProposedTransaction)
    (outputs outputs2 : List BTCSignOutputRequest) (prs : List BTCPaymentRequestRequest)
    (h : attachPaymentRequest p outputs = .ok (outputs2, prs))
    (i : Nat) (out : BTCSignOutputRequest) (hi : outputs[i]? = some out) :
    ∃ out2, outputs2[i]? = some out2 ∧
      out2 = { out with PaymentRequestIndex := out2.PaymentRequestIndex } := by
  unfold attachPaymentRequest at h
  cases hp : p.TXProposal.PaymentRequest with
  | none =>
    simp only [hp] at h
    cases h
    exact ⟨out, hi, rfl⟩
  | some pr =>
    simp only [hp] at h
    split_ifs at h
    cases ho : outputs[p.TXProposal.OutIndex.toNat]? with
    | none => simp [ho] at h
    | some o =>
      simp only [ho] at h
      cases h
      by_cases hEq : p.TXProposal.OutIndex.toNat = i
      · subst hEq
        rw [hi] at ho
        cases ho
        have hlt : p.TXProposal.OutIndex.toNat < outputs.length := by
          rcases List.getElem?_eq_some_iff.mp hi with ⟨hlt, _⟩
          exact hlt
        exact ⟨{ out with PaymentRequestIndex := some 0 }, by simp [List.getElem?_set, hlt], rfl⟩
      · refine ⟨out, ?_, rfl⟩
        rw [List.getElem?_set_ne hEq]
        exact hi

/-- The device is called exactly when the request could be built, and then once. -/
theorem signBTCTransaction_calls (env : Env) (p : ProposedTransaction) :
    (signBTCTransaction env p).calls =
      match buildBTCSignCall env p with
      | .ok call => [call]
      | .error _ => [] := by
  unfold signBTCTransaction
  cases buildBTCSignCall env p with
  | error a => rfl
  | ok call =>
    simp only
    cases env.BTCSign call with
    | error err => by_cases hab : IsErrorAbort err = true <;> simp [hab]
    | ok res =>
      simp only
      cases hg : generatedOutputsLoop res.GeneratedOutputs p with
      | mk p1 r1 =>
        cases r1 with
        | some a => rfl
        | none =>
          simp only
          cases hs : signaturesLoop 0 res.Signatures p1 with
          | mk p2 r2 => cases r2 <;> rfl

theorem buildBTCSignCall_of_calls (env : Env) (p : ProposedTransaction) (call : BTCSignCall)
    (h : (signBTCTransaction env p).calls = [call]) : buildBTCSignCall env p = .ok call := by
  rw [signBTCTransaction_calls] at h
  cases hb : buildBTCSignCall env p with
  | error a => simp [hb] at h
  | ok c =>
    simp [hb] at h
    rw [h]

/-- Every output of the request sent to the device is what `outputRequest` builds
for the transaction output at the same position, up to `PaymentRequestIndex`. -/
theorem buildBTCSignCall_output (env : Env) (p : ProposedTransaction) (call : BTCSignCall)
    (h : buildBTCSignCall env p = .ok call) (i : Nat) (txOut : TxOut)
    (hi : p.TXProposal.Transaction.TxOut[i]? = some txOut) :
    ∃ scs oscs r out, outputRequest env p p.TXProposal.Coin.Net i txOut scs oscs = .ok r ∧
      call.tx.Outputs[i]? = some out ∧
      out = { r.1 with PaymentRequestIndex := out.PaymentRequestIndex } := by
  unfold buildBTCSignCall at h
  simp only at h
  cases h0 : env.btcMsgCoinMap p.TXProposal.Coin.Code with
  | none => simp [h0] at h
  | some msgCoin =>
    simp only [h0] at h
    cases h1 : inputsLoop env p p.TXProposal.Transaction.TxIn [] with
    | error a => simp [h1] at h
    | ok v =>
      obtain ⟨inputs, scs1⟩ := v
      simp only [h1] at h
      cases h2 : outputsLoop env p p.TXProposal.Coin.Net 0 p.TXProposal.Transaction.TxOut scs1 []
        with
      | error a => simp [h2] at h
      | ok w =>
        obtain ⟨outputs, scs, oscs⟩ := w
        simp only [h2] at h
        obtain ⟨a, b, r, hr, hget⟩ := outputsLoop_get env p _ _ 0 scs1 [] _ h2 i txOut hi
        rw [Nat.zero_add] at hr
        split at h
        · cases h
        · split at h
          · cases h
          · rename_i outputs2 prs hatt
            cases h
            obtain ⟨out2, hout2, heq⟩ := attachPaymentRequest_get p _ _ _ hatt i r.1 hget
            exact ⟨a, b, r, out2, hr, hout2, heq⟩

/-- The ownership flag of every output sent to the device, in terms of the lookup result. -/
theorem signBTCTransaction_ours (env : Env) (p : ProposedTransaction) (call : BTCSignCall)
    (hcall : (signBTCTransaction env p).calls = [call]) (i : Nat) (txOut : TxOut)
    (hi : p.TXProposal.Transaction.TxOut[i]? = some txOut)
    (addr : Option AccountAddress) (same : Bool)
    (hk : p.GetKeystoreAddress p.SendingAccount (env.NewScriptHashHex txOut.PkScript) =
      .ok (addr, same)) :
    ∃ out, call.tx.Outputs[i]? = some out ∧
      out.Ours =
        (addr.isSome &&
          (isChange p.TXProposal.ChangeAddress txOut || env.device.Version.AtLeast ⟨9, 15, 0⟩) &&
          (same || env.device.Version.AtLeast ⟨9, 22, 0⟩)) := by
  have hb := buildBTCSignCall_of_calls env p call hcall
  obtain ⟨scs, oscs, r, out, hr, hout, heq⟩ := buildBTCSignCall_output env p call hb i txOut hi
  refine ⟨out, hout, ?_⟩
  rw [← outputRequest_ours env p _ i txOut scs oscs r addr same hr hk, heq]

/-! ## Output ownership (C1, C2, C3) -/

/-- C1: at every firmware version, an output whose script equals the change
address's pubkey script is sent with `Ours = true`.  The change address being an
address of the sending account, `GetKeystoreAddress` resolves its script to an
address of the sending account. -/
theorem change_output_ours (env : Env) (p : ProposedTransaction) (call : BTCSignCall)
    (hcall : (signBTCTransaction env p).calls = [call]) (i : Nat) (txOut : TxOut)
    (hi : p.TXProposal.Transaction.TxOut[i]? = some txOut)
    (changeAddress : AccountAddress)
    (hchange : p.TXProposal.ChangeAddress = some changeAddress)
    (hscript : changeAddress.PubkeyScript = txOut.PkScript)
    (outputAddress : AccountAddress)
    (hk : p.GetKeystoreAddress p.SendingAccount (env.NewScriptHashHex txOut.PkScript) =
      .ok (some outputAddress, true)) :
    ∃ out, call.tx.Outputs[i]? = some out ∧ out.Ours = true := by
  obtain ⟨out, hout, hours⟩ :=
    signBTCTransaction_ours env p call hcall i txOut hi (some outputAddress) true hk
  refine ⟨out, hout, ?_⟩
  have hc : isChange p.TXProposal.ChangeAddress txOut = true := by
    simp [isChange, hchange, hscript]
  rw [hours, hc]
  rfl

/-- Witness of C1: the change output at position 2 of the example, on firmware
9.14.0, where no other output is marked. -/
theorem change_output_ours_witness :
    (∃ out, exampleCallThreeOutputsOld.tx.Outputs[2]? = some out ∧ out.Ours = true) ∧
    exampleCallThreeOutputsOld.tx.Outputs.map (fun o => o.Ours) = [false, false, true] :=
  ⟨change_output_ours (exampleEnv ⟨9, 14, 0⟩ (exampleAnswer [1] [])) exampleProposalThreeOutputs
    exampleCallThreeOutputsOld (by decide) 2 { Value := 500, PkScript := [0x00, 0x23] }
    (by decide) (exampleAddress [84, 0, 0] [0x00, 0x23]) (by rfl) (by rfl)
    (exampleAddress [84, 0, 0] [0x00, 0x22]) (by rfl), by decide⟩

/-- C2: a non-change output that `GetKeystoreAddress` resolves to an address of
another account of the keystore is sent with `Ours = true` if and only if the
firmware version is at least 9.22.0. -/
theorem other_account_output_ours (env : Env) (p : ProposedTransaction) (call : BTCSignCall)
    (hcall : (signBTCTransaction env p).calls = [call]) (i : Nat) (txOut : TxOut)
    (hi : p.TXProposal.Transaction.TxOut[i]? = some txOut)
    (hnotChange : isChange p.TXProposal.ChangeAddress txOut = false)
    (outputAddress : AccountAddress)
    (hk : p.GetKeystoreAddress p.SendingAccount (env.NewScriptHashHex txOut.PkScript) =
      .ok (some outputAddress, false)) :
    ∃ out, call.tx.Outputs[i]? = some out ∧
      (out.Ours = true ↔ SemVer.NotBelow env.device.Version ⟨9, 22, 0⟩) := by
  obtain ⟨out, hout, hours⟩ :=
    signBTCTransaction_ours env p call hcall i txOut hi (some outputAddress) false hk
  refine ⟨out, hout, ?_⟩
  rw [hours, hnotChange, ← SemVer.atLeast_iff]
  have htrans := SemVer.atLeast_trans env.device.Version ⟨9, 22, 0⟩ ⟨9, 15, 0⟩ (by decide)
  cases h22 : env.device.Version.AtLeast ⟨9, 22, 0⟩
  · simp
  · simp [htrans h22]

/-- Witness of C2: the output at position 0 of the example, on firmware 9.22.0. -/
theorem other_account_output_ours_witness :
    ∃ out, exampleCallThreeOutputs.tx.Outputs[0]? = some out ∧
      (out.Ours = true ↔
        SemVer.NotBelow (exampleEnv ⟨9, 22, 0⟩ (exampleAnswer [1] [])).device.Version ⟨9, 22, 0⟩) :=
  other_account_output_ours (exampleEnv ⟨9, 22, 0⟩ (exampleAnswer [1] []))
    exampleProposalThreeOutputs exampleCallThreeOutputs (by decide) 0
    { Value := 500, PkScript := [0x00, 0x21] } (by decide) (by decide)
    (exampleAddress [84, 0, 1] [0x00, 0x21]) (by rfl)

/-- C3: a non-change output that `GetKeystoreAddress` resolves to an address of
the sending account is sent with `Ours = true` if and only if the firmware
version is at least 9.15.0, and with `Ours = false` if and only if it is below. -/
theorem same_account_output_ours (env : Env) (p : ProposedTransaction) (call : BTCSignCall)
    (hcall : (signBTCTransaction env p).calls = [call]) (i : Nat) (txOut : TxOut)
    (hi : p.TXProposal.Transaction.TxOut[i]? = some txOut)
    (hnotChange : isChange p.TXProposal.ChangeAddress txOut = false)
    (outputAddress : AccountAddress)
    (hk : p.GetKeystoreAddress p.SendingAccount (env.NewScriptHashHex txOut.PkScript) =
      .ok (some outputAddress, true)) :
    ∃ out, call.tx.Outputs[i]? = some out ∧
      (out.Ours = true ↔ SemVer.NotBelow env.device.Version ⟨9, 15, 0⟩) ∧
      (out.Ours = false ↔ SemVer.Below env.device.Version ⟨9, 15, 0⟩) := by
  obtain ⟨out, hout, hours⟩ :=
    signBTCTransaction_ours env p call hcall i txOut hi (some outputAddress) true hk
  refine ⟨out, hout, ?_, ?_⟩
  · rw [hours, hnotChange, ← SemVer.atLeast_iff]
    simp
  · rw [hours, hnotChange, ← SemVer.atLeast_false_iff]
    simp

/-- Witness of C3: the output at position 1 of the example, on firmware 9.22.0. -/
theorem same_account_output_ours_witness :
    ∃ out, exampleCallThreeOutputs.tx.Outputs[1]? = some out ∧
      (out.Ours = true ↔
        SemVer.NotBelow (exampleEnv ⟨9, 22, 0⟩ (exampleAnswer [1] [])).device.Version
          ⟨9, 15, 0⟩) ∧
      (out.Ours = false ↔
        SemVer.Below (exampleEnv ⟨9, 22, 0⟩ (exampleAnswer [1] [])).device.Version ⟨9, 15, 0⟩) :=
  same_account_output_ours (exampleEnv ⟨9, 22, 0⟩ (exampleAnswer [1] []))
    exampleProposalThreeOutputs exampleCallThreeOutputs (by decide) 1
    { Value := 500, PkScript := [0x00, 0x22] } (by decide) (by decide)
    (exampleAddress [84, 0, 0] [0x00, 0x22]) (by rfl)

/-! ## Capability queries (C9, C10) -/

/-- C9: on every Bitcoin-family coin that `SupportsCoin` accepts, `SupportsAccount`
equals the reference: taproot needs one of the codes BTC, TBTC, RBTC and a
firmware version of at least 9.10.0, P2PKH is never supported, every other
script type always is. -/
theorem SupportsAccount_eq_reference (device : DeviceInfo) (coin : BtcCoin)
    (scriptType : ScriptType) (h : SupportsCoin device (.btc coin) = true) :
    SupportsAccount device (.btc coin) scriptType =
      SupportsAccount_reference device.Version coin.Code scriptType := by
  obtain ⟨code, net⟩ := coin
  unfold SupportsAccount SupportsAccount_reference
  simp only [h, not_true_eq_false, if_false, Coin.Code]
  cases scriptType <;> cases code <;> simp [SemVer.atLeast_eq_decide]

/-- Witness of C9: taproot on Bitcoin mainnet with firmware 9.10.0. -/
theorem SupportsAccount_eq_reference_witness :
    SupportsAccount (exampleEnv ⟨9, 10, 0⟩ (exampleAnswer [] [])).device
        (.btc { Code := .BTC, Net := .btcMainNet }) .P2TR =
      SupportsAccount_reference (exampleEnv ⟨9, 10, 0⟩ (exampleAnswer [] [])).device.Version
        .BTC .P2TR :=
  SupportsAccount_eq_reference (exampleEnv ⟨9, 10, 0⟩ (exampleAnswer [] [])).device
    { Code := .BTC, Net := .btcMainNet } .P2TR (by decide)

/-- C10: `SupportsPaymentRequests` returns `ErrFirmwareUpgradeRequired` if and only
if the firmware version is below 9.20.0, and no error if and only if it is at
least 9.20.0. -/
theorem SupportsPaymentRequests_iff (device : DeviceInfo) :
    (SupportsPaymentRequests device = some Error.ErrFirmwareUpgradeRequired ↔
        SemVer.Below device.Version ⟨9, 20, 0⟩) ∧
      (SupportsPaymentRequests device = none ↔ SemVer.NotBelow device.Version ⟨9, 20, 0⟩) := by
  have h1 := SemVer.atLeast_iff device.Version ⟨9, 20, 0⟩
  have h2 := SemVer.atLeast_false_iff device.Version ⟨9, 20, 0⟩
  unfold SupportsPaymentRequests
  cases h : device.Version.AtLeast ⟨9, 20, 0⟩ <;> simp [h] at h1 h2 ⊢ <;> simp [h1, h2]

/-! ## Big-endian integers -/

theorem SetBytes_foldl (buf : Bytes) (acc : Nat) :
    buf.foldl (fun acc b => acc * 256 + b.val) acc = acc * 256 ^ buf.length + bigEndian buf := by
  induction buf generalizing acc with
  | nil => simp [bigEndian]
  | cons b rest ih =>
    simp only [List.foldl_cons, List.length_cons, bigEndian]
    rw [ih]
    ring

/-- `SetBytes` computes the big-endian value of the bytes. -/
theorem SetBytes_eq_bigEndian (buf : Bytes) : SetBytes buf = bigEndian buf := by
  unfold SetBytes
  rw [SetBytes_foldl]
  simp

theorem bigEndian_lt (buf : Bytes) : bigEndian buf < 256 ^ buf.length := by
  induction buf with
  | nil => simp [bigEndian]
  | cons b rest ih =>
    simp only [bigEndian, List.length_cons]
    have hb : b.val ≤ 255 := by have := b.isLt; omega
    have hpos : 0 < 256 ^ rest.length := by positivity
    calc b.val * 256 ^ rest.length + bigEndian rest
        < b.val * 256 ^ rest.length + 256 ^ rest.length := by omega
      _ = (b.val + 1) * 256 ^ rest.length := by ring
      _ ≤ 256 * 256 ^ rest.length := Nat.mul_le_mul_right _ (by omega)
      _ = 256 ^ (rest.length + 1) := by ring

theorem bigEndian_append (a b : Bytes) :
    bigEndian (a ++ b) = bigEndian a * 256 ^ b.length + bigEndian b := by
  induction a with
  | nil => simp [bigEndian]
  | cons x rest ih =>
    rw [List.cons_append, bigEndian, bigEndian, ih, List.length_append]
    ring

/-- The two halves of a 64-byte blob: both below `2 ^ 256`, and together the
value of the whole blob. -/
theorem bigEndian_halves (b : Bytes) (hlen : b.length = 64) :
    bigEndian (b.take 32) < 2 ^ 256 ∧ bigEndian (b.drop 32) < 2 ^ 256 ∧
      bigEndian (b.take 32) * 2 ^ 256 + bigEndian (b.drop 32) = bigEndian b := by
  have h1 : (b.take 32).length = 32 := by simp [hlen]
  have h2 : (b.drop 32).length = 32 := by simp [hlen]
  have hp : (256 : Nat) ^ 32 = 2 ^ 256 := by norm_num
  refine ⟨?_, ?_, ?_⟩
  · have := bigEndian_lt (b.take 32)
    rwa [h1, hp] at this
  · have := bigEndian_lt (b.drop 32)
    rwa [h2, hp] at this
  · have := bigEndian_append (b.take 32) (b.drop 32)
    rw [List.take_append_drop, h2, hp] at this
    exact this.symm

/-! ## The results: generated outputs and signatures -/

/-- `setPkScript` leaves every position other than `index` as it is. -/
theorem setPkScript_get_ne (p : ProposedTransaction) (index j : Nat) (script : Bytes)
    (hne : index ≠ j) :
    (setPkScript p index script).TXProposal.Transaction.TxOut[j]? =
      p.TXProposal.Transaction.TxOut[j]? := by
  unfold setPkScript
  dsimp only
  cases p.TXProposal.Transaction.TxOut[index]? with
  | none => rfl
  | some t => exact List.getElem?_set_ne hne

theorem setPkScript_length (p : ProposedTransaction) (index : Nat) (script : Bytes) :
    (setPkScript p index script).TXProposal.Transaction.TxOut.length =
      p.TXProposal.Transaction.TxOut.length := by
  unfold setPkScript
  dsimp only
  cases p.TXProposal.Transaction.TxOut[index]? with
  | none => rfl
  | some t => exact List.length_set _ _ _

/-- What the loop over the generated outputs can change: nothing but the script
of the transaction output at `OutIndex`, and nothing at all when the proposal
has no silent-payment address. -/
theorem generatedOutputsLoop_frame :
    ∀ (gens : List (Int × Bytes)) (p p1 : ProposedTransaction) (r : Option Abort),
      generatedOutputsLoop gens p = (p1, r) →
      p1.Signatures = p.Signatures ∧
      p1.TXProposal.OutIndex = p.TXProposal.OutIndex ∧
      p1.TXProposal.Transaction.TxOut.length = p.TXProposal.Transaction.TxOut.length ∧
      (∀ j : Nat, (j : Int) ≠ p.TXProposal.OutIndex →
        p1.TXProposal.Transaction.TxOut[j]? = p.TXProposal.Transaction.TxOut[j]?) ∧
      (p.TXProposal.SilentPaymentAddress = "" → p1 = p) := by
  intro gens
  induction gens with
  | nil =>
    intro p p1 r h
    simp only [generatedOutputsLoop, Prod.mk.injEq] at h
    obtain ⟨rfl, _⟩ := h
    exact ⟨rfl, rfl, rfl, fun _ _ => rfl, fun _ => rfl⟩
  | cons g rest ih =>
    intro p p1 r h
    obtain ⟨index, script⟩ := g
    unfold generatedOutputsLoop at h
    dsimp only at h
    split_ifs at h with hsp hrange
    · simp only [Prod.mk.injEq] at h
      obtain ⟨rfl, _⟩ := h
      exact ⟨rfl, rfl, rfl, fun _ _ => rfl, fun _ => rfl⟩
    · simp only [Prod.mk.injEq] at h
      obtain ⟨rfl, _⟩ := h
      exact ⟨rfl, rfl, rfl, fun _ _ => rfl, fun _ => rfl⟩
    · obtain ⟨h1, h2, h3, h4, _⟩ := ih _ _ _ h
      have hsp2 : index = p.TXProposal.OutIndex ∧ p.TXProposal.SilentPaymentAddress ≠ "" := by
        simpa using hsp
      have hidx : ((index.toNat : Nat) : Int) = index := by
        have : ¬ index < 0 := fun hneg => hrange (Or.inl hneg)
        omega
      refine ⟨h1, h2, ?_, ?_, ?_⟩
      · rw [h3, setPkScript_length]
      · intro j hj
        have hj2 : (j : Int) ≠ (setPkScript p index.toNat script).TXProposal.OutIndex := hj
        rw [h4 j hj2, setPkScript_get_ne]
        intro heq
        apply hj
        rw [← hsp2.1, ← hidx, heq]
      · intro hempty
        exact absurd hempty hsp2.2

/-- The loop over the signatures stops early only by a panic. -/
theorem signaturesLoop_abort :
    ∀ (sigs : List Bytes) (k : Nat) (p p2 : ProposedTransaction) (a : Abort),
      signaturesLoop k sigs p = (p2, some a) → ∃ msg, a = .panic msg := by
  intro sigs
  induction sigs with
  | nil => intro k p p2 a h; simp [signaturesLoop] at h
  | cons s rest ih =>
    intro k p p2 a h
    unfold signaturesLoop at h
    split_ifs at h
    · simp only [Prod.mk.injEq, Option.some.injEq] at h
      exact ⟨_, h.2.symm⟩
    · simp only [Prod.mk.injEq, Option.some.injEq] at h
      exact ⟨_, h.2.symm⟩
    · exact ih _ _ _ _ h

/-- What the loop over the signatures does when it runs to its end: position
`k + i` receives the two halves of signature `i`, every other position and the
rest of the proposal stay as they are. -/
theorem signaturesLoop_ok :
    ∀ (sigs : List Bytes) (k : Nat) (p p2 : ProposedTransaction),
      signaturesLoop k sigs p = (p2, none) →
      p2.TXProposal = p.TXProposal ∧
      (sigs ≠ [] → k + sigs.length ≤ p.Signatures.length) ∧
      (∀ (i : Nat) (b : Bytes), sigs[i]? = some b →
        32 ≤ b.length ∧
        p2.Signatures[k + i]? =
          some (some { R := SetBytes (b.take 32), S := SetBytes (b.drop 32) })) ∧
      (∀ j : Nat, j < k ∨ k + sigs.length ≤ j → p2.Signatures[j]? = p.Signatures[j]?) := by
  intro sigs
  induction sigs with
  | nil =>
    intro k p p2 h
    simp only [signaturesLoop, Prod.mk.injEq, and_true] at h
    subst h
    exact ⟨rfl, by simp, by simp, fun _ _ => rfl⟩
  | cons s rest ih =>
    intro k p p2 h
    unfold signaturesLoop at h
    split_ifs at h with hshort hrange
    · simp at h
    · simp at h
    obtain ⟨h1, h2, h3, h4⟩ := ih _ _ _ h
    dsimp only at h1 h2 h3 h4
    have hk : k < p.Signatures.length := by omega
    have hset : p2.Signatures[k]? =
        some (some { R := SetBytes (s.take 32), S := SetBytes (s.drop 32) }) := by
      rw [h4 k (Or.inl (by omega))]
      simp [List.getElem?_set, hk]
    refine ⟨h1, ?_, ?_, ?_⟩
    · intro _
      simp only [List.length_cons, List.length_set] at h2 ⊢
      by_cases hnil : rest = []
      · subst hnil
        simp
        omega
      · have := h2 hnil
        omega
    · intro i b hi
      cases i with
      | zero =>
        simp at hi
        subst hi
        exact ⟨by omega, by simpa using hset⟩
      | succ n =>
        simp at hi
        have := h3 n b hi
        have he : k + 1 + n = k + (n + 1) := by omega
        rw [he] at this
        exact this
    · intro j hj
      simp only [List.length_cons] at hj
      rw [h4 j (by omega)]
      apply List.getElem?_set_ne
      omega

/-- With a previous output missing for some input, the loop over the inputs
returns an error. -/
theorem inputsLoop_missing (env : Env) (p : ProposedTransaction) :
    ∀ (txIns : List TxIn) (scs : List BTCScriptConfigWithKeypath),
      (∃ txIn ∈ txIns, p.TXProposal.PreviousOutputs txIn.PreviousOutPoint = none) →
      ∃ err, inputsLoop env p txIns scs = .error (.error err) := by
  intro txIns
  induction txIns with
  | nil => intro scs h; simp at h
  | cons t rest ih =>
    intro scs h
    unfold inputsLoop
    cases hprev : p.TXProposal.PreviousOutputs t.PreviousOutPoint with
    | none => exact ⟨_, rfl⟩
    | some prevOut =>
      have hrest : ∃ txIn ∈ rest, p.TXProposal.PreviousOutputs txIn.PreviousOutPoint = none := by
        obtain ⟨txIn, hmem, hnone⟩ := h
        rcases List.mem_cons.mp hmem with heq | hmem
        · subst heq
          rw [hprev] at hnone
          cases hnone
        · exact ⟨txIn, hmem, hnone⟩
      dsimp only
      cases env.btcMsgScriptTypeMap prevOut.Address.AccountConfiguration.ScriptType with
      | none => exact ⟨_, rfl⟩
      | some t =>
        dsimp only
        split
        · exact ⟨_, rfl⟩
        · obtain ⟨err, herr⟩ := ih
            (addScriptConfig scs
              { ScriptConfig := NewBTCScriptConfigSimple t
                Keypath := prevOut.Address.AccountConfiguration.AbsoluteKeypath }).1 hrest
          rw [herr]
          exact ⟨err, rfl⟩

/-- The run after a successful device call, when the whole call succeeds. -/
theorem signBTCTransaction_success (env : Env) (p : ProposedTransaction) (call : BTCSignCall)
    (res : BTCSignResult) (hcall : (signBTCTransaction env p).calls = [call])
    (hdev : env.BTCSign call = .ok res) (hok : (signBTCTransaction env p).result = .ok) :
    ∃ p1, generatedOutputsLoop res.GeneratedOutputs p = (p1, none) ∧
      signaturesLoop 0 res.Signatures p1 = ((signBTCTransaction env p).proposal, none) := by
  have hb := buildBTCSignCall_of_calls env p call hcall
  unfold signBTCTransaction at hok ⊢
  rw [hb] at hok ⊢
  dsimp only at hok ⊢
  rw [hdev] at hok ⊢
  dsimp only at hok ⊢
  cases hg : generatedOutputsLoop res.GeneratedOutputs p with
  | mk p1 r1 =>
    rw [hg] at hok
    cases r1 with
    | some a => cases a <;> simp [Abort.toOutcome] at hok
    | none =>
      dsimp only at hok ⊢
      cases hs : signaturesLoop 0 res.Signatures p1 with
      | mk p2 r2 =>
        rw [hs] at hok
        cases r2 with
        | some a => cases a <;> simp [Abort.toOutcome] at hok
        | none => exact ⟨p1, rfl, hs⟩

/-- The run after a successful device call, when the whole call returns an error:
the error comes from the loop over the generated outputs. -/
theorem signBTCTransaction_error_after_device (env : Env) (p : ProposedTransaction)
    (call : BTCSignCall) (res : BTCSignResult) (err : Error)
    (hcall : (signBTCTransaction env p).calls = [call])
    (hdev : env.BTCSign call = .ok res)
    (herr : (signBTCTransaction env p).result = .error err) :
    generatedOutputsLoop res.GeneratedOutputs p =
      ((signBTCTransaction env p).proposal, some (.error err)) := by
  have hb := buildBTCSignCall_of_calls env p call hcall
  unfold signBTCTransaction at herr ⊢
  rw [hb] at herr ⊢
  dsimp only at herr ⊢
  rw [hdev] at herr ⊢
  dsimp only at herr ⊢
  cases hg : generatedOutputsLoop res.GeneratedOutputs p with
  | mk p1 r1 =>
    rw [hg] at herr
    cases r1 with
    | some a =>
      cases a with
      | error e =>
        simp only [Abort.toOutcome, Outcome.error.injEq] at herr
        subst herr
        rfl
      | panic msg => simp [Abort.toOutcome] at herr
    | none =>
      dsimp only at herr ⊢
      cases hs : signaturesLoop 0 res.Signatures p1 with
      | mk p2 r2 =>
        rw [hs] at herr
        cases r2 with
        | some a =>
          obtain ⟨msg, rfl⟩ := signaturesLoop_abort _ _ _ _ _ hs
          simp [Abort.toOutcome] at herr
        | none => simp at herr

/-! ## Signatures and failure behaviour (C4 to C8) -/

/-- C4 (as amended): `signBTCTransaction` does not compare the number of
signatures with the number of inputs.  After a successful call the proposal
holds a signature at every position below the number of signatures the device
returned and is unchanged at every other position; so every input position
holds a signature when the device returned one signature per input. -/
theorem signatures_after_success (env : Env) (p : ProposedTransaction) (call : BTCSignCall)
    (res : BTCSignResult) (hcall : (signBTCTransaction env p).calls = [call])
    (hdev : env.BTCSign call = .ok res) (hok : (signBTCTransaction env p).result = .ok) :
    (∀ i : Nat, i < res.Signatures.length →
        ∃ sig, (signBTCTransaction env p).proposal.Signatures[i]? = some (some sig)) ∧
      (∀ i : Nat, res.Signatures.length ≤ i →
        (signBTCTransaction env p).proposal.Signatures[i]? = p.Signatures[i]?) ∧
      (res.Signatures.length = p.TXProposal.Transaction.TxIn.length →
        ∀ i : Nat, i < p.TXProposal.Transaction.TxIn.length →
          ∃ sig, (signBTCTransaction env p).proposal.Signatures[i]? = some (some sig)) := by
  obtain ⟨p1, hg, hs⟩ := signBTCTransaction_success env p call res hcall hdev hok
  obtain ⟨_, _, h3, h4⟩ := signaturesLoop_ok _ _ _ _ hs
  obtain ⟨hsig, _⟩ := generatedOutputsLoop_frame _ _ _ _ hg
  have hfirst : ∀ i : Nat, i < res.Signatures.length →
      ∃ sig, (signBTCTransaction env p).proposal.Signatures[i]? = some (some sig) := by
    intro i hi
    have hget : res.Signatures[i]? = some res.Signatures[i] := List.getElem?_eq_getElem hi
    have := (h3 i _ hget).2
    rw [Nat.zero_add] at this
    exact ⟨_, this⟩
  refine ⟨hfirst, ?_, ?_⟩
  · intro i hi
    rw [h4 i (Or.inr (by omega)), hsig]
  · intro hlen i hi
    exact hfirst i (by omega)

/-- Witness of C4 (as amended): one input, one signature. -/
theorem signatures_after_success_witness :
    (∀ i : Nat, i < (BTCSignResult.mk [List.replicate 64 1] []).Signatures.length →
        ∃ sig, (signBTCTransaction (exampleEnv ⟨9, 22, 0⟩ (exampleAnswer [1] []))
          exampleProposalThreeOutputs).proposal.Signatures[i]? = some (some sig)) ∧
      (∀ i : Nat, (BTCSignResult.mk [List.replicate 64 1] []).Signatures.length ≤ i →
        (signBTCTransaction (exampleEnv ⟨9, 22, 0⟩ (exampleAnswer [1] []))
          exampleProposalThreeOutputs).proposal.Signatures[i]? =
            exampleProposalThreeOutputs.Signatures[i]?) ∧
      ((BTCSignResult.mk [List.replicate 64 1] []).Signatures.length =
          exampleProposalThreeOutputs.TXProposal.Transaction.TxIn.length →
        ∀ i : Nat, i < exampleProposalThreeOutputs.TXProposal.Transaction.TxIn.length →
          ∃ sig, (signBTCTransaction (exampleEnv ⟨9, 22, 0⟩ (exampleAnswer [1] []))
            exampleProposalThreeOutputs).proposal.Signatures[i]? = some (some sig)) :=
  signatures_after_success (exampleEnv ⟨9, 22, 0⟩ (exampleAnswer [1] []))
    exampleProposalThreeOutputs exampleCallThreeOutputs
    (BTCSignResult.mk [List.replicate 64 1] []) (by decide) (by rfl) (by decide)

/-- C4, counterexample: two inputs, the device returns one signature; the call
succeeds and the second input position holds no signature. -/
theorem fewer_signatures_accepted :
    exampleProposalTwoInputs.TXProposal.Transaction.TxIn.length = 2 ∧
      (signBTCTransaction (exampleEnv ⟨9, 22, 0⟩ (exampleAnswer [1] []))
          exampleProposalTwoInputs).calls.map
        (fun c => ((exampleEnv ⟨9, 22, 0⟩ (exampleAnswer [1] [])).BTCSign c).toOption.map
          (fun r => r.Signatures.length)) = [some 1] ∧
      (signBTCTransaction (exampleEnv ⟨9, 22, 0⟩ (exampleAnswer [1] []))
          exampleProposalTwoInputs).result = .ok ∧
      (signBTCTransaction (exampleEnv ⟨9, 22, 0⟩ (exampleAnswer [1] []))
          exampleProposalTwoInputs).proposal.Signatures[1]? = some none := by
  decide

/-- C5: after a successful call, for every 64-byte signature `b` at position `i`
of the device response, `Signatures[i]` holds `R`, the big-endian value of the
first 32 bytes, and `S`, the big-endian value of the last 32 bytes; both are
below `2 ^ 256` and `R * 2 ^ 256 + S` is the big-endian value of `b`. -/
theorem signature_halves (env : Env) (p : ProposedTransaction) (call : BTCSignCall)
    (res : BTCSignResult) (hcall : (signBTCTransaction env p).calls = [call])
    (hdev : env.BTCSign call = .ok res) (hok : (signBTCTransaction env p).result = .ok)
    (i : Nat) (b : Bytes) (hb : res.Signatures[i]? = some b) (hlen : b.length = 64) :
    ∃ sig, (signBTCTransaction env p).proposal.Signatures[i]? = some (some sig) ∧
      sig.R = bigEndian (b.take 32) ∧ sig.S = bigEndian (b.drop 32) ∧
      sig.R < 2 ^ 256 ∧ sig.S < 2 ^ 256 ∧ sig.R * 2 ^ 256 + sig.S = bigEndian b := by
  obtain ⟨p1, _, hs⟩ := signBTCTransaction_success env p call res hcall hdev hok
  obtain ⟨_, _, h3, _⟩ := signaturesLoop_ok _ _ _ _ hs
  have hget := (h3 i b hb).2
  rw [Nat.zero_add] at hget
  obtain ⟨hR, hS, hRS⟩ := bigEndian_halves b hlen
  refine ⟨_, hget, ?_, ?_, ?_, ?_, ?_⟩ <;> simp only [SetBytes_eq_bigEndian]
  · exact hR
  · exact hS
  · exact hRS

/-- Witness of C5: the signature made of 64 bytes `0x01`. -/
theorem signature_halves_witness :
    ∃ sig, (signBTCTransaction (exampleEnv ⟨9, 22, 0⟩ (exampleAnswer [1] []))
        exampleProposalThreeOutputs).proposal.Signatures[0]? = some (some sig) ∧
      sig.R = bigEndian ((List.replicate 64 (1 : Byte)).take 32) ∧
      sig.S = bigEndian ((List.replicate 64 (1 : Byte)).drop 32) ∧
      sig.R < 2 ^ 256 ∧ sig.S < 2 ^ 256 ∧
      sig.R * 2 ^ 256 + sig.S = bigEndian (List.replicate 64 (1 : Byte)) :=
  signature_halves (exampleEnv ⟨9, 22, 0⟩ (exampleAnswer [1] []))
    exampleProposalThreeOutputs exampleCallThreeOutputs
    (BTCSignResult.mk [List.replicate 64 1] []) (by decide) (by rfl) (by decide)
    0 (List.replicate 64 1) (by rfl) (by rfl)

/-- C6: when the `BTCSign` call reports a user abort, `signBTCTransaction` returns
`ErrSigningAborted`, which is not the device error, and the proposal, with its
signatures and transaction outputs, is as before the call. -/
theorem abort_leaves_proposal (env : Env) (p : ProposedTransaction) (call : BTCSignCall)
    (err : Error) (hcall : (signBTCTransaction env p).calls = [call])
    (hdev : env.BTCSign call = .error err) (habort : IsErrorAbort err = true) :
    (signBTCTransaction env p).result = .error .ErrSigningAborted ∧
      Error.ErrSigningAborted ≠ err ∧
      (signBTCTransaction env p).proposal = p ∧
      (signBTCTransaction env p).proposal.Signatures = p.Signatures ∧
      (signBTCTransaction env p).proposal.TXProposal.Transaction.TxOut =
        p.TXProposal.Transaction.TxOut := by
  have hb := buildBTCSignCall_of_calls env p call hcall
  have hne : Error.ErrSigningAborted ≠ err := by
    intro h
    rw [← h] at habort
    simp [IsErrorAbort] at habort
  have hrun : signBTCTransaction env p =
      { result := .error .ErrSigningAborted, proposal := p, calls := [call] } := by
    unfold signBTCTransaction
    rw [hb]
    dsimp only
    rw [hdev]
    dsimp only
    rw [if_pos habort]
  rw [hrun]
  exact ⟨rfl, hne, rfl, rfl, rfl⟩

/-- Witness of C6: the device answers with error code 104. -/
theorem abort_leaves_proposal_witness :
    (signBTCTransaction (exampleEnv ⟨9, 22, 0⟩ (.error (.device 104 "aborted")))
        exampleProposalThreeOutputs).result = .error .ErrSigningAborted ∧
      Error.ErrSigningAborted ≠ Error.device 104 "aborted" ∧
      (signBTCTransaction (exampleEnv ⟨9, 22, 0⟩ (.error (.device 104 "aborted")))
        exampleProposalThreeOutputs).proposal = exampleProposalThreeOutputs ∧
      (signBTCTransaction (exampleEnv ⟨9, 22, 0⟩ (.error (.device 104 "aborted")))
        exampleProposalThreeOutputs).proposal.Signatures =
          exampleProposalThreeOutputs.Signatures ∧
      (signBTCTransaction (exampleEnv ⟨9, 22, 0⟩ (.error (.device 104 "aborted")))
        exampleProposalThreeOutputs).proposal.TXProposal.Transaction.TxOut =
          exampleProposalThreeOutputs.TXProposal.Transaction.TxOut :=
  abort_leaves_proposal (exampleEnv ⟨9, 22, 0⟩ (.error (.device 104 "aborted")))
    exampleProposalThreeOutputs exampleCallThreeOutputs (.device 104 "aborted")
    (by decide) (by rfl) (by decide)

/-- C7 (as amended): when `signBTCTransaction` returns an error after the
`BTCSign` call succeeded, no signature has been stored, the transaction has as
many outputs as before, and no output script other than the one at `OutIndex`
has been overwritten; when the proposal has no silent-payment address the
proposal is unchanged altogether. -/
theorem error_after_device_frame (env : Env) (p : ProposedTransaction) (call : BTCSignCall)
    (res : BTCSignResult) (err : Error) (hcall : (signBTCTransaction env p).calls = [call])
    (hdev : env.BTCSign call = .ok res)
    (herr : (signBTCTransaction env p).result = .error err) :
    (signBTCTransaction env p).proposal.Signatures = p.Signatures ∧
      (signBTCTransaction env p).proposal.TXProposal.Transaction.TxOut.length =
        p.TXProposal.Transaction.TxOut.length ∧
      (∀ j : Nat, (j : Int) ≠ p.TXProposal.OutIndex →
        (signBTCTransaction env p).proposal.TXProposal.Transaction.TxOut[j]? =
          p.TXProposal.Transaction.TxOut[j]?) ∧
      (p.TXProposal.SilentPaymentAddress = "" → (signBTCTransaction env p).proposal = p) := by
  have hg := signBTCTransaction_error_after_device env p call res err hcall hdev herr
  obtain ⟨h1, _, h3, h4, h5⟩ := generatedOutputsLoop_frame _ _ _ _ hg
  exact ⟨h1, h3, h4, h5⟩

/-- Witness of C7 (as amended): a generated output reported for a proposal
without silent-payment address. -/
theorem error_after_device_frame_witness :
    (signBTCTransaction (exampleEnv ⟨9, 22, 0⟩ (exampleAnswer [1] [(1, [0x51, 0x78])]))
        exampleProposalThreeOutputs).proposal.Signatures =
          exampleProposalThreeOutputs.Signatures ∧
      (signBTCTransaction (exampleEnv ⟨9, 22, 0⟩ (exampleAnswer [1] [(1, [0x51, 0x78])]))
        exampleProposalThreeOutputs).proposal.TXProposal.Transaction.TxOut.length =
          exampleProposalThreeOutputs.TXProposal.Transaction.TxOut.length ∧
      (∀ j : Nat, (j : Int) ≠ exampleProposalThreeOutputs.TXProposal.OutIndex →
        (signBTCTransaction (exampleEnv ⟨9, 22, 0⟩ (exampleAnswer [1] [(1, [0x51, 0x78])]))
          exampleProposalThreeOutputs).proposal.TXProposal.Transaction.TxOut[j]? =
            exampleProposalThreeOutputs.TXProposal.Transaction.TxOut[j]?) ∧
      (exampleProposalThreeOutputs.TXProposal.SilentPaymentAddress = "" →
        (signBTCTransaction (exampleEnv ⟨9, 22, 0⟩ (exampleAnswer [1] [(1, [0x51, 0x78])]))
          exampleProposalThreeOutputs).proposal = exampleProposalThreeOutputs) :=
  error_after_device_frame (exampleEnv ⟨9, 22, 0⟩ (exampleAnswer [1] [(1, [0x51, 0x78])]))
    exampleProposalThreeOutputs exampleCallThreeOutputs
    (BTCSignResult.mk [List.replicate 64 1] [(1, [0x51, 0x78])])
    (.new "expected silent payment output") (by decide) (by rfl) (by decide)

/-- C7, counterexample: the device call succeeds and reports generated outputs
for positions 0 and 1, position 0 being the silent-payment output; the script at
position 0 is overwritten and then the error is returned. -/
theorem error_after_partial_overwrite :
    (signBTCTransaction (exampleEnv ⟨9, 22, 0⟩ exampleAnswerTwoGenerated)
        exampleProposalSilentPayment).calls.map
      (fun c => ((exampleEnv ⟨9, 22, 0⟩ exampleAnswerTwoGenerated).BTCSign c).toOption.map
        (fun r => r.GeneratedOutputs)) = [some [(0, [0x51, 0x77]), (1, [0x51, 0x78])]] ∧
      (signBTCTransaction (exampleEnv ⟨9, 22, 0⟩ exampleAnswerTwoGenerated)
        exampleProposalSilentPayment).result =
          .error (.new "expected silent payment output") ∧
      exampleProposalSilentPayment.TXProposal.Transaction.TxOut.map (fun o => o.PkScript) =
        [[0x51, 0x01], [0x00, 0x22]] ∧
      (signBTCTransaction (exampleEnv ⟨9, 22, 0⟩ exampleAnswerTwoGenerated)
        exampleProposalSilentPayment).proposal.TXProposal.Transaction.TxOut.map
          (fun o => o.PkScript) = [[0x51, 0x77], [0x00, 0x22]] := by
  decide

/-- C8: if some input's previous outpoint is not in `PreviousOutputs`,
`signBTCTransaction` returns an error, makes no `BTCSign` call and leaves the
proposal as it was. -/
theorem missing_previous_output (env : Env) (p : ProposedTransaction) (txIn : TxIn)
    (hmem : txIn ∈ p.TXProposal.Transaction.TxIn)
    (hmissing : p.TXProposal.PreviousOutputs txIn.PreviousOutPoint = none) :
    ∃ err, (signBTCTransaction env p).result = .error err ∧
      (signBTCTransaction env p).calls = [] ∧
      (signBTCTransaction env p).proposal = p := by
  have hbuild : ∃ err, buildBTCSignCall env p = .error (.error err) := by
    unfold buildBTCSignCall
    dsimp only
    cases env.btcMsgCoinMap p.TXProposal.Coin.Code with
    | none => exact ⟨_, rfl⟩
    | some msgCoin =>
      obtain ⟨err, herr⟩ := inputsLoop_missing env p p.TXProposal.Transaction.TxIn []
        ⟨txIn, hmem, hmissing⟩
      dsimp only
      rw [herr]
      exact ⟨err, rfl⟩
  obtain ⟨err, herr⟩ := hbuild
  unfold signBTCTransaction
  rw [herr]
  exact ⟨err, rfl, rfl, rfl⟩

/-- Witness of C8: a proposal whose `PreviousOutputs` map is empty. -/
theorem missing_previous_output_witness :
    ∃ err, (signBTCTransaction (exampleEnv ⟨9, 22, 0⟩ (exampleAnswer [1] []))
        exampleProposalMissingPrevOut).result = .error err ∧
      (signBTCTransaction (exampleEnv ⟨9, 22, 0⟩ (exampleAnswer [1] []))
        exampleProposalMissingPrevOut).calls = [] ∧
      (signBTCTransaction (exampleEnv ⟨9, 22, 0⟩ (exampleAnswer [1] []))
        exampleProposalMissingPrevOut).proposal = exampleProposalMissingPrevOut :=
  missing_previous_output (exampleEnv ⟨9, 22, 0⟩ (exampleAnswer [1] []))
    exampleProposalMissingPrevOut
    { PreviousOutPoint := { Hash := [1], Index := 0 }, Sequence := 4294967295 }
    (by decide) (by rfl)

/-! ## Ethereum signing (C11, C12, C13) -/

/-- C11: for a transaction with a recipient, `signETHTransaction` makes exactly
one device call chosen by the transaction type: type 2 calls `ETHSignEIP1559`
with the tip cap, the fee cap and the gas limit, type 0 calls `ETHSign` with the
gas price, and every other type returns an error without a device call. -/
theorem signETHTransaction_dispatch (ops : DeviceOps) (lib : Library) (p : EthTxProposal)
    (recipient : Bytes) (hto : p.Tx.To = some recipient) :
    (p.Tx.Type_ = 2 →
      (signETHTransaction ops lib p).calls =
        [.ETHSignEIP1559
          { chainID := p.ChainID, keypath := p.Keypath, nonce := p.Tx.Nonce
            maxPriorityFeePerGas := p.Tx.GasTipCap, maxFeePerGas := p.Tx.GasFeeCap
            gasLimit := p.Tx.Gas, recipient := recipient, value := p.Tx.Value
            data := p.Tx.Data
            recipientAddressCase := lib.ETHIdentifyCase p.RecipientAddress }]) ∧
    (p.Tx.Type_ = 0 →
      (signETHTransaction ops lib p).calls =
        [.ETHSign
          { chainID := p.ChainID, keypath := p.Keypath, nonce := p.Tx.Nonce
            gasPrice := p.Tx.GasPrice, gasLimit := p.Tx.Gas, recipient := recipient
            value := p.Tx.Value, data := p.Tx.Data
            recipientAddressCase := lib.ETHIdentifyCase p.RecipientAddress }]) ∧
    (p.Tx.Type_ ≠ 2 → p.Tx.Type_ ≠ 0 →
      (∃ err, (signETHTransaction ops lib p).result = .error err) ∧
        (signETHTransaction ops lib p).calls = []) := by
  refine ⟨?_, ?_, ?_⟩
  · intro h2
    unfold signETHTransaction
    simp only [hto, h2, if_true]
    cases ops.ETHSignEIP1559 _ with
    | error err => by_cases hab : IsErrorAbort err = true <;> simp [hab]
    | ok sig =>
      dsimp only
      cases lib.WithSignature p.Tx p.Signer sig <;> rfl
  · intro h0
    unfold signETHTransaction
    simp only [hto, h0, if_true, OfNat.zero_ne_ofNat, if_false]
    cases ops.ETHSign _ with
    | error err => by_cases hab : IsErrorAbort err = true <;> simp [hab]
    | ok sig =>
      dsimp only
      cases lib.WithSignature p.Tx p.Signer sig <;> rfl
  · intro h2 h0
    unfold signETHTransaction
    simp [hto, h2, h0]

/-- Witness of C11: a fee-market transaction. -/
theorem signETHTransaction_dispatch_witness :
    (signETHTransaction (exampleOps (.ok (List.replicate 65 1)) (.ok "xpub") ⟨none, none⟩)
        exampleLibrary (exampleEthProposal 2 (some [9]))).calls =
      [.ETHSignEIP1559
        { chainID := 1, keypath := [44, 60, 0, 0, 0], nonce := 3, maxPriorityFeePerGas := 2
          maxFeePerGas := 30, gasLimit := 21000, recipient := [9], value := 1000, data := []
          recipientAddressCase := .ETH_ADDRESS_CASE_MIXED }] :=
  (signETHTransaction_dispatch (exampleOps (.ok (List.replicate 65 1)) (.ok "xpub") ⟨none, none⟩)
    exampleLibrary (exampleEthProposal 2 (some [9])) [9] (by rfl)).1 (by rfl)

/-- C12: for a transaction without recipient, whatever its type,
`signETHTransaction` returns an error, makes no device call and leaves the
proposal, with its transaction, unchanged. -/
theorem signETHTransaction_contract_creation (ops : DeviceOps) (lib : Library)
    (p : EthTxProposal) (hto : p.Tx.To = none) :
    (∃ err, (signETHTransaction ops lib p).result = .error err) ∧
      (signETHTransaction ops lib p).calls = [] ∧
      (signETHTransaction ops lib p).proposal = p ∧
      (signETHTransaction ops lib p).proposal.Tx = p.Tx := by
  unfold signETHTransaction
  simp [hto]

/-- Witness of C12: a fee-market transaction without recipient. -/
theorem signETHTransaction_contract_creation_witness :
    (∃ err, (signETHTransaction (exampleOps (.ok (List.replicate 65 1)) (.ok "xpub") ⟨none, none⟩)
        exampleLibrary (exampleEthProposal 2 none)).result = .error err) ∧
      (signETHTransaction (exampleOps (.ok (List.replicate 65 1)) (.ok "xpub") ⟨none, none⟩)
        exampleLibrary (exampleEthProposal 2 none)).calls = [] ∧
      (signETHTransaction (exampleOps (.ok (List.replicate 65 1)) (.ok "xpub") ⟨none, none⟩)
        exampleLibrary (exampleEthProposal 2 none)).proposal = exampleEthProposal 2 none ∧
      (signETHTransaction (exampleOps (.ok (List.replicate 65 1)) (.ok "xpub") ⟨none, none⟩)
        exampleLibrary (exampleEthProposal 2 none)).proposal.Tx = (exampleEthProposal 2 none).Tx :=
  signETHTransaction_contract_creation
    (exampleOps (.ok (List.replicate 65 1)) (.ok "xpub") ⟨none, none⟩) exampleLibrary
    (exampleEthProposal 2 none) (by rfl)

/-- The run of `signETHTransaction` in terms of the answer to its device call. -/
theorem signETHTransaction_after_call (ops : DeviceOps) (lib : Library) (p : EthTxProposal)
    (call : DeviceCall) (hcall : (signETHTransaction ops lib p).calls = [call]) :
    ∃ answer : Except Error Bytes,
      ops.signatureOf call = answer.toOption ∧
      ops.errorOf call = (match answer with | .error err => some err | .ok _ => none) ∧
      signETHTransaction ops lib p =
        (match answer with
         | .error err =>
           if IsErrorAbort err then
             { result := .error .ErrSigningAborted, proposal := p, calls := [call] }
           else { result := .error err, proposal := p, calls := [call] }
         | .ok signature =>
           match lib.WithSignature p.Tx p.Signer signature with
           | .error a => { result := a.toOutcome, proposal := p, calls := [call] }
           | .ok signedTx =>
             { result := .ok, proposal := { p with Tx := signedTx }, calls := [call] }) := by
  unfold signETHTransaction at hcall ⊢
  cases hto : p.Tx.To with
  | none => simp [hto] at hcall
  | some recipient =>
    simp only [hto] at hcall ⊢
    by_cases h2 : p.Tx.Type_ = 2
    · simp only [h2, if_true] at hcall ⊢
      have hc : call = .ETHSignEIP1559
          { chainID := p.ChainID, keypath := p.Keypath, nonce := p.Tx.Nonce
            maxPriorityFeePerGas := p.Tx.GasTipCap, maxFeePerGas := p.Tx.GasFeeCap
            gasLimit := p.Tx.Gas, recipient := recipient, value := p.Tx.Value
            data := p.Tx.Data
            recipientAddressCase := lib.ETHIdentifyCase p.RecipientAddress } := by
        cases hd : ops.ETHSignEIP1559
            { chainID := p.ChainID, keypath := p.Keypath, nonce := p.Tx.Nonce
              maxPriorityFeePerGas := p.Tx.GasTipCap, maxFeePerGas := p.Tx.GasFeeCap
              gasLimit := p.Tx.Gas, recipient := recipient, value := p.Tx.Value
              data := p.Tx.Data
              recipientAddressCase := lib.ETHIdentifyCase p.RecipientAddress } with
        | error err =>
          rw [hd] at hcall
          by_cases hab : IsErrorAbort err = true <;> simp [hab] at hcall <;> exact hcall.symm
        | ok sig =>
          rw [hd] at hcall
          dsimp only at hcall
          cases hw : lib.WithSignature p.Tx p.Signer sig <;> rw [hw] at hcall <;>
            simp at hcall <;> exact hcall.symm
      subst hc
      exact ⟨_, rfl, rfl, rfl⟩
    · by_cases h0 : p.Tx.Type_ = 0
      · simp only [h0, OfNat.zero_ne_ofNat, if_false, if_true] at hcall ⊢
        have hc : call = .ETHSign
            { chainID := p.ChainID, keypath := p.Keypath, nonce := p.Tx.Nonce
              gasPrice := p.Tx.GasPrice, gasLimit := p.Tx.Gas, recipient := recipient
              value := p.Tx.Value, data := p.Tx.Data
              recipientAddressCase := lib.ETHIdentifyCase p.RecipientAddress } := by
          cases hd : ops.ETHSign
              { chainID := p.ChainID, keypath := p.Keypath, nonce := p.Tx.Nonce
                gasPrice := p.Tx.GasPrice, gasLimit := p.Tx.Gas, recipient := recipient
                value := p.Tx.Value, data := p.Tx.Data
                recipientAddressCase := lib.ETHIdentifyCase p.RecipientAddress } with
          | error err =>
            rw [hd] at hcall
            by_cases hab : IsErrorAbort err = true <;> simp [hab] at hcall <;>
              exact hcall.symm
          | ok sig =>
            rw [hd] at hcall
            dsimp only at hcall
            cases hw : lib.WithSignature p.Tx p.Signer sig <;> rw [hw] at hcall <;>
              simp at hcall <;> exact hcall.symm
        subst hc
        exact ⟨_, rfl, rfl, rfl⟩
      · simp [h2, h0] at hcall

/-- Every return of `signETHTransaction` other than success, and every panic,
leaves the proposal as it was. -/
theorem signETHTransaction_error_frame (ops : DeviceOps) (lib : Library) (p : EthTxProposal)
    (hnot : (signETHTransaction ops lib p).result ≠ .ok) :
    (signETHTransaction ops lib p).proposal = p := by
  have htail : ∀ (call : DeviceCall) (answer : Except Error Bytes),
      (match answer with
        | .error err =>
          if IsErrorAbort err then
            ({ result := .error .ErrSigningAborted, proposal := p, calls := [call] } : EthRun)
          else { result := .error err, proposal := p, calls := [call] }
        | .ok signature =>
          match lib.WithSignature p.Tx p.Signer signature with
          | .error a => { result := a.toOutcome, proposal := p, calls := [call] }
          | .ok signedTx =>
            { result := .ok, proposal := { p with Tx := signedTx }, calls := [call] }).result
        ≠ .ok →
      (match answer with
        | .error err =>
          if IsErrorAbort err then
            ({ result := .error .ErrSigningAborted, proposal := p, calls := [call] } : EthRun)
          else { result := .error err, proposal := p, calls := [call] }
        | .ok signature =>
          match lib.WithSignature p.Tx p.Signer signature with
          | .error a => { result := a.toOutcome, proposal := p, calls := [call] }
          | .ok signedTx =>
            { result := .ok, proposal := { p with Tx := signedTx }, calls := [call] }).proposal
        = p := by
    intro call answer h
    cases answer with
    | error e => by_cases hab : IsErrorAbort e = true <;> simp [hab]
    | ok sig =>
      dsimp only at h ⊢
      cases hw : lib.WithSignature p.Tx p.Signer sig with
      | error a => rfl
      | ok signed => rw [hw] at h; exact absurd rfl h
  unfold signETHTransaction at hnot ⊢
  cases hto : p.Tx.To with
  | none => simp [hto]
  | some recipient =>
    simp only [hto] at hnot ⊢
    by_cases h2 : p.Tx.Type_ = 2
    · simp only [h2, if_true] at hnot ⊢
      exact htail _ _ hnot
    · by_cases h0 : p.Tx.Type_ = 0
      · simp only [h0, OfNat.zero_ne_ofNat, if_false, if_true] at hnot ⊢
        exact htail _ _ hnot
      · simp [h2, h0]

/-- C13: when the device returns a signature and `WithSignature` returns the
signed transaction, `signETHTransaction` returns success and the proposal's `Tx`
is the signed transaction; an error of `WithSignature` is returned, and a panic
of `WithSignature` (the signature is not 65 bytes long) ends the call as a
panic, both with the proposal as before; whenever `signETHTransaction` returns
an error, the proposal and its `Tx` are as before the call; and a user abort
reported by the device is returned as `ErrSigningAborted`. -/
theorem signETHTransaction_effect (ops : DeviceOps) (lib : Library) (p : EthTxProposal) :
    (∀ err, (signETHTransaction ops lib p).result = .error err →
      (signETHTransaction ops lib p).proposal = p ∧
        (signETHTransaction ops lib p).proposal.Tx = p.Tx) ∧
    (∀ msg, (signETHTransaction ops lib p).result = .panic msg →
      (signETHTransaction ops lib p).proposal = p) ∧
    (∀ call, (signETHTransaction ops lib p).calls = [call] →
      (∀ sig signedTx, ops.signatureOf call = some sig →
        lib.WithSignature p.Tx p.Signer sig = .ok signedTx →
        (signETHTransaction ops lib p).result = .ok ∧
          (signETHTransaction ops lib p).proposal.Tx = signedTx) ∧
      (∀ sig err, ops.signatureOf call = some sig →
        lib.WithSignature p.Tx p.Signer sig = .error (.error err) →
        (signETHTransaction ops lib p).result = .error err) ∧
      (∀ sig msg, ops.signatureOf call = some sig →
        lib.WithSignature p.Tx p.Signer sig = .error (.panic msg) →
        (signETHTransaction ops lib p).result = .panic msg) ∧
      (∀ err, ops.errorOf call = some err → IsErrorAbort err = true →
        (signETHTransaction ops lib p).result = .error .ErrSigningAborted) ∧
      (∀ err, ops.errorOf call = some err → IsErrorAbort err = false →
        (signETHTransaction ops lib p).result = .error err)) := by
  refine ⟨?_, ?_, ?_⟩
  · intro err herr
    have := signETHTransaction_error_frame ops lib p (by rw [herr]; exact fun h => (by cases h))
    exact ⟨this, by rw [this]⟩
  · intro msg hmsg
    exact signETHTransaction_error_frame ops lib p (by rw [hmsg]; exact fun h => (by cases h))
  · intro call hcall
    obtain ⟨answer, hsig, herr, hrun⟩ := signETHTransaction_after_call ops lib p call hcall
    rw [hrun]
    cases answer with
    | error e =>
      simp only [Except.toOption] at hsig
      simp only at herr
      refine ⟨?_, ?_, ?_, ?_, ?_⟩
      · intro sig signedTx h; rw [hsig] at h; cases h
      · intro sig err h; rw [hsig] at h; cases h
      · intro sig msg h; rw [hsig] at h; cases h
      · intro err h hab
        rw [herr] at h
        cases h
        simp [hab]
      · intro err h hab
        rw [herr] at h
        cases h
        simp [hab]
    | ok s =>
      simp only [Except.toOption] at hsig
      simp only at herr
      refine ⟨?_, ?_, ?_, ?_, ?_⟩
      · intro sig signedTx h hw
        rw [hsig] at h
        cases h
        simp [hw]
      · intro sig err h hw
        rw [hsig] at h
        cases h
        simp [hw, Abort.toOutcome]
      · intro sig msg h hw
        rw [hsig] at h
        cases h
        simp [hw, Abort.toOutcome]
      · intro err h; rw [herr] at h; cases h
      · intro err h; rw [herr] at h; cases h

/-- Witness of C13: the device returns a 65-byte signature for a legacy
transaction, which is signed; and a 64-byte signature, on which `WithSignature`
panics. -/
theorem signETHTransaction_effect_witness :
    ((signETHTransaction (exampleOps (.ok (List.replicate 65 1)) (.ok "xpub") ⟨none, none⟩)
        exampleLibrary (exampleEthProposal 0 (some [9]))).result = .ok ∧
      (signETHTransaction (exampleOps (.ok (List.replicate 65 1)) (.ok "xpub") ⟨none, none⟩)
        exampleLibrary (exampleEthProposal 0 (some [9]))).proposal.Tx =
        { (exampleEthProposal 0 (some [9])).Tx with
          R := SetBytes (List.replicate 32 1), S := SetBytes (List.replicate 32 1), V := 1 }) ∧
    (signETHTransaction (exampleOps (.ok (List.replicate 64 1)) (.ok "xpub") ⟨none, none⟩)
        exampleLibrary (exampleEthProposal 0 (some [9]))).result =
      .panic "wrong size for signature" ∧
    (signETHTransaction (exampleOps (.ok (List.replicate 64 1)) (.ok "xpub") ⟨none, none⟩)
        exampleLibrary (exampleEthProposal 0 (some [9]))).proposal =
      exampleEthProposal 0 (some [9]) :=
  ⟨((signETHTransaction_effect (exampleOps (.ok (List.replicate 65 1)) (.ok "xpub") ⟨none, none⟩)
      exampleLibrary (exampleEthProposal 0 (some [9]))).2.2
        (.ETHSign
          { chainID := 1, keypath := [44, 60, 0, 0, 0], nonce := 3, gasPrice := 25
            gasLimit := 21000, recipient := [9], value := 1000, data := []
            recipientAddressCase := .ETH_ADDRESS_CASE_MIXED })
        (by decide)).1 (List.replicate 65 1) _ (by rfl) (by rfl),
    ((signETHTransaction_effect (exampleOps (.ok (List.replicate 64 1)) (.ok "xpub") ⟨none, none⟩)
      exampleLibrary (exampleEthProposal 0 (some [9]))).2.2
        (.ETHSign
          { chainID := 1, keypath := [44, 60, 0, 0, 0], nonce := 3, gasPrice := 25
            gasLimit := 21000, recipient := [9], value := 1000, data := []
            recipientAddressCase := .ETH_ADDRESS_CASE_MIXED })
        (by decide)).2.2.1 (List.replicate 64 1) "wrong size for signature" (by rfl) (by rfl),
    (signETHTransaction_effect (exampleOps (.ok (List.replicate 64 1)) (.ok "xpub") ⟨none, none⟩)
      exampleLibrary (exampleEthProposal 0 (some [9]))).2.1 "wrong size for signature"
        (by decide)⟩

/-! ## Root fingerprint (C14) -/

/-- With a cached fingerprint every call returns it and the keystore stays as it is. -/
theorem RootFingerprintTimes_cached (device : Nat → Except Error (Option Bytes)) (b : Bytes) :
    ∀ (n : Nat) (ks : KeystoreState), ks.rootFinger = some b →
      RootFingerprintTimes device n ks = (List.replicate n (.ok (some b)), ks) := by
  intro n
  induction n with
  | zero => intro ks _; rfl
  | succ n ih =>
    intro ks hks
    have hfirst : RootFingerprint device ks = (.ok (some b), ks) := by
      simp [RootFingerprint, hks]
    simp only [RootFingerprintTimes, hfirst, ih ks hks, List.replicate_succ]

/-- The shape of a sequence of calls on a keystore without cached fingerprint:
calls that return no fingerprint, each asking the device once, followed by calls
that all return the fingerprint of one further device call. -/
theorem RootFingerprintTimes_shape (device : Nat → Except Error (Option Bytes)) :
    ∀ (n : Nat) (ks : KeystoreState), ks.rootFinger = none →
      ∃ (fails : List (Except Error (Option Bytes))) (m : Nat) (b : Bytes),
        (RootFingerprintTimes device n ks).1 = fails ++ List.replicate m (.ok (some b)) ∧
        (∀ r ∈ fails, returnedFingerprint r = false) ∧
        (RootFingerprintTimes device n ks).2.deviceCalls =
          ks.deviceCalls + fails.length + (if m = 0 then 0 else 1) := by
  intro n
  induction n with
  | zero =>
    intro ks _
    exact ⟨[], 0, [], by simp [RootFingerprintTimes], by simp, by simp [RootFingerprintTimes]⟩
  | succ n ih =>
    intro ks hks
    cases hd : device ks.deviceCalls with
    | error err =>
      have hfirst : RootFingerprint device ks =
          (.error err, { ks with deviceCalls := ks.deviceCalls + 1 }) := by
        simp [RootFingerprint, hks, hd]
      obtain ⟨fails, m, b, h1, h2, h3⟩ := ih { ks with deviceCalls := ks.deviceCalls + 1 } hks
      refine ⟨.error err :: fails, m, b, ?_, ?_, ?_⟩
      · simp only [RootFingerprintTimes, hfirst, h1, List.cons_append]
      · intro r hr
        rcases List.mem_cons.mp hr with rfl | hr
        · rfl
        · exact h2 r hr
      · simp only [RootFingerprintTimes, hfirst, h3, List.length_cons]
        omega
    | ok res =>
      cases res with
      | none =>
        have hfirst : RootFingerprint device ks =
            (.ok none, { rootFinger := none, deviceCalls := ks.deviceCalls + 1 }) := by
          simp [RootFingerprint, hks, hd]
        obtain ⟨fails, m, b, h1, h2, h3⟩ :=
          ih { rootFinger := none, deviceCalls := ks.deviceCalls + 1 } rfl
        refine ⟨.ok none :: fails, m, b, ?_, ?_, ?_⟩
        · simp only [RootFingerprintTimes, hfirst, h1, List.cons_append]
        · intro r hr
          rcases List.mem_cons.mp hr with rfl | hr
          · rfl
          · exact h2 r hr
        · simp only [RootFingerprintTimes, hfirst, h3, List.length_cons]
          omega
      | some b =>
        have hfirst : RootFingerprint device ks =
            (.ok (some b), { rootFinger := some b, deviceCalls := ks.deviceCalls + 1 }) := by
          simp [RootFingerprint, hks, hd]
        have hlater := RootFingerprintTimes_cached device b n
          { rootFinger := some b, deviceCalls := ks.deviceCalls + 1 } rfl
        refine ⟨[], n + 1, b, ?_, by simp, ?_⟩
        · simp only [RootFingerprintTimes, hfirst, hlater, List.nil_append,
            List.replicate_succ]
        · simp only [RootFingerprintTimes, hfirst, hlater]
          simp

/-- C14 (as amended): in every sequence of sequential calls of `RootFingerprint`
on a fresh keystore, the device is asked once by each call that returns no
fingerprint and once more for all the calls together that return one, and all
calls that return a fingerprint return the same bytes. -/
theorem RootFingerprint_sequence (device : Nat → Except Error (Option Bytes)) (n : Nat) :
    (RootFingerprintTimes device n KeystoreState.fresh).1.length = n ∧
    (RootFingerprintTimes device n KeystoreState.fresh).2.deviceCalls =
      ((RootFingerprintTimes device n KeystoreState.fresh).1.filter
          (fun r => !returnedFingerprint r)).length +
        (if (RootFingerprintTimes device n KeystoreState.fresh).1.any returnedFingerprint
          then 1 else 0) ∧
    (∀ (i j : Nat) (b c : Bytes),
      (RootFingerprintTimes device n KeystoreState.fresh).1[i]? = some (.ok (some b)) →
      (RootFingerprintTimes device n KeystoreState.fresh).1[j]? = some (.ok (some c)) →
      b = c) := by
  obtain ⟨fails, m, b, h1, h2, h3⟩ :=
    RootFingerprintTimes_shape device n KeystoreState.fresh rfl
  have hlen : ∀ (k : Nat) (ks : KeystoreState), (RootFingerprintTimes device k ks).1.length = k := by
    intro k
    induction k with
    | zero => intro ks; rfl
    | succ k ih => intro ks; simp [RootFingerprintTimes, ih]
  have hfilter : (fails.filter (fun r => !returnedFingerprint r)) = fails := by
    apply List.filter_eq_self.mpr
    intro r hr
    simp [h2 r hr]
  have hsucc : ∀ r ∈ List.replicate m (Except.ok (some b) : Except Error (Option Bytes)),
      r = .ok (some b) := fun r hr => (List.mem_replicate.mp hr).2
  have hfilter2 : ((List.replicate m (Except.ok (some b) : Except Error (Option Bytes))).filter
      (fun r => !returnedFingerprint r)) = [] := by
    apply List.filter_eq_nil_iff.mpr
    intro r hr
    rw [hsucc r hr]
    simp [returnedFingerprint]
  have hmem : ∀ (i : Nat) (x : Bytes),
      (fails ++ List.replicate m (Except.ok (some b) : Except Error (Option Bytes)))[i]? =
        some (.ok (some x)) → x = b := by
    intro i x hx
    have hin := List.mem_iff_getElem?.mpr ⟨i, hx⟩
    rcases List.mem_append.mp hin with hf | hr
    · have := h2 _ hf
      simp [returnedFingerprint] at this
    · have := hsucc _ hr
      simpa using this
  refine ⟨hlen n _, ?_, ?_⟩
  · rw [h3, h1, List.filter_append, hfilter, hfilter2, List.any_append]
    have hany : fails.any returnedFingerprint = false := by
      apply List.any_eq_false.mpr
      intro r hr
      simp [h2 r hr]
    rw [hany]
    cases m with
    | zero => simp [KeystoreState.fresh]
    | succ k => simp [KeystoreState.fresh, List.replicate_succ, returnedFingerprint]
  · intro i j x y hx hy
    rw [h1] at hx hy
    rw [hmem i x hx, hmem j y hy]

/-- Witness of C14 (as amended): three calls, the device failing once. -/
theorem RootFingerprint_sequence_witness :
    (RootFingerprintTimes (exampleFingerprintDevice 1) 3 KeystoreState.fresh).1.length = 3 ∧
    (RootFingerprintTimes (exampleFingerprintDevice 1) 3 KeystoreState.fresh).2.deviceCalls =
      ((RootFingerprintTimes (exampleFingerprintDevice 1) 3 KeystoreState.fresh).1.filter
          (fun r => !returnedFingerprint r)).length +
        (if (RootFingerprintTimes (exampleFingerprintDevice 1) 3
            KeystoreState.fresh).1.any returnedFingerprint
          then 1 else 0) ∧
    (∀ (i j : Nat) (b c : Bytes),
      (RootFingerprintTimes (exampleFingerprintDevice 1) 3 KeystoreState.fresh).1[i]? =
        some (.ok (some b)) →
      (RootFingerprintTimes (exampleFingerprintDevice 1) 3 KeystoreState.fresh).1[j]? =
        some (.ok (some c)) →
      b = c) :=
  RootFingerprint_sequence (exampleFingerprintDevice 1) 3

/-- C14, counterexample: two sequential calls on a fresh keystore, the device
failing on its first call; the device is asked twice and the two calls do not
return the same. -/
theorem RootFingerprint_asked_twice :
    (RootFingerprintTimes (exampleFingerprintDevice 1) 2 KeystoreState.fresh).2.deviceCalls = 2 ∧
      (RootFingerprintTimes (exampleFingerprintDevice 1) 2 KeystoreState.fresh).1 =
        [.error (.external "not connected"), .ok (some [1, 2, 3, 4])] :=
  ⟨by decide, rfl⟩

/-! ## Verification, extended public keys and message signing (C15 to C18) -/

/-- What `afterDisplay` makes of an error of the device. -/
theorem afterDisplay_error (call : DeviceCall) (answer : Except Error String) (err : Error)
    (h : (match answer with | .error e => some e | .ok _ => none) = some err) :
    (afterDisplay call answer).calls = [call] ∧
      (IsErrorAbort err = true → (afterDisplay call answer).result = .ok) ∧
      (IsErrorAbort err = false → (afterDisplay call answer).result = .error err) := by
  cases answer with
  | ok s => simp at h
  | error e =>
    simp only [Option.some.injEq] at h
    subst h
    unfold afterDisplay
    by_cases hab : IsErrorAbort e = true <;> simp [hab]

theorem afterDisplay_calls (call : DeviceCall) (answer : Except Error String) :
    (afterDisplay call answer).calls = [call] := by
  unfold afterDisplay
  cases answer with
  | ok s => rfl
  | error e => by_cases hab : IsErrorAbort e = true <;> simp [hab]

/-- C15: for a coin for which `CanVerifyAddress` is true, and a supported script
type if the coin is of the Bitcoin family, `VerifyAddress` makes one device call;
if the device answers it with a user abort, `VerifyAddress` returns no error, and
if the device answers with another error, that error is returned. -/
theorem VerifyAddress_abort (env : Env) (ops : DeviceOps) (lib : Library)
    (configuration : Configuration) (coin : Coin)
    (hcan : (CanVerifyAddress env coin).1 = true)
    (hscript : ∀ btcCoin, coin = .btc btcCoin →
      (env.btcMsgScriptTypeMap configuration.ScriptType).isSome = true) :
    ∃ call, (VerifyAddress env ops lib configuration coin).calls = [call] ∧
      ∀ err, ops.errorOf call = some err →
        (IsErrorAbort err = true →
          (VerifyAddress env ops lib configuration coin).result = .ok) ∧
        (IsErrorAbort err = false →
          (VerifyAddress env ops lib configuration coin).result = .error err) := by
  cases coin with
  | btc btcCoin =>
    have hs := hscript btcCoin rfl
    simp only [CanVerifyAddress] at hcan
    cases hm : env.btcMsgScriptTypeMap configuration.ScriptType with
    | none => simp [hm] at hs
    | some msgScriptType =>
      cases hc : env.btcMsgCoinMap btcCoin.Code with
      | none => simp [hc] at hcan
      | some msgCoin =>
        refine ⟨.BTCAddress
          { coin := msgCoin, keypath := configuration.AbsoluteKeypath
            scriptConfig := NewBTCScriptConfigSimple msgScriptType, display := true }, ?_, ?_⟩
        · simp only [VerifyAddress, CanVerifyAddress, hc, hm, Option.isSome]
          exact afterDisplay_calls _ _
        · intro err herr
          simp only [VerifyAddress, CanVerifyAddress, hc, hm, Option.isSome]
          exact (afterDisplay_error _ _ err herr).2
  | eth code chainID erc20Token =>
    cases erc20Token with
    | none =>
      refine ⟨.ETHPub
        { chainID := chainID, keypath := configuration.AbsoluteKeypath, outputType := .ADDRESS
          display := true, contractAddress := [] }, ?_, ?_⟩
      · simp only [VerifyAddress, CanVerifyAddress]
        exact afterDisplay_calls _ _
      · intro err herr
        simp only [VerifyAddress, CanVerifyAddress]
        exact (afterDisplay_error _ _ err herr).2
    | some token =>
      refine ⟨.ETHPub
        { chainID := chainID, keypath := configuration.AbsoluteKeypath, outputType := .ADDRESS
          display := true, contractAddress := lib.ContractAddressBytes token }, ?_, ?_⟩
      · simp only [VerifyAddress, CanVerifyAddress]
        exact afterDisplay_calls _ _
      · intro err herr
        simp only [VerifyAddress, CanVerifyAddress]
        exact (afterDisplay_error _ _ err herr).2
  | unknown code => simp [CanVerifyAddress] at hcan

/-- Witness of C15: a native-segwit Bitcoin address, the device reporting a user abort. -/
theorem VerifyAddress_abort_witness :
    ∃ call, (VerifyAddress (exampleEnv ⟨9, 22, 0⟩ (exampleAnswer [] [])) (exampleOpsAbort none)
        exampleLibrary ⟨.P2WPKH, [84, 0, 0, 0, 0]⟩ (.btc ⟨.BTC, .btcMainNet⟩)).calls = [call] ∧
      ∀ err, (exampleOpsAbort none).errorOf call = some err →
        (IsErrorAbort err = true →
          (VerifyAddress (exampleEnv ⟨9, 22, 0⟩ (exampleAnswer [] [])) (exampleOpsAbort none)
            exampleLibrary ⟨.P2WPKH, [84, 0, 0, 0, 0]⟩ (.btc ⟨.BTC, .btcMainNet⟩)).result = .ok) ∧
        (IsErrorAbort err = false →
          (VerifyAddress (exampleEnv ⟨9, 22, 0⟩ (exampleAnswer [] [])) (exampleOpsAbort none)
            exampleLibrary ⟨.P2WPKH, [84, 0, 0, 0, 0]⟩ (.btc ⟨.BTC, .btcMainNet⟩)).result =
              .error err) :=
  VerifyAddress_abort (exampleEnv ⟨9, 22, 0⟩ (exampleAnswer [] [])) (exampleOpsAbort none)
    exampleLibrary ⟨.P2WPKH, [84, 0, 0, 0, 0]⟩ (.btc ⟨.BTC, .btcMainNet⟩) (by decide)
    (fun _ _ => by decide)

/-- C16: for an Ethereum-family coin and a keypath of five elements,
`ExtendedPublicKey` asks the device once, for the xpub at the first four
elements, and returns the child with the fifth element as index of the parsed
key; for a keypath of another length it asks the device once, for the xpub at
the whole keypath, and returns the parsed key. -/
theorem ExtendedPublicKey_eth (env : Env) (ops : DeviceOps) (lib : Library) (code : Code)
    (chainID : Nat) (erc20Token : Option String) (keyPath : List Nat) :
    (∀ a b c d e : Nat, keyPath = [a, b, c, d, e] →
      (ExtendedPublicKey env ops lib (.eth code chainID erc20Token) keyPath).calls =
        [.ETHPub { chainID := chainID, keypath := [a, b, c, d], outputType := .XPUB
                   display := false, contractAddress := [] }] ∧
      (ExtendedPublicKey env ops lib (.eth code chainID erc20Token) keyPath).result =
        (match ops.ETHPub { chainID := chainID, keypath := [a, b, c, d], outputType := .XPUB
                            display := false, contractAddress := [] } with
         | .error err => .error err
         | .ok xpubStr =>
           match lib.NewKeyFromString xpubStr with
           | .error err => .error err
           | .ok xpub => lib.Derive xpub e)) ∧
    (keyPath.length ≠ 5 →
      (ExtendedPublicKey env ops lib (.eth code chainID erc20Token) keyPath).calls =
        [.ETHPub { chainID := chainID, keypath := keyPath, outputType := .XPUB
                   display := false, contractAddress := [] }] ∧
      (ExtendedPublicKey env ops lib (.eth code chainID erc20Token) keyPath).result =
        (match ops.ETHPub { chainID := chainID, keypath := keyPath, outputType := .XPUB
                            display := false, contractAddress := [] } with
         | .error err => .error err
         | .ok xpubStr => lib.NewKeyFromString xpubStr)) := by
  refine ⟨?_, ?_⟩
  · intro a b c d e hk
    subst hk
    simp only [ExtendedPublicKey, List.length_cons, List.length_nil, Nat.reduceAdd, dite_true,
      List.take]
    cases ops.ETHPub _ with
    | error err => exact ⟨rfl, rfl⟩
    | ok xpubStr =>
      dsimp only
      cases lib.NewKeyFromString xpubStr with
      | error err => exact ⟨rfl, rfl⟩
      | ok xpub => exact ⟨rfl, rfl⟩
  · intro hlen
    simp only [ExtendedPublicKey, hlen, dite_false]
    cases ops.ETHPub _ with
    | error err => exact ⟨rfl, rfl⟩
    | ok xpubStr => exact ⟨rfl, rfl⟩

/-- Witness of C16: the keypath `m/44'/60'/0'/0/9`, written without hardening marks. -/
theorem ExtendedPublicKey_eth_witness :
    (ExtendedPublicKey (exampleEnv ⟨9, 22, 0⟩ (exampleAnswer [] []))
        (exampleOps (.ok []) (.ok "xpub") ⟨none, none⟩) exampleLibrary (.eth .ETH 1 none)
        [44, 60, 0, 0, 9]).calls =
      [.ETHPub { chainID := 1, keypath := [44, 60, 0, 0], outputType := .XPUB
                 display := false, contractAddress := [] }] ∧
    (ExtendedPublicKey (exampleEnv ⟨9, 22, 0⟩ (exampleAnswer [] []))
        (exampleOps (.ok []) (.ok "xpub") ⟨none, none⟩) exampleLibrary (.eth .ETH 1 none)
        [44, 60, 0, 0, 9]).result =
      .ok { key := [2], chainCode := [7], depth := 5, parentFP := [0, 0, 0, 0], childNum := 9
            version := [4, 136, 178, 30], isPrivate := false } :=
  (ExtendedPublicKey_eth (exampleEnv ⟨9, 22, 0⟩ (exampleAnswer [] []))
    (exampleOps (.ok []) (.ok "xpub") ⟨none, none⟩) exampleLibrary .ETH 1 none
    [44, 60, 0, 0, 9]).1 44 60 0 0 9 rfl

/-- The xpub type computed by the code is the one of the reference. -/
theorem msgXPubType_eq_reference (net : BitcoinNet) (scriptType : ScriptType) :
    msgXPubType net scriptType = xpubType_reference net scriptType := by
  unfold msgXPubType xpubType_reference
  cases net <;> simp <;> split_ifs <;> simp_all

/-- C17: for a supported Bitcoin-family coin, `VerifyExtendedPublicKey` asks the
device, with display, for the xpub type of the reference: on Bitcoin or
Litecoin mainnet YPUB for P2WPKH-P2SH, ZPUB for P2WPKH and XPUB otherwise, on
Bitcoin testnet3 or Litecoin testnet4 TPUB, on every other network XPUB. -/
theorem VerifyExtendedPublicKey_xpubType (env : Env) (ops : DeviceOps) (btcCoin : BtcCoin)
    (configuration : Configuration) (msgCoin : BTCCoin)
    (hcoin : env.btcMsgCoinMap btcCoin.Code = some msgCoin) :
    (VerifyExtendedPublicKey env ops (.btc btcCoin) configuration).calls =
      [.BTCXPub
        { coin := msgCoin
          keypath := configuration.AbsoluteKeypath
          xpubType := xpubType_reference btcCoin.Net configuration.ScriptType
          display := true }] := by
  simp only [VerifyExtendedPublicKey, CanVerifyExtendedPublicKey, hcoin, not_true_eq_false,
    if_false, msgXPubType_eq_reference]
  exact afterDisplay_calls _ _

/-- Witness of C17: a wrapped-segwit account on Bitcoin mainnet. -/
theorem VerifyExtendedPublicKey_xpubType_witness :
    (VerifyExtendedPublicKey (exampleEnv ⟨9, 22, 0⟩ (exampleAnswer [] []))
        (exampleOps (.ok []) (.ok "ypub") ⟨none, none⟩) (.btc ⟨.BTC, .btcMainNet⟩)
        ⟨.P2WPKHP2SH, [49, 0, 0]⟩).calls =
      [.BTCXPub
        { coin := .BTC
          keypath := [49, 0, 0]
          xpubType := xpubType_reference .btcMainNet .P2WPKHP2SH
          display := true }] :=
  VerifyExtendedPublicKey_xpubType (exampleEnv ⟨9, 22, 0⟩ (exampleAnswer [] []))
    (exampleOps (.ok []) (.ok "ypub") ⟨none, none⟩) ⟨.BTC, .btcMainNet⟩
    ⟨.P2WPKHP2SH, [49, 0, 0]⟩ .BTC (by rfl)

/-- The three Ethereum signing methods return `ErrSigningAborted` when their
device call reports a user abort. -/
theorem eth_signing_abort (call : DeviceCall) (answer : Except Error Bytes)
    (err : Error) (hanswer : answer = .error err) (hab : IsErrorAbort err = true) :
    afterSigning call answer =
      { result := .returned [] (some .ErrSigningAborted), calls := [call] } := by
  subst hanswer
  simp [afterSigning, hab]

/-- `SignBTCMessage` never returns `ErrSigningAborted` when its device call reports
a user abort: it panics or hands the error of the device back. -/
theorem SignBTCMessage_abort (env : Env) (ops : DeviceOps) (message : Bytes)
    (keypath : List Nat) (scriptType : ScriptType) (sc : BTCScriptConfig_SimpleType)
    (hsc : env.btcMsgScriptTypeMap scriptType = some sc) (err : Error)
    (herr : (ops.BTCSignMessage
      { coin := .BTC
        scriptConfig := { ScriptConfig := NewBTCScriptConfigSimple sc, Keypath := keypath }
        message := message }).err = some err)
    (hab : IsErrorAbort err = true) (bytes : Bytes) :
    (SignBTCMessage env ops message keypath scriptType).result ≠
      .returned bytes (some .ErrSigningAborted) := by
  unfold SignBTCMessage
  simp only [hsc]
  cases hres : (ops.BTCSignMessage
      { coin := .BTC
        scriptConfig := { ScriptConfig := NewBTCScriptConfigSimple sc, Keypath := keypath }
        message := message }).signResult with
  | none => simp
  | some r =>
    simp only [herr]
    intro h
    simp only [BytesOutcome.returned.injEq, Option.some.injEq] at h
    rw [h.2] at hab
    simp [IsErrorAbort] at hab

/-- C18 at the failing input: the device reports a user abort to `SignBTCMessage`.
The method hands the device error back, or panics when the device returned no
result, while `SignETHMessage`, `SignETHTypedMessage` and
`SignETHWalletConnectTransaction` return `ErrSigningAborted` on the same device. -/
theorem SignBTCMessage_abort_not_translated :
    (SignBTCMessage (exampleEnv ⟨9, 22, 0⟩ (exampleAnswer [] []))
        (exampleOpsAbort (some ⟨[]⟩)) [1] [84, 0, 0, 0, 0] .P2WPKH).result =
      .returned [] (some (.device 104 "aborted")) ∧
    (SignBTCMessage (exampleEnv ⟨9, 22, 0⟩ (exampleAnswer [] []))
        (exampleOpsAbort none) [1] [84, 0, 0, 0, 0] .P2WPKH).result =
      .panic "nil pointer dereference" ∧
    (SignETHMessage (exampleOpsAbort none) [1] [44, 60, 0, 0, 0]).result =
      .returned [] (some .ErrSigningAborted) ∧
    (SignETHTypedMessage (exampleOpsAbort none) 1 [1] [44, 60, 0, 0, 0]).result =
      .returned [] (some .ErrSigningAborted) ∧
    (SignETHWalletConnectTransaction (exampleOpsAbort none) 1
        (exampleEthProposal 0 (some [9])).Tx [44, 60, 0, 0, 0]).result =
      .returned [] (some .ErrSigningAborted) := by
  decide

/-! ## The script-configuration registries -/

theorem findScriptConfig_eq_none (t : BTCScriptConfig_SimpleType) :
    ∀ scs : List BTCScriptConfigWithKeypath,
      findScriptConfig t scs = none ↔ ∀ sc ∈ scs, sc.ScriptConfig.SimpleType ≠ t := by
  intro scs
  induction scs with
  | nil => simp [findScriptConfig]
  | cons sc rest ih =>
    unfold findScriptConfig
    by_cases h : sc.ScriptConfig.SimpleType = t
    · simp [h]
    · simp [h, ih]

/-- An index found in a registry stays the same when entries are appended. -/
theorem findScriptConfig_append (t : BTCScriptConfig_SimpleType) :
    ∀ (scs ext : List BTCScriptConfigWithKeypath) (i : Nat),
      findScriptConfig t scs = some i → findScriptConfig t (scs ++ ext) = some i := by
  intro scs
  induction scs with
  | nil => intro ext i h; simp [findScriptConfig] at h
  | cons sc rest ih =>
    intro ext i h
    rw [List.cons_append]
    unfold findScriptConfig at h ⊢
    by_cases hsc : sc.ScriptConfig.SimpleType = t
    · simpa [hsc] using h
    · simp only [hsc, if_false] at h ⊢
      cases hr : findScriptConfig t rest with
      | none => simp [hr] at h
      | some j =>
        rw [hr] at h
        rw [ih ext j hr]
        exact h

/-- An entry appended to a registry without its simple type is found at the old length. -/
theorem findScriptConfig_append_new (sc : BTCScriptConfigWithKeypath) :
    ∀ scs : List BTCScriptConfigWithKeypath,
      findScriptConfig sc.ScriptConfig.SimpleType scs = none →
      findScriptConfig sc.ScriptConfig.SimpleType (scs ++ [sc]) = some scs.length := by
  intro scs
  induction scs with
  | nil => intro _; simp [findScriptConfig]
  | cons x rest ih =>
    intro h
    rw [List.cons_append]
    unfold findScriptConfig at h ⊢
    by_cases hx : x.ScriptConfig.SimpleType = sc.ScriptConfig.SimpleType
    · simp [hx] at h
    · simp only [hx, if_false] at h ⊢
      cases hr : findScriptConfig sc.ScriptConfig.SimpleType rest with
      | none => rw [ih hr]; simp
      | some j => simp [hr] at h

/-- What `addScriptConfig` does: the old list is kept as a prefix, the simple types
stay distinct, and the returned index is where the simple type is found. -/
theorem addScriptConfig_spec (scs : List BTCScriptConfigWithKeypath)
    (sc : BTCScriptConfigWithKeypath) :
    (∃ ext, (addScriptConfig scs sc).1 = scs ++ ext) ∧
      (DistinctSimpleTypes scs → DistinctSimpleTypes (addScriptConfig scs sc).1) ∧
      findScriptConfig sc.ScriptConfig.SimpleType (addScriptConfig scs sc).1 =
        some (addScriptConfig scs sc).2 := by
  unfold addScriptConfig
  cases h : findScriptConfig sc.ScriptConfig.SimpleType scs with
  | some i => exact ⟨⟨[], by simp⟩, fun hd => hd, h⟩
  | none =>
    refine ⟨⟨[sc], rfl⟩, ?_, ?_⟩
    · intro hd
      unfold DistinctSimpleTypes at hd ⊢
      rw [List.pairwise_append]
      refine ⟨hd, by simp, ?_⟩
      intro a ha b hb
      rw [List.mem_singleton] at hb
      subst hb
      exact (findScriptConfig_eq_none _ scs).mp h a ha
    · dsimp only
      rw [findScriptConfig_append_new sc scs h]
      simp

/-- What `addOutputScriptConfig` does: as `addScriptConfig`, the returned index
being converted to `uint32`. -/
theorem addOutputScriptConfig_spec (scs : List BTCScriptConfigWithKeypath)
    (sc : BTCScriptConfigWithKeypath) :
    (∃ ext, (addOutputScriptConfig scs sc).1 = scs ++ ext) ∧
      (DistinctSimpleTypes scs → DistinctSimpleTypes (addOutputScriptConfig scs sc).1) ∧
      ∃ idx, findScriptConfig sc.ScriptConfig.SimpleType (addOutputScriptConfig scs sc).1 =
          some idx ∧ (addOutputScriptConfig scs sc).2 = uint32 idx := by
  have h1 : (addOutputScriptConfig scs sc).1 = (addScriptConfig scs sc).1 := by
    unfold addOutputScriptConfig addScriptConfig
    cases findScriptConfig sc.ScriptConfig.SimpleType scs <;> rfl
  have h2 : (addOutputScriptConfig scs sc).2 = uint32 (addScriptConfig scs sc).2 := by
    unfold addOutputScriptConfig addScriptConfig
    cases findScriptConfig sc.ScriptConfig.SimpleType scs <;> rfl
  obtain ⟨hp, hd, hf⟩ := addScriptConfig_spec scs sc
  rw [h1]
  exact ⟨hp, hd, _, hf, h2⟩

/-- Entries with distinct simple types are distinct entries. -/
theorem DistinctSimpleTypes.nodup {scs : List BTCScriptConfigWithKeypath}
    (h : DistinctSimpleTypes scs) : scs.Nodup := by
  unfold DistinctSimpleTypes at h
  unfold List.Nodup
  exact h.imp (fun hne heq => hne (by rw [heq]))

/-- The loop over the inputs keeps the registry's old entries as a prefix and its
simple types distinct. -/
theorem inputsLoop_registry (env : Env) (p : ProposedTransaction) :
    ∀ (txIns : List TxIn) (scs : List BTCScriptConfigWithKeypath)
      (res : List BTCTxInput × List BTCScriptConfigWithKeypath),
      inputsLoop env p txIns scs = .ok res →
      (∃ ext, res.2 = scs ++ ext) ∧ (DistinctSimpleTypes scs → DistinctSimpleTypes res.2) := by
  intro txIns
  induction txIns with
  | nil =>
    intro scs res h
    simp only [inputsLoop, Except.ok.injEq] at h
    subst h
    exact ⟨⟨[], by simp⟩, fun hd => hd⟩
  | cons t rest ih =>
    intro scs res h
    unfold inputsLoop at h
    cases hprev : p.TXProposal.PreviousOutputs t.PreviousOutPoint with
    | none => simp [hprev] at h
    | some prevOut =>
      simp only [hprev] at h
      cases hm : env.btcMsgScriptTypeMap prevOut.Address.AccountConfiguration.ScriptType with
      | none => simp [hm] at h
      | some msgScriptType =>
        simp only [hm] at h
        split at h
        · cases h
        · split at h
          · cases h
          · rename_i inputs scs2 hloop
            simp only [Except.ok.injEq] at h
            subst h
            obtain ⟨⟨ext1, he1⟩, hd1, _⟩ := addScriptConfig_spec scs
              { ScriptConfig := NewBTCScriptConfigSimple msgScriptType
                Keypath := prevOut.Address.AccountConfiguration.AbsoluteKeypath }
            obtain ⟨⟨ext2, he2⟩, hd2⟩ := ih _ _ hloop
            refine ⟨⟨ext1 ++ ext2, ?_⟩, fun hd => hd2 (hd1 hd)⟩
            dsimp only at he2 ⊢
            rw [he2, he1, List.append_assoc]

/-- The three ways in which `outputRequest` builds an output: not marked, marked
as an output of the sending account, or marked as an output of another account. -/
theorem outputRequest_cases (env : Env) (p : ProposedTransaction) (net : BitcoinNet)
    (index : Nat) (txOut : TxOut) (scs oscs : List BTCScriptConfigWithKeypath)
    (r : BTCSignOutputRequest × List BTCScriptConfigWithKeypath × List BTCScriptConfigWithKeypath)
    (hr : outputRequest env p net index txOut scs oscs = .ok r) :
    (r.1.Ours = false ∧ r.1.Keypath = [] ∧ r.1.ScriptConfigIndex = uint32 0 ∧
        r.1.OutputScriptConfigIndex = none ∧ r.2.1 = scs ∧ r.2.2 = oscs) ∨
    (∃ a t,
      p.GetKeystoreAddress p.SendingAccount (env.NewScriptHashHex txOut.PkScript) =
        .ok (some a, true) ∧
      env.btcMsgScriptTypeMap a.AccountConfiguration.ScriptType = some t ∧
      r.1.Ours = true ∧ r.1.Keypath = a.Configuration.AbsoluteKeypath ∧
      r.1.ScriptConfigIndex =
        uint32 (addScriptConfig scs
          { ScriptConfig := NewBTCScriptConfigSimple t
            Keypath := a.AccountConfiguration.AbsoluteKeypath }).2 ∧
      r.1.OutputScriptConfigIndex = none ∧
      r.2.1 = (addScriptConfig scs
          { ScriptConfig := NewBTCScriptConfigSimple t
            Keypath := a.AccountConfiguration.AbsoluteKeypath }).1 ∧
      r.2.2 = oscs) ∨
    (∃ a t,
      p.GetKeystoreAddress p.SendingAccount (env.NewScriptHashHex txOut.PkScript) =
        .ok (some a, false) ∧
      env.btcMsgScriptTypeMap a.AccountConfiguration.ScriptType = some t ∧
      env.device.Version.AtLeast ⟨9, 22, 0⟩ = true ∧
      r.1.Ours = true ∧ r.1.Keypath = a.Configuration.AbsoluteKeypath ∧
      r.1.ScriptConfigIndex = uint32 0 ∧
      r.1.OutputScriptConfigIndex =
        some (addOutputScriptConfig oscs
          { ScriptConfig := NewBTCScriptConfigSimple t
            Keypath := a.AccountConfiguration.AbsoluteKeypath }).2 ∧
      r.2.1 = scs ∧
      r.2.2 = (addOutputScriptConfig oscs
          { ScriptConfig := NewBTCScriptConfigSimple t
            Keypath := a.AccountConfiguration.AbsoluteKeypath }).1) := by
  cases hk : p.GetKeystoreAddress p.SendingAccount (env.NewScriptHashHex txOut.PkScript) with
  | error e =>
    unfold outputRequest at hr
    rw [hk] at hr
    dsimp only at hr
    generalize outputTypeAndPayload env p net _ txOut = decoded at hr
    cases decoded with
    | error a => cases hr
    | ok v => cases hr
  | ok v =>
    obtain ⟨addr, same⟩ := v
    unfold outputRequest at hr
    rw [hk] at hr
    dsimp only at hr
    generalize outputTypeAndPayload env p net _ txOut = decoded at hr
    cases decoded with
    | error a => cases hr
    | ok v =>
      obtain ⟨ty, payload, sp⟩ := v
      dsimp only at hr
      cases hc : isChange p.TXProposal.ChangeAddress txOut <;>
        cases h15 : env.device.Version.AtLeast ⟨9, 15, 0⟩ <;>
        cases addr <;>
        simp only [hc, h15, Option.isSome, Bool.not_true, Bool.not_false, Bool.and_true,
          Bool.and_false, Bool.true_and, Bool.false_and, Bool.or_true, Bool.or_false,
          Bool.true_or, Bool.false_or, if_true, if_false, Bool.false_eq_true] at hr <;>
        first
        | (cases hr; exact Or.inl ⟨rfl, rfl, rfl, rfl, rfl, rfl⟩)
        | (rename_i a
           cases hm : env.btcMsgScriptTypeMap a.AccountConfiguration.ScriptType with
           | none => simp [hm] at hr
           | some t =>
             simp only [hm] at hr
             cases same <;> cases h22 : env.device.Version.AtLeast ⟨9, 22, 0⟩ <;>
               simp only [h22, if_true, if_false, Bool.false_eq_true] at hr <;>
               cases hr <;>
               first
               | exact Or.inl ⟨rfl, rfl, rfl, rfl, rfl, rfl⟩
               | exact Or.inr (Or.inl ⟨a, t, rfl, hm, rfl, rfl, rfl, rfl, rfl, rfl⟩)
               | exact Or.inr (Or.inr ⟨a, t, rfl, hm, rfl, rfl, rfl, rfl, rfl, rfl, rfl⟩))

/-- One iteration of the loop over the outputs keeps the old entries of both
registries as prefixes and their simple types distinct. -/
theorem outputRequest_registry (env : Env) (p : ProposedTransaction) (net : BitcoinNet)
    (index : Nat) (txOut : TxOut) (scs oscs : List BTCScriptConfigWithKeypath)
    (r : BTCSignOutputRequest × List BTCScriptConfigWithKeypath × List BTCScriptConfigWithKeypath)
    (hr : outputRequest env p net index txOut scs oscs = .ok r) :
    (∃ ext, r.2.1 = scs ++ ext) ∧ (∃ ext, r.2.2 = oscs ++ ext) ∧
      (DistinctSimpleTypes scs → DistinctSimpleTypes r.2.1) ∧
      (DistinctSimpleTypes oscs → DistinctSimpleTypes r.2.2) := by
  rcases outputRequest_cases env p net index txOut scs oscs r hr with
    ⟨_, _, _, _, h1, h2⟩ | ⟨a, t, _, _, _, _, _, _, h1, h2⟩ | ⟨a, t, _, _, _, _, _, _, _, h1, h2⟩
  · rw [h1, h2]
    exact ⟨⟨[], by simp⟩, ⟨[], by simp⟩, fun h => h, fun h => h⟩
  · rw [h1, h2]
    obtain ⟨hp, hd, _⟩ := addScriptConfig_spec scs
      { ScriptConfig := NewBTCScriptConfigSimple t
        Keypath := a.AccountConfiguration.AbsoluteKeypath }
    exact ⟨hp, ⟨[], by simp⟩, hd, fun h => h⟩
  · rw [h1, h2]
    obtain ⟨hp, hd, _⟩ := addOutputScriptConfig_spec oscs
      { ScriptConfig := NewBTCScriptConfigSimple t
        Keypath := a.AccountConfiguration.AbsoluteKeypath }
    exact ⟨⟨[], by simp⟩, hp, fun h => h, hd⟩

/-- The index that `outputRequest` gives to a marked output is where the simple
type of the owning account is found in the registry after the iteration. -/
theorem outputRequest_index (env : Env) (p : ProposedTransaction) (net : BitcoinNet)
    (index : Nat) (txOut : TxOut) (scs oscs : List BTCScriptConfigWithKeypath)
    (r : BTCSignOutputRequest × List BTCScriptConfigWithKeypath × List BTCScriptConfigWithKeypath)
    (a : AccountAddress) (same : Bool)
    (hr : outputRequest env p net index txOut scs oscs = .ok r)
    (hk : p.GetKeystoreAddress p.SendingAccount (env.NewScriptHashHex txOut.PkScript) =
      .ok (some a, same))
    (hours : r.1.Ours = true) :
    ∃ t, env.btcMsgScriptTypeMap a.AccountConfiguration.ScriptType = some t ∧
      (same = true → ∃ idx, findScriptConfig t r.2.1 = some idx ∧
        r.1.ScriptConfigIndex = uint32 idx ∧ r.1.OutputScriptConfigIndex = none) ∧
      (same = false → ∃ idx, findScriptConfig t r.2.2 = some idx ∧
        r.1.OutputScriptConfigIndex = some (uint32 idx) ∧
        r.1.ScriptConfigIndex = uint32 0) := by
  rcases outputRequest_cases env p net index txOut scs oscs r hr with
    ⟨h0, _⟩ | ⟨b, t, hkb, hm, _, _, hidx, hoidx, h1, _⟩ |
    ⟨b, t, hkb, hm, _, _, _, hidx, hoidx, _, h2⟩
  · rw [h0] at hours
    cases hours
  · rw [hk] at hkb
    simp only [Except.ok.injEq, Prod.mk.injEq, Option.some.injEq] at hkb
    obtain ⟨rfl, rfl⟩ := hkb
    refine ⟨t, hm, ?_, by simp⟩
    intro _
    obtain ⟨_, _, hf⟩ := addScriptConfig_spec scs
      { ScriptConfig := NewBTCScriptConfigSimple t
        Keypath := a.AccountConfiguration.AbsoluteKeypath }
    rw [h1]
    exact ⟨_, hf, hidx, hoidx⟩
  · rw [hk] at hkb
    simp only [Except.ok.injEq, Prod.mk.injEq, Option.some.injEq] at hkb
    obtain ⟨rfl, rfl⟩ := hkb
    refine ⟨t, hm, by simp, ?_⟩
    intro _
    obtain ⟨_, _, idx, hf, hconv⟩ := addOutputScriptConfig_spec oscs
      { ScriptConfig := NewBTCScriptConfigSimple t
        Keypath := a.AccountConfiguration.AbsoluteKeypath }
    rw [h2]
    refine ⟨idx, hf, ?_, hidx⟩
    rw [hoidx, hconv]

/-- The loop over the outputs: every output is built by `outputRequest` from
registries that are prefixes of the final ones, and distinct simple types stay
distinct. -/
theorem outputsLoop_registry (env : Env) (p : ProposedTransaction) (net : BitcoinNet) :
    ∀ (txOuts : List TxOut) (k : Nat) (scs oscs : List BTCScriptConfigWithKeypath)
      (res : List BTCSignOutputRequest × List BTCScriptConfigWithKeypath ×
        List BTCScriptConfigWithKeypath),
      outputsLoop env p net k txOuts scs oscs = .ok res →
      (∃ ext, res.2.1 = scs ++ ext) ∧ (∃ ext, res.2.2 = oscs ++ ext) ∧
      (DistinctSimpleTypes scs → DistinctSimpleTypes res.2.1) ∧
      (DistinctSimpleTypes oscs → DistinctSimpleTypes res.2.2) ∧
      ∀ (i : Nat) (txOut : TxOut), txOuts[i]? = some txOut →
        ∃ scs1 oscs1 r, outputRequest env p net (k + i) txOut scs1 oscs1 = .ok r ∧
          res.1[i]? = some r.1 ∧
          (∃ ext, res.2.1 = r.2.1 ++ ext) ∧ (∃ ext, res.2.2 = r.2.2 ++ ext) := by
  intro txOuts
  induction txOuts with
  | nil =>
    intro k scs oscs res h
    simp only [outputsLoop, Except.ok.injEq] at h
    subst h
    exact ⟨⟨[], by simp⟩, ⟨[], by simp⟩, fun h => h, fun h => h, by simp⟩
  | cons t rest ih =>
    intro k scs oscs res h
    unfold outputsLoop at h
    cases h1 : outputRequest env p net k t scs oscs with
    | error a => simp [h1] at h
    | ok v =>
      obtain ⟨o, scs1, oscs1⟩ := v
      simp only [h1] at h
      cases h2 : outputsLoop env p net (k + 1) rest scs1 oscs1 with
      | error a => simp [h2] at h
      | ok w =>
        obtain ⟨os, scs2, oscs2⟩ := w
        simp only [h2] at h
        cases h
        obtain ⟨⟨e1, he1⟩, ⟨e2, he2⟩, hd1, hd2⟩ := outputRequest_registry env p net k t scs oscs _ h1
        obtain ⟨⟨f1, hf1⟩, ⟨f2, hf2⟩, hg1, hg2, hget⟩ := ih (k + 1) scs1 oscs1 _ h2
        dsimp only at he1 he2 hd1 hd2 hf1 hf2 hg1 hg2 hget ⊢
        refine ⟨⟨e1 ++ f1, by rw [hf1, he1, List.append_assoc]⟩,
          ⟨e2 ++ f2, by rw [hf2, he2, List.append_assoc]⟩,
          fun hd => hg1 (hd1 hd), fun hd => hg2 (hd2 hd), ?_⟩
        intro i txOut hi
        cases i with
        | zero =>
          simp at hi
          subst hi
          exact ⟨scs, oscs, _, h1, by simp, ⟨f1, hf1⟩, ⟨f2, hf2⟩⟩
        | succ j =>
          simp at hi
          obtain ⟨a, b, r, hr, hgetj, hp1, hp2⟩ := hget j txOut hi
          refine ⟨a, b, r, ?_, by simpa using hgetj, hp1, hp2⟩
          have : k + 1 + j = k + (j + 1) := by omega
          rw [← this]
          exact hr

/-- The parts of a request that could be built: the results of the two loops, of
the provision of the previous transactions and of the payment-request step. -/
theorem buildBTCSignCall_parts (env : Env) (p : ProposedTransaction) (call : BTCSignCall)
    (h : buildBTCSignCall env p = .ok call) :
    ∃ ins scs1 outs,
      env.btcMsgCoinMap p.TXProposal.Coin.Code = some call.coin ∧
      inputsLoop env p p.TXProposal.Transaction.TxIn [] = .ok (ins, scs1) ∧
      outputsLoop env p p.TXProposal.Coin.Net 0 p.TXProposal.Transaction.TxOut scs1 [] =
        .ok (outs, call.scriptConfigs, call.outputScriptConfigs) ∧
      (if env.BTCSignNeedsPrevTxs call.scriptConfigs then
          prevTxsLoop p p.TXProposal.Transaction.TxIn ins
        else .ok ins) = .ok call.tx.Inputs ∧
      attachPaymentRequest p outs = .ok (call.tx.Outputs, call.tx.PaymentRequests) := by
  unfold buildBTCSignCall at h
  simp only at h
  cases h0 : env.btcMsgCoinMap p.TXProposal.Coin.Code with
  | none => simp [h0] at h
  | some msgCoin =>
    simp only [h0] at h
    cases h1 : inputsLoop env p p.TXProposal.Transaction.TxIn [] with
    | error a => simp [h1] at h
    | ok v =>
      obtain ⟨inputs, scs1⟩ := v
      simp only [h1] at h
      cases h2 : outputsLoop env p p.TXProposal.Coin.Net 0 p.TXProposal.Transaction.TxOut scs1 []
        with
      | error a => simp [h2] at h
      | ok w =>
        obtain ⟨outputs, scs, oscs⟩ := w
        simp only [h2] at h
        split at h
        · cases h
        · rename_i inputs2 hprev
          split at h
          · cases h
          · rename_i outputs2 prs hatt
            cases h
            exact ⟨inputs, scs1, outputs, rfl, rfl, h2, hprev, hatt⟩

/-! ## Registry invariants (C19, C20) -/

/-- C19: neither registry ever holds two identical entries: not in the lists
passed to the device, and, in every run, whether it reaches the device or stops
before, not after any number `k` of processed inputs and not after any number
`k` of processed outputs. -/
theorem script_configs_nodup (env : Env) (p : ProposedTransaction) :
    (∀ call, (signBTCTransaction env p).calls = [call] →
      call.scriptConfigs.Nodup ∧ call.outputScriptConfigs.Nodup) ∧
    (∀ (k : Nat) (ins : List BTCTxInput) (scs : List BTCScriptConfigWithKeypath),
      inputsLoop env p (p.TXProposal.Transaction.TxIn.take k) [] = .ok (ins, scs) →
      scs.Nodup) ∧
    (∀ (k : Nat) (ins : List BTCTxInput) (scs1 : List BTCScriptConfigWithKeypath)
      (outs : List BTCSignOutputRequest) (scs oscs : List BTCScriptConfigWithKeypath),
      inputsLoop env p p.TXProposal.Transaction.TxIn [] = .ok (ins, scs1) →
      outputsLoop env p p.TXProposal.Coin.Net 0 (p.TXProposal.Transaction.TxOut.take k)
        scs1 [] = .ok (outs, scs, oscs) →
      scs.Nodup ∧ oscs.Nodup) := by
  have hnil : DistinctSimpleTypes [] := List.Pairwise.nil
  refine ⟨?_, ?_, ?_⟩
  · intro call hcall
    have hb := buildBTCSignCall_of_calls env p call hcall
    obtain ⟨ins, scs1, outs, _, hin, hout, _, _⟩ := buildBTCSignCall_parts env p call hb
    have hd1 := (inputsLoop_registry env p _ _ _ hin).2 hnil
    obtain ⟨_, _, hd2, hd3, _⟩ := outputsLoop_registry env p _ _ _ _ _ _ hout
    exact ⟨(hd2 hd1).nodup, (hd3 hnil).nodup⟩
  · intro k ins2 scs hk
    exact ((inputsLoop_registry env p _ _ _ hk).2 hnil).nodup
  · intro k ins2 scs0 outs2 scs oscs hin2 hk
    have hd0 := (inputsLoop_registry env p _ _ _ hin2).2 hnil
    obtain ⟨_, _, he2, he3, _⟩ := outputsLoop_registry env p _ _ _ _ _ _ hk
    exact ⟨(he2 hd0).nodup, (he3 hnil).nodup⟩

/-- Witness of C19: the request of the example with three outputs, and the
registries of a run that stops before the device call, after both loops. -/
theorem script_configs_nodup_witness :
    (exampleCallThreeOutputs.scriptConfigs.Nodup ∧
      exampleCallThreeOutputs.outputScriptConfigs.Nodup) ∧
    (signBTCTransaction (exampleEnv ⟨9, 22, 0⟩ (exampleAnswer [1] []))
      exampleProposalPrevTxFails).calls = [] ∧
    (∀ (k : Nat) (ins : List BTCTxInput) (scs1 : List BTCScriptConfigWithKeypath)
      (outs : List BTCSignOutputRequest) (scs oscs : List BTCScriptConfigWithKeypath),
      inputsLoop (exampleEnv ⟨9, 22, 0⟩ (exampleAnswer [1] [])) exampleProposalPrevTxFails
        exampleProposalPrevTxFails.TXProposal.Transaction.TxIn [] = .ok (ins, scs1) →
      outputsLoop (exampleEnv ⟨9, 22, 0⟩ (exampleAnswer [1] [])) exampleProposalPrevTxFails
        exampleProposalPrevTxFails.TXProposal.Coin.Net 0
        (exampleProposalPrevTxFails.TXProposal.Transaction.TxOut.take k) scs1 [] =
          .ok (outs, scs, oscs) →
      scs.Nodup ∧ oscs.Nodup) :=
  ⟨(script_configs_nodup (exampleEnv ⟨9, 22, 0⟩ (exampleAnswer [1] []))
      exampleProposalThreeOutputs).1 exampleCallThreeOutputs (by decide),
    by decide,
    (script_configs_nodup (exampleEnv ⟨9, 22, 0⟩ (exampleAnswer [1] []))
      exampleProposalPrevTxFails).2.2⟩

/-- The indices of a marked output of the request, in terms of the final registries. -/
theorem signBTCTransaction_output_index (env : Env) (p : ProposedTransaction)
    (call : BTCSignCall) (hcall : (signBTCTransaction env p).calls = [call])
    (i : Nat) (txOut : TxOut) (hi : p.TXProposal.Transaction.TxOut[i]? = some txOut)
    (a : AccountAddress) (same : Bool)
    (hk : p.GetKeystoreAddress p.SendingAccount (env.NewScriptHashHex txOut.PkScript) =
      .ok (some a, same)) :
    ∃ out, call.tx.Outputs[i]? = some out ∧
      (out.Ours = true →
        ∃ t, env.btcMsgScriptTypeMap a.AccountConfiguration.ScriptType = some t ∧
          (same = true → ∃ idx, findScriptConfig t call.scriptConfigs = some idx ∧
            out.ScriptConfigIndex = uint32 idx ∧ out.OutputScriptConfigIndex = none) ∧
          (same = false → ∃ idx, findScriptConfig t call.outputScriptConfigs = some idx ∧
            out.OutputScriptConfigIndex = some (uint32 idx) ∧
            out.ScriptConfigIndex = uint32 0)) := by
  have hb := buildBTCSignCall_of_calls env p call hcall
  obtain ⟨ins, scs1, outs, _, _, hout, _, hatt⟩ := buildBTCSignCall_parts env p call hb
  obtain ⟨_, _, _, _, hget⟩ := outputsLoop_registry env p _ _ _ _ _ _ hout
  obtain ⟨scs0, oscs0, r, hr, hri, ⟨e1, he1⟩, ⟨e2, he2⟩⟩ := hget i txOut hi
  rw [Nat.zero_add] at hr
  dsimp only at hri he1 he2
  obtain ⟨out, hout2, heq⟩ := attachPaymentRequest_get p _ _ _ hatt i r.1 hri
  refine ⟨out, hout2, ?_⟩
  intro hours
  have hours2 : r.1.Ours = true := by rw [heq] at hours; exact hours
  obtain ⟨t, hm, hs, hn⟩ := outputRequest_index env p _ i txOut scs0 oscs0 r a same hr hk hours2
  refine ⟨t, hm, ?_, ?_⟩
  · intro hsame
    obtain ⟨idx, hf, h1, h2⟩ := hs hsame
    refine ⟨idx, ?_, ?_, ?_⟩
    · rw [he1]; exact findScriptConfig_append t _ _ _ hf
    · rw [heq]; exact h1
    · rw [heq]; exact h2
  · intro hsame
    obtain ⟨idx, hf, h1, h2⟩ := hn hsame
    refine ⟨idx, ?_, ?_, ?_⟩
    · rw [he2]; exact findScriptConfig_append t _ _ _ hf
    · rw [heq]; exact h1
    · rw [heq]; exact h2

/-- C20: two outputs of the request that are marked `Ours`, whose owning addresses
have the same account configuration and the same same-account status, carry the
same `ScriptConfigIndex` and the same `OutputScriptConfigIndex`; the latter is
unset for outputs of the sending account and set for outputs of another account. -/
theorem same_account_same_index (env : Env) (p : ProposedTransaction) (call : BTCSignCall)
    (hcall : (signBTCTransaction env p).calls = [call])
    (i j : Nat) (txOut1 txOut2 : TxOut)
    (hi : p.TXProposal.Transaction.TxOut[i]? = some txOut1)
    (hj : p.TXProposal.Transaction.TxOut[j]? = some txOut2)
    (a1 a2 : AccountAddress) (same : Bool)
    (hk1 : p.GetKeystoreAddress p.SendingAccount (env.NewScriptHashHex txOut1.PkScript) =
      .ok (some a1, same))
    (hk2 : p.GetKeystoreAddress p.SendingAccount (env.NewScriptHashHex txOut2.PkScript) =
      .ok (some a2, same))
    (hcfg : a1.AccountConfiguration = a2.AccountConfiguration) :
    ∃ out1 out2, call.tx.Outputs[i]? = some out1 ∧ call.tx.Outputs[j]? = some out2 ∧
      (out1.Ours = true → out2.Ours = true →
        out1.ScriptConfigIndex = out2.ScriptConfigIndex ∧
        out1.OutputScriptConfigIndex = out2.OutputScriptConfigIndex ∧
        (same = true → out1.OutputScriptConfigIndex = none) ∧
        (same = false → ∃ k, out1.OutputScriptConfigIndex = some k)) := by
  obtain ⟨out1, ho1, h1⟩ := signBTCTransaction_output_index env p call hcall i txOut1 hi a1 same hk1
  obtain ⟨out2, ho2, h2⟩ := signBTCTransaction_output_index env p call hcall j txOut2 hj a2 same hk2
  refine ⟨out1, out2, ho1, ho2, ?_⟩
  intro hours1 hours2
  obtain ⟨t1, hm1, hs1, hn1⟩ := h1 hours1
  obtain ⟨t2, hm2, hs2, hn2⟩ := h2 hours2
  rw [hcfg, hm2] at hm1
  cases hm1
  cases same with
  | true =>
    obtain ⟨idx1, hf1, hx1, hy1⟩ := hs1 rfl
    obtain ⟨idx2, hf2, hx2, hy2⟩ := hs2 rfl
    rw [hf1] at hf2
    cases hf2
    exact ⟨by rw [hx1, hx2], by rw [hy1, hy2], fun _ => hy1, fun h => (by cases h)⟩
  | false =>
    obtain ⟨idx1, hf1, hx1, hy1⟩ := hn1 rfl
    obtain ⟨idx2, hf2, hx2, hy2⟩ := hn2 rfl
    rw [hf1] at hf2
    cases hf2
    exact ⟨by rw [hy1, hy2], by rw [hx1, hx2], fun h => (by cases h), fun _ => ⟨_, hx1⟩⟩

/-- Witness of C20: the two outputs of the sending account in the example. -/
theorem same_account_same_index_witness :
    ∃ out1 out2, exampleCallThreeOutputs.tx.Outputs[1]? = some out1 ∧
      exampleCallThreeOutputs.tx.Outputs[2]? = some out2 ∧
      (out1.Ours = true → out2.Ours = true →
        out1.ScriptConfigIndex = out2.ScriptConfigIndex ∧
        out1.OutputScriptConfigIndex = out2.OutputScriptConfigIndex ∧
        (true = true → out1.OutputScriptConfigIndex = none) ∧
        (true = false → ∃ k, out1.OutputScriptConfigIndex = some k)) :=
  same_account_same_index (exampleEnv ⟨9, 22, 0⟩ (exampleAnswer [1] []))
    exampleProposalThreeOutputs exampleCallThreeOutputs (by decide) 1 2
    { Value := 500, PkScript := [0x00, 0x22] } { Value := 500, PkScript := [0x00, 0x23] }
    (by decide) (by decide)
    (exampleAddress [84, 0, 0] [0x00, 0x22]) (exampleAddress [84, 0, 0] [0x00, 0x22]) true
    (by rfl) (by rfl) (by rfl)

/-! ## The main locale (C30) -/

/-- The first piece of a split is the part before the first separator. -/
theorem stringsSplit_head (sep : Byte) :
    ∀ s : Bytes, ∃ rest, stringsSplit sep s = s.takeWhile (fun b => decide (b ≠ sep)) :: rest := by
  intro s
  induction s with
  | nil => exact ⟨[], rfl⟩
  | cons b tail ih =>
    obtain ⟨rest, hrest⟩ := ih
    unfold stringsSplit
    by_cases hb : b = sep
    · simp [hb]
    · simp [hb, hrest]

/-- The part of the replaced string before the first `-` is the part of the string
before the first `_` or `-`. -/
theorem takeWhile_stringsReplace (s : Bytes) :
    (stringsReplace s underscore hyphen).takeWhile (fun b => decide (b ≠ hyphen)) =
      s.takeWhile (fun b => decide (b ≠ underscore ∧ b ≠ hyphen)) := by
  induction s with
  | nil => rfl
  | cons b tail ih =>
    unfold stringsReplace at ih ⊢
    by_cases hu : b = underscore
    · subst hu
      simp [List.takeWhile]
    · by_cases hh : b = hyphen
      · subst hh
        simp [List.takeWhile]
      · simp [List.takeWhile, hu, hh]
        simpa using ih

/-- The code returns the part of the string before the first `_` or `-`. -/
theorem MainLocaleFromNative_eq (s : Bytes) :
    MainLocaleFromNative s =
      .ok (s.takeWhile (fun b => decide (b ≠ underscore ∧ b ≠ hyphen))) := by
  unfold MainLocaleFromNative
  obtain ⟨rest, hrest⟩ := stringsSplit_head hyphen (stringsReplace s underscore hyphen)
  simp only [hrest, takeWhile_stringsReplace]

theorem takeWhile_longest (s : Bytes) :
    IsLongestPrefixWithoutSeparator
      (s.takeWhile (fun b => decide (b ≠ underscore ∧ b ≠ hyphen))) s := by
  refine ⟨List.takeWhile_prefix _, ?_, ?_⟩
  · intro b hb
    have := List.mem_takeWhile_imp hb
    simpa using this
  · intro r2 hpre hclean
    induction s generalizing r2 with
    | nil =>
      have : r2 = [] := List.prefix_nil.mp hpre
      simp [this]
    | cons b tail ih =>
      cases r2 with
      | nil => simp
      | cons c r3 =>
        obtain ⟨hcb, hpre3⟩ := List.cons_prefix_cons.mp hpre
        subst hcb
        have hc := hclean c (List.mem_cons_self _ _)
        have hclean3 : noSeparator r3 := fun x hx => hclean x (List.mem_cons_of_mem _ hx)
        have := ih r3 hpre3 hclean3
        simp [List.takeWhile, hc.1, hc.2]
        simpa using this

/-- C30: for every string, `MainLocaleFromNative` returns the longest prefix that
contains neither `_` nor `-`, which is the string itself when it has no
separator; the result contains neither `_` nor `-`, and applying
`MainLocaleFromNative` to the result gives the result again. -/
theorem MainLocaleFromNative_longest_prefix (s : Bytes) :
    ∃ r, MainLocaleFromNative s = .ok r ∧ IsLongestPrefixWithoutSeparator r s ∧
      noSeparator r ∧ (noSeparator s → r = s) ∧ MainLocaleFromNative r = .ok r := by
  refine ⟨_, MainLocaleFromNative_eq s, takeWhile_longest s, (takeWhile_longest s).2.1, ?_, ?_⟩
  · intro hs
    apply List.takeWhile_eq_self_iff.mpr
    intro b hb
    simpa using hs b hb
  · rw [MainLocaleFromNative_eq]
    congr 1
    apply List.takeWhile_eq_self_iff.mpr
    intro b hb
    have := (takeWhile_longest s).2.1 b hb
    simpa using this

/-- Witness of C30: the locale `en_US`. -/
theorem MainLocaleFromNative_longest_prefix_witness :
    ∃ r, MainLocaleFromNative [0x65, 0x6e, 0x5f, 0x55, 0x53] = .ok r ∧
      IsLongestPrefixWithoutSeparator r [0x65, 0x6e, 0x5f, 0x55, 0x53] ∧
      noSeparator r ∧ (noSeparator [0x65, 0x6e, 0x5f, 0x55, 0x53] → r = [0x65, 0x6e, 0x5f, 0x55, 0x53]) ∧
      MainLocaleFromNative r = .ok r :=
  MainLocaleFromNative_longest_prefix [0x65, 0x6e, 0x5f, 0x55, 0x53]

/-! ## The request: inputs -/

/-- The descriptors built by the loop over the inputs: one per input, in order,
with the data of the input, of its previous output and of the spending address. -/
theorem inputsLoop_inputs (env : Env) (p : ProposedTransaction) :
    ∀ (txIns : List TxIn) (scs : List BTCScriptConfigWithKeypath)
      (res : List BTCTxInput × List BTCScriptConfigWithKeypath),
      inputsLoop env p txIns scs = .ok res →
      res.1.length = txIns.length ∧
      ∀ (i : Nat) (txIn : TxIn), txIns[i]? = some txIn →
        ∃ prevOut input t idx,
          p.TXProposal.PreviousOutputs txIn.PreviousOutPoint = some prevOut ∧
          res.1[i]? = some input ∧
          input.Input.PrevOutHash = txIn.PreviousOutPoint.Hash ∧
          input.Input.PrevOutIndex = txIn.PreviousOutPoint.Index ∧
          input.Input.PrevOutValue = uint64 prevOut.TxOut.Value ∧
          input.Input.Sequence = txIn.Sequence ∧
          input.Input.Keypath = prevOut.Address.Configuration.AbsoluteKeypath ∧
          input.PrevTx = none ∧
          (p.TXProposal.SilentPaymentAddress ≠ "" →
            ∃ pubkey, prevOut.Address.BIP352Pubkey = .ok pubkey ∧
              input.BIP352Pubkey = some pubkey) ∧
          (p.TXProposal.SilentPaymentAddress = "" → input.BIP352Pubkey = none) ∧
          env.btcMsgScriptTypeMap prevOut.Address.AccountConfiguration.ScriptType = some t ∧
          findScriptConfig t res.2 = some idx ∧
          input.Input.ScriptConfigIndex = uint32 idx := by
  intro txIns
  induction txIns with
  | nil =>
    intro scs res h
    simp only [inputsLoop, Except.ok.injEq] at h
    subst h
    exact ⟨rfl, by simp⟩
  | cons t rest ih =>
    intro scs res h
    unfold inputsLoop at h
    cases hprev : p.TXProposal.PreviousOutputs t.PreviousOutPoint with
    | none => simp [hprev] at h
    | some prevOut =>
      simp only [hprev] at h
      cases hm : env.btcMsgScriptTypeMap prevOut.Address.AccountConfiguration.ScriptType with
      | none => simp [hm] at h
      | some msgScriptType =>
        simp only [hm] at h
        obtain ⟨⟨ext1, he1⟩, _, hfind⟩ := addScriptConfig_spec scs
          { ScriptConfig := NewBTCScriptConfigSimple msgScriptType
            Keypath := prevOut.Address.AccountConfiguration.AbsoluteKeypath }
        by_cases hsp : p.TXProposal.SilentPaymentAddress = ""
        · simp only [hsp, ne_eq, not_true_eq_false, if_false] at h
          split at h
          · cases h
          · rename_i inputs scs2 hloop
            simp only [Except.ok.injEq] at h
            subst h
            obtain ⟨hlen, hget⟩ := ih _ _ hloop
            obtain ⟨⟨ext2, he2⟩, _⟩ := inputsLoop_registry env p _ _ _ hloop
            dsimp only at hlen hget he2 ⊢
            refine ⟨by simp [hlen], ?_⟩
            intro i txIn hi
            cases i with
            | zero =>
              simp only [List.getElem?_cons_zero, Option.some.injEq] at hi
              subst hi
              refine ⟨prevOut, _, msgScriptType, _, hprev, List.getElem?_cons_zero, rfl, rfl, rfl, rfl, rfl,
                rfl, ?_, fun _ => rfl, hm, ?_, rfl⟩
              · intro hne
                exact absurd hsp hne
              · rw [he2]
                exact findScriptConfig_append _ _ _ _ hfind
            | succ j =>
              simp only [List.getElem?_cons_succ] at hi
              obtain ⟨po, input, t2, idx, h1, h2, hrest⟩ := hget j txIn hi
              exact ⟨po, input, t2, idx, h1, by simpa using h2, hrest⟩
        · simp only [ne_eq, hsp, not_false_eq_true, if_true] at h
          cases hpk : prevOut.Address.BIP352Pubkey with
          | error e => simp [hpk] at h
          | ok pubkey =>
            simp only [hpk] at h
            split at h
            · cases h
            · rename_i inputs scs2 hloop
              simp only [Except.ok.injEq] at h
              subst h
              obtain ⟨hlen, hget⟩ := ih _ _ hloop
              obtain ⟨⟨ext2, he2⟩, _⟩ := inputsLoop_registry env p _ _ _ hloop
              dsimp only at hlen hget he2 ⊢
              refine ⟨by simp [hlen], ?_⟩
              intro i txIn hi
              cases i with
              | zero =>
                simp only [List.getElem?_cons_zero, Option.some.injEq] at hi
                subst hi
                refine ⟨prevOut, _, msgScriptType, _, hprev, List.getElem?_cons_zero, rfl, rfl, rfl, rfl, rfl,
                  rfl, fun _ => ⟨pubkey, hpk, rfl⟩, ?_, hm, ?_, rfl⟩
                · intro he
                  exact absurd he hsp
                · rw [he2]
                  exact findScriptConfig_append _ _ _ _ hfind
              | succ j =>
                simp only [List.getElem?_cons_succ] at hi
                obtain ⟨po, input, t2, idx, h1, h2, hrest⟩ := hget j txIn hi
                exact ⟨po, input, t2, idx, h1, by simpa using h2, hrest⟩

/-- The loop that provides the previous transactions sets `PrevTx` of every input
to the transaction fetched for it and changes nothing else. -/
theorem prevTxsLoop_ok (p : ProposedTransaction) :
    ∀ (txIns : List TxIn) (ins res : List BTCTxInput),
      prevTxsLoop p txIns ins = .ok res → ins.length = txIns.length →
      res.length = ins.length ∧
      ∀ (i : Nat) (txIn : TxIn) (input : BTCTxInput),
        txIns[i]? = some txIn → ins[i]? = some input →
        ∃ prevTx, p.GetPrevTx txIn.PreviousOutPoint.Hash = .ok prevTx ∧
          res[i]? = some { input with PrevTx := some (NewBTCPrevTxFromBtcd prevTx) } := by
  intro txIns
  induction txIns with
  | nil =>
    intro ins res h hlen
    cases ins with
    | nil =>
      simp only [prevTxsLoop, Except.ok.injEq] at h
      subst h
      exact ⟨rfl, by simp⟩
    | cons a b => simp at hlen
  | cons t rest ih =>
    intro ins res h hlen
    cases ins with
    | nil => simp at hlen
    | cons input inputs =>
      unfold prevTxsLoop at h
      cases hg : p.GetPrevTx t.PreviousOutPoint.Hash with
      | error e => simp [hg] at h
      | ok prevTx =>
        simp only [hg] at h
        cases hl : prevTxsLoop p rest inputs with
        | error a => simp [hl] at h
        | ok inputs2 =>
          simp only [hl, Except.ok.injEq] at h
          subst h
          have hlen2 : inputs.length = rest.length := by simpa using hlen
          obtain ⟨h1, h2⟩ := ih inputs inputs2 hl hlen2
          refine ⟨by simp [h1], ?_⟩
          intro i txIn inp hi hinp
          cases i with
          | zero =>
            simp only [List.getElem?_cons_zero, Option.some.injEq] at hi hinp
            subst hi
            subst hinp
            exact ⟨prevTx, hg, by simp⟩
          | succ j =>
            simp only [List.getElem?_cons_succ] at hi hinp
            obtain ⟨ptx, hp1, hp2⟩ := h2 j txIn inp hi hinp
            exact ⟨ptx, hp1, by simpa using hp2⟩

/-- The loop that provides the previous transactions returns the error of the
first fetch that fails. -/
theorem prevTxsLoop_error (p : ProposedTransaction) :
    ∀ (txIns : List TxIn) (ins : List BTCTxInput) (k : Nat) (txIn : TxIn) (err : Error),
      ins.length = txIns.length → txIns[k]? = some txIn →
      p.GetPrevTx txIn.PreviousOutPoint.Hash = .error err →
      (∀ (j : Nat) (txIn2 : TxIn), j < k → txIns[j]? = some txIn2 →
        ∃ prevTx, p.GetPrevTx txIn2.PreviousOutPoint.Hash = .ok prevTx) →
      prevTxsLoop p txIns ins = .error (.error err) := by
  intro txIns
  induction txIns with
  | nil => intro ins k txIn err _ hk; simp at hk
  | cons t rest ih =>
    intro ins k txIn err hlen hk hfail hfirst
    cases ins with
    | nil => simp at hlen
    | cons input inputs =>
      have hlen2 : inputs.length = rest.length := by simpa using hlen
      unfold prevTxsLoop
      cases k with
      | zero =>
        simp only [List.getElem?_cons_zero, Option.some.injEq] at hk
        subst hk
        simp [hfail]
      | succ j =>
        simp only [List.getElem?_cons_succ] at hk
        obtain ⟨prevTx, hp⟩ := hfirst 0 t (by omega) (by simp)
        have hrest := ih inputs j txIn err hlen2 hk hfail
          (fun i tx hi hget => hfirst (i + 1) tx (by omega) (by simpa using hget))
        simp [hp, hrest]

/-- The inputs of the request are those built by the loop over the inputs, with
`PrevTx` set when previous transactions are needed. -/
theorem buildBTCSignCall_inputs (env : Env) (p : ProposedTransaction) (call : BTCSignCall)
    (h : buildBTCSignCall env p = .ok call) :
    ∃ ins scs1, inputsLoop env p p.TXProposal.Transaction.TxIn [] = .ok (ins, scs1) ∧
      (∃ ext, call.scriptConfigs = scs1 ++ ext) ∧
      call.tx.Inputs.length = p.TXProposal.Transaction.TxIn.length ∧
      ∀ (i : Nat) (txIn : TxIn) (input : BTCTxInput),
        p.TXProposal.Transaction.TxIn[i]? = some txIn → ins[i]? = some input →
        ∃ input2, call.tx.Inputs[i]? = some input2 ∧ input2.Input = input.Input ∧
          input2.BIP352Pubkey = input.BIP352Pubkey ∧
          (env.BTCSignNeedsPrevTxs call.scriptConfigs = true →
            ∃ prevTx, p.GetPrevTx txIn.PreviousOutPoint.Hash = .ok prevTx ∧
              input2.PrevTx = some (NewBTCPrevTxFromBtcd prevTx)) ∧
          (env.BTCSignNeedsPrevTxs call.scriptConfigs = false → input2 = input) := by
  obtain ⟨ins, scs1, outs, _, hin, hout, hprev, _⟩ := buildBTCSignCall_parts env p call h
  obtain ⟨hlen, _⟩ := inputsLoop_inputs env p _ _ _ hin
  obtain ⟨hpre, _⟩ := outputsLoop_registry env p _ _ _ _ _ _ hout
  dsimp only at hlen hpre
  refine ⟨ins, scs1, hin, hpre, ?_, ?_⟩
  · cases hn : env.BTCSignNeedsPrevTxs call.scriptConfigs with
    | false =>
      simp only [hn, Bool.false_eq_true, if_false, Except.ok.injEq] at hprev
      rw [← hprev, hlen]
    | true =>
      simp only [hn, if_true] at hprev
      rw [(prevTxsLoop_ok p _ _ _ hprev hlen).1, hlen]
  · intro i txIn input hi hinp
    cases hn : env.BTCSignNeedsPrevTxs call.scriptConfigs with
    | false =>
      simp only [hn, Bool.false_eq_true, if_false, Except.ok.injEq] at hprev
      rw [← hprev]
      exact ⟨input, hinp, rfl, rfl, fun h => (by cases h), fun _ => rfl⟩
    | true =>
      simp only [hn, if_true] at hprev
      obtain ⟨prevTx, hg, hres⟩ := (prevTxsLoop_ok p _ _ _ hprev hlen).2 i txIn input hi hinp
      exact ⟨_, hres, rfl, rfl, fun _ => ⟨prevTx, hg, rfl⟩, fun h => by cases h⟩

/-- A value in the range of the non-negative `int64` values is kept by `uint64`. -/
theorem uint64_of_nonneg (v : Int) (h0 : 0 ≤ v) (h1 : v < 2 ^ 63) : (uint64 v : Int) = v := by
  unfold uint64
  have hlt : v < 2 ^ 64 := by omega
  rw [Int.emod_eq_of_lt h0 hlt]
  exact Int.toNat_of_nonneg h0

/-! ## Inputs and previous transactions (C28, C22) -/

/-- C28: the request passed to the device has one input descriptor per
transaction input, in transaction order; descriptor `i` carries the hash and the
index of the previous outpoint of `tx.TxIn[i]`, the value of the resolved
previous output (converted to `uint64`, which keeps every non-negative `int64`),
the sequence number and the keypath of the spending address; and a BIP352
public key is attached if and only if `SilentPaymentAddress` is non-empty. -/
theorem request_inputs (env : Env) (p : ProposedTransaction) (call : BTCSignCall)
    (hcall : (signBTCTransaction env p).calls = [call]) :
    call.tx.Inputs.length = p.TXProposal.Transaction.TxIn.length ∧
    ∀ (i : Nat) (txIn : TxIn), p.TXProposal.Transaction.TxIn[i]? = some txIn →
      ∃ prevOut input,
        p.TXProposal.PreviousOutputs txIn.PreviousOutPoint = some prevOut ∧
        call.tx.Inputs[i]? = some input ∧
        input.Input.PrevOutHash = txIn.PreviousOutPoint.Hash ∧
        input.Input.PrevOutIndex = txIn.PreviousOutPoint.Index ∧
        input.Input.PrevOutValue = uint64 prevOut.TxOut.Value ∧
        (0 ≤ prevOut.TxOut.Value → prevOut.TxOut.Value < 2 ^ 63 →
          (input.Input.PrevOutValue : Int) = prevOut.TxOut.Value) ∧
        input.Input.Sequence = txIn.Sequence ∧
        input.Input.Keypath = prevOut.Address.Configuration.AbsoluteKeypath ∧
        (input.BIP352Pubkey.isSome = true ↔ p.TXProposal.SilentPaymentAddress ≠ "") ∧
        (∀ pubkey, input.BIP352Pubkey = some pubkey →
          prevOut.Address.BIP352Pubkey = .ok pubkey) := by
  have hb := buildBTCSignCall_of_calls env p call hcall
  obtain ⟨ins, scs1, hin, _, hlen, hget⟩ := buildBTCSignCall_inputs env p call hb
  refine ⟨hlen, ?_⟩
  intro i txIn hi
  obtain ⟨prevOut, input, t, idx, h1, h2, h3, h4, h5, h6, h7, _, h9, h10, _⟩ :=
    (inputsLoop_inputs env p _ _ _ hin).2 i txIn hi
  dsimp only at h2
  obtain ⟨input2, hi2, heq, hpk, _⟩ := hget i txIn input hi h2
  refine ⟨prevOut, input2, h1, hi2, ?_, ?_, ?_, ?_, ?_, ?_, ?_, ?_⟩
  · rw [heq]; exact h3
  · rw [heq]; exact h4
  · rw [heq]; exact h5
  · intro h0 hmax
    rw [heq, h5]
    exact uint64_of_nonneg _ h0 hmax
  · rw [heq]; exact h6
  · rw [heq]; exact h7
  · rw [hpk]
    constructor
    · intro hsome hempty
      rw [h10 hempty] at hsome
      cases hsome
    · intro hne
      obtain ⟨pk, _, hpk2⟩ := h9 hne
      rw [hpk2]
      rfl
  · intro pubkey hpub
    rw [hpk] at hpub
    by_cases hsp : p.TXProposal.SilentPaymentAddress = ""
    · rw [h10 hsp] at hpub
      cases hpub
    · obtain ⟨pk, hpk1, hpk2⟩ := h9 hsp
      rw [hpk2] at hpub
      cases hpub
      exact hpk1

/-- Witness of C28: the request of the example with three outputs. -/
theorem request_inputs_witness :
    exampleCallThreeOutputs.tx.Inputs.length =
      exampleProposalThreeOutputs.TXProposal.Transaction.TxIn.length ∧
    ∀ (i : Nat) (txIn : TxIn),
      exampleProposalThreeOutputs.TXProposal.Transaction.TxIn[i]? = some txIn →
      ∃ prevOut input,
        exampleProposalThreeOutputs.TXProposal.PreviousOutputs txIn.PreviousOutPoint =
          some prevOut ∧
        exampleCallThreeOutputs.tx.Inputs[i]? = some input ∧
        input.Input.PrevOutHash = txIn.PreviousOutPoint.Hash ∧
        input.Input.PrevOutIndex = txIn.PreviousOutPoint.Index ∧
        input.Input.PrevOutValue = uint64 prevOut.TxOut.Value ∧
        (0 ≤ prevOut.TxOut.Value → prevOut.TxOut.Value < 2 ^ 63 →
          (input.Input.PrevOutValue : Int) = prevOut.TxOut.Value) ∧
        input.Input.Sequence = txIn.Sequence ∧
        input.Input.Keypath = prevOut.Address.Configuration.AbsoluteKeypath ∧
        (input.BIP352Pubkey.isSome = true ↔
          exampleProposalThreeOutputs.TXProposal.SilentPaymentAddress ≠ "") ∧
        (∀ pubkey, input.BIP352Pubkey = some pubkey →
          prevOut.Address.BIP352Pubkey = .ok pubkey) :=
  request_inputs (exampleEnv ⟨9, 22, 0⟩ (exampleAnswer [1] [])) exampleProposalThreeOutputs
    exampleCallThreeOutputs (by decide)

/-- C22: when the input-side script configurations need previous transactions,
every input of the request carries the transaction that `GetPrevTx` returns for
the hash of its previous outpoint; and when a fetch fails, the error of the
first failing fetch in input order is returned, `BTCSign` is not called and the
proposal is unchanged. -/
theorem previous_transactions (env : Env) (p : ProposedTransaction) :
    (∀ call, (signBTCTransaction env p).calls = [call] →
      env.BTCSignNeedsPrevTxs call.scriptConfigs = true →
      ∀ (i : Nat) (txIn : TxIn), p.TXProposal.Transaction.TxIn[i]? = some txIn →
        ∃ prevTx input, p.GetPrevTx txIn.PreviousOutPoint.Hash = .ok prevTx ∧
          call.tx.Inputs[i]? = some input ∧
          input.PrevTx = some (NewBTCPrevTxFromBtcd prevTx)) ∧
    (∀ (msgCoin : BTCCoin) (ins : List BTCTxInput) (scs1 : List BTCScriptConfigWithKeypath)
      (outs : List BTCSignOutputRequest) (scs oscs : List BTCScriptConfigWithKeypath)
      (k : Nat) (txIn : TxIn) (err : Error),
      env.btcMsgCoinMap p.TXProposal.Coin.Code = some msgCoin →
      inputsLoop env p p.TXProposal.Transaction.TxIn [] = .ok (ins, scs1) →
      outputsLoop env p p.TXProposal.Coin.Net 0 p.TXProposal.Transaction.TxOut scs1 [] =
        .ok (outs, scs, oscs) →
      env.BTCSignNeedsPrevTxs scs = true →
      p.TXProposal.Transaction.TxIn[k]? = some txIn →
      p.GetPrevTx txIn.PreviousOutPoint.Hash = .error err →
      (∀ (j : Nat) (txIn2 : TxIn), j < k → p.TXProposal.Transaction.TxIn[j]? = some txIn2 →
        ∃ prevTx, p.GetPrevTx txIn2.PreviousOutPoint.Hash = .ok prevTx) →
      (signBTCTransaction env p).result = .error err ∧
        (signBTCTransaction env p).calls = [] ∧
        (signBTCTransaction env p).proposal = p) := by
  refine ⟨?_, ?_⟩
  · intro call hcall hneeds i txIn hi
    have hb := buildBTCSignCall_of_calls env p call hcall
    obtain ⟨ins, scs1, hin, _, _, hget⟩ := buildBTCSignCall_inputs env p call hb
    obtain ⟨prevOut, input, t, idx, _, h2, _⟩ := (inputsLoop_inputs env p _ _ _ hin).2 i txIn hi
    dsimp only at h2
    obtain ⟨input2, hi2, _, _, hprev, _⟩ := hget i txIn input hi h2
    obtain ⟨prevTx, hg, hp⟩ := hprev hneeds
    exact ⟨prevTx, input2, hg, hi2, hp⟩
  · intro msgCoin ins scs1 outs scs oscs k txIn err hcoin hin hout hneeds hk hfail hfirst
    have hlen := (inputsLoop_inputs env p _ _ _ hin).1
    dsimp only at hlen
    have hloop := prevTxsLoop_error p _ ins k txIn err hlen hk hfail hfirst
    have hbuild : buildBTCSignCall env p = .error (.error err) := by
      unfold buildBTCSignCall
      simp only [hcoin, hin, hout, hneeds, if_true, hloop]
    unfold signBTCTransaction
    rw [hbuild]
    exact ⟨rfl, rfl, rfl⟩

/-- Witness of C22: the example request carries the fetched transaction, and the
example with a failing `GetPrevTx` returns the error of the fetch. -/
theorem previous_transactions_witness :
    (∃ prevTx input, exampleProposalThreeOutputs.GetPrevTx [1] = .ok prevTx ∧
        exampleCallThreeOutputs.tx.Inputs[0]? = some input ∧
        input.PrevTx = some (NewBTCPrevTxFromBtcd prevTx)) ∧
    ((signBTCTransaction (exampleEnv ⟨9, 22, 0⟩ (exampleAnswer [1] []))
        exampleProposalPrevTxFails).result = .error (.external "fetch failed") ∧
      (signBTCTransaction (exampleEnv ⟨9, 22, 0⟩ (exampleAnswer [1] []))
        exampleProposalPrevTxFails).calls = [] ∧
      (signBTCTransaction (exampleEnv ⟨9, 22, 0⟩ (exampleAnswer [1] []))
        exampleProposalPrevTxFails).proposal = exampleProposalPrevTxFails) :=
  ⟨(previous_transactions (exampleEnv ⟨9, 22, 0⟩ (exampleAnswer [1] []))
      exampleProposalThreeOutputs).1 exampleCallThreeOutputs (by decide) (by rfl) 0
      { PreviousOutPoint := { Hash := [1], Index := 0 }, Sequence := 4294967295 } (by rfl),
   (previous_transactions (exampleEnv ⟨9, 22, 0⟩ (exampleAnswer [1] []))
      exampleProposalPrevTxFails).2 .BTC
      (exampleCallThreeOutputs.tx.Inputs.map (fun input => { input with PrevTx := none }))
      exampleCallThreeOutputs.scriptConfigs exampleCallThreeOutputs.tx.Outputs
      exampleCallThreeOutputs.scriptConfigs exampleCallThreeOutputs.outputScriptConfigs 0
      { PreviousOutPoint := { Hash := [1], Index := 0 }, Sequence := 4294967295 }
      (.external "fetch failed") (by rfl) (by rfl) (by rfl) (by rfl) (by rfl) (by rfl)
      (fun j _ hj _ => absurd hj (by omega))⟩

/-! ## The request: fields of the outputs -/

/-- The type, the payload, the silent-payment field and the value of an output
built by `outputRequest`. -/
theorem outputRequest_decoded (env : Env) (p : ProposedTransaction) (net : BitcoinNet)
    (index : Nat) (txOut : TxOut) (scs oscs : List BTCScriptConfigWithKeypath)
    (r : BTCSignOutputRequest × List BTCScriptConfigWithKeypath × List BTCScriptConfigWithKeypath)
    (hr : outputRequest env p net index txOut scs oscs = .ok r) :
    outputTypeAndPayload env p net
        (decide ((index : Int) = p.TXProposal.OutIndex) &&
          decide (p.TXProposal.SilentPaymentAddress ≠ "")) txOut =
      .ok (r.1.Type_, r.1.Payload, r.1.SilentPayment) ∧
    r.1.Value = uint64 txOut.Value ∧ r.1.PaymentRequestIndex = none := by
  cases hk : p.GetKeystoreAddress p.SendingAccount (env.NewScriptHashHex txOut.PkScript) with
  | error e =>
    unfold outputRequest at hr
    rw [hk] at hr
    dsimp only at hr
    generalize outputTypeAndPayload env p net _ txOut = decoded at hr
    cases decoded with
    | error a => cases hr
    | ok v => cases hr
  | ok v =>
    obtain ⟨addr, same⟩ := v
    unfold outputRequest at hr
    rw [hk] at hr
    dsimp only at hr
    generalize outputTypeAndPayload env p net _ txOut = decoded at hr ⊢
    cases decoded with
    | error a => cases hr
    | ok v =>
      obtain ⟨ty, payload, sp⟩ := v
      dsimp only at hr
      cases hc : isChange p.TXProposal.ChangeAddress txOut <;>
        cases h15 : env.device.Version.AtLeast ⟨9, 15, 0⟩ <;>
        cases addr <;>
        simp only [hc, h15, Option.isSome, Bool.not_true, Bool.not_false, Bool.and_true,
          Bool.and_false, Bool.true_and, Bool.false_and, Bool.or_true, Bool.or_false,
          Bool.true_or, Bool.false_or, if_true, if_false, Bool.false_eq_true] at hr <;>
        first
        | (cases hr; exact ⟨rfl, rfl, rfl⟩)
        | (rename_i a
           cases hm : env.btcMsgScriptTypeMap a.AccountConfiguration.ScriptType with
           | none => simp [hm] at hr
           | some t =>
             simp only [hm] at hr
             cases same <;> cases h22 : env.device.Version.AtLeast ⟨9, 22, 0⟩ <;>
               simp only [h22, if_true, if_false, Bool.false_eq_true] at hr <;>
               cases hr <;> exact ⟨rfl, rfl, rfl⟩)

theorem outputsLoop_length (env : Env) (p : ProposedTransaction) (net : BitcoinNet) :
    ∀ (txOuts : List TxOut) (k : Nat) (scs oscs : List BTCScriptConfigWithKeypath)
      (res : List BTCSignOutputRequest × List BTCScriptConfigWithKeypath ×
        List BTCScriptConfigWithKeypath),
      outputsLoop env p net k txOuts scs oscs = .ok res → res.1.length = txOuts.length := by
  intro txOuts
  induction txOuts with
  | nil =>
    intro k scs oscs res h
    simp only [outputsLoop, Except.ok.injEq] at h
    subst h
    rfl
  | cons t rest ih =>
    intro k scs oscs res h
    unfold outputsLoop at h
    cases h1 : outputRequest env p net k t scs oscs with
    | error a => simp [h1] at h
    | ok v =>
      obtain ⟨o, scs1, oscs1⟩ := v
      simp only [h1] at h
      cases h2 : outputsLoop env p net (k + 1) rest scs1 oscs1 with
      | error a => simp [h2] at h
      | ok w =>
        obtain ⟨os, scs2, oscs2⟩ := w
        simp only [h2, Except.ok.injEq] at h
        subst h
        simp [ih _ _ _ _ h2]

/-- What the payment-request step does to the outputs and which payment requests
it puts into the request. -/
theorem attachPaymentRequest_spec (p : ProposedTransaction)
    (outputs outputs2 : List BTCSignOutputRequest) (prs : List BTCPaymentRequestRequest)
    (h : attachPaymentRequest p outputs = .ok (outputs2, prs)) :
    outputs2.length = outputs.length ∧
    (p.TXProposal.PaymentRequest = none → outputs2 = outputs ∧ prs = []) ∧
    (∀ pr, p.TXProposal.PaymentRequest = some pr →
      prs = [newBTCPaymentRequest pr] ∧ 0 ≤ p.TXProposal.OutIndex ∧
      (∃ out, outputs[p.TXProposal.OutIndex.toNat]? = some out ∧
        outputs2[p.TXProposal.OutIndex.toNat]? =
          some { out with PaymentRequestIndex := some 0 }) ∧
      ∀ i : Nat, i ≠ p.TXProposal.OutIndex.toNat → outputs2[i]? = outputs[i]?) := by
  unfold attachPaymentRequest at h
  cases hp : p.TXProposal.PaymentRequest with
  | none =>
    simp only [hp, Except.ok.injEq, Prod.mk.injEq] at h
    obtain ⟨rfl, rfl⟩ := h
    exact ⟨rfl, fun _ => ⟨rfl, rfl⟩, fun pr hpr => by cases hpr⟩
  | some pr =>
    simp only [hp] at h
    split_ifs at h with hneg
    cases ho : outputs[p.TXProposal.OutIndex.toNat]? with
    | none => simp [ho] at h
    | some o =>
      simp only [ho, Except.ok.injEq, Prod.mk.injEq] at h
      obtain ⟨rfl, rfl⟩ := h
      have hlt : p.TXProposal.OutIndex.toNat < outputs.length :=
        (List.getElem?_eq_some_iff.mp ho).1
      refine ⟨by simp, fun hnone => (by cases hnone), ?_⟩
      intro pr2 hpr2
      cases hpr2
      refine ⟨rfl, by omega, ⟨o, rfl, by simp [List.getElem?_set, hlt]⟩, ?_⟩
      intro i hi
      exact List.getElem?_set_ne (Ne.symm hi)

/-- Every output of the request is the one that `outputRequest` builds for the
transaction output at the same position, from registries that are prefixes of
the final ones, with the payment-request index possibly set. -/
theorem signBTCTransaction_output (env : Env) (p : ProposedTransaction) (call : BTCSignCall)
    (hcall : (signBTCTransaction env p).calls = [call]) :
    call.tx.Outputs.length = p.TXProposal.Transaction.TxOut.length ∧
    DistinctSimpleTypes call.scriptConfigs ∧ DistinctSimpleTypes call.outputScriptConfigs ∧
    ∀ (i : Nat) (out : BTCSignOutputRequest), call.tx.Outputs[i]? = some out →
      ∃ txOut scs0 oscs0 r,
        p.TXProposal.Transaction.TxOut[i]? = some txOut ∧
        outputRequest env p p.TXProposal.Coin.Net i txOut scs0 oscs0 = .ok r ∧
        out = { r.1 with PaymentRequestIndex := out.PaymentRequestIndex } ∧
        (∃ ext, call.scriptConfigs = r.2.1 ++ ext) ∧
        (∃ ext, call.outputScriptConfigs = r.2.2 ++ ext) := by
  have hnil : DistinctSimpleTypes [] := List.Pairwise.nil
  have hb := buildBTCSignCall_of_calls env p call hcall
  obtain ⟨ins, scs1, outs, _, hin, hout, _, hatt⟩ := buildBTCSignCall_parts env p call hb
  have hd1 := (inputsLoop_registry env p _ _ _ hin).2 hnil
  obtain ⟨_, _, hd2, hd3, hget⟩ := outputsLoop_registry env p _ _ _ _ _ _ hout
  have hlen1 := outputsLoop_length env p _ _ _ _ _ _ hout
  have hlen2 := (attachPaymentRequest_spec p _ _ _ hatt).1
  dsimp only at hlen1
  refine ⟨by rw [hlen2, hlen1], hd2 hd1, hd3 hnil, ?_⟩
  intro i out hi
  have hlt : i < p.TXProposal.Transaction.TxOut.length := by
    have := (List.getElem?_eq_some_iff.mp hi).1
    omega
  have htx : p.TXProposal.Transaction.TxOut[i]? = some p.TXProposal.Transaction.TxOut[i] :=
    List.getElem?_eq_getElem hlt
  obtain ⟨scs0, oscs0, r, hr, hri, hp1, hp2⟩ := hget i _ htx
  rw [Nat.zero_add] at hr
  dsimp only at hri hp1 hp2
  obtain ⟨out2, hout2, heq⟩ := attachPaymentRequest_get p _ _ _ hatt i r.1 hri
  rw [hi] at hout2
  cases hout2
  exact ⟨_, scs0, oscs0, r, htx, hr, heq, hp1, hp2⟩

/-- An index found in a registry is a position of the registry, and the entry
there has the simple type looked for. -/
theorem findScriptConfig_some (t : BTCScriptConfig_SimpleType) :
    ∀ (scs : List BTCScriptConfigWithKeypath) (i : Nat), findScriptConfig t scs = some i →
      i < scs.length ∧ ∃ sc, scs[i]? = some sc ∧ sc.ScriptConfig.SimpleType = t ∧
        ∀ (j : Nat) (sc2 : BTCScriptConfigWithKeypath), j < i → scs[j]? = some sc2 →
          sc2.ScriptConfig.SimpleType ≠ t := by
  intro scs
  induction scs with
  | nil => intro i h; simp [findScriptConfig] at h
  | cons sc rest ih =>
    intro i h
    unfold findScriptConfig at h
    by_cases hsc : sc.ScriptConfig.SimpleType = t
    · simp only [hsc, if_true, Option.some.injEq] at h
      subst h
      exact ⟨by simp, sc, by simp, hsc, fun j _ hj => absurd hj (by omega)⟩
    · simp only [hsc, if_false] at h
      cases hr : findScriptConfig t rest with
      | none => simp [hr] at h
      | some k =>
        simp only [hr, Option.map_some', Option.some.injEq] at h
        subst h
        obtain ⟨hlt, sc1, hget, hty, hfirst⟩ := ih k hr
        refine ⟨by simp; omega, sc1, by simpa using hget, hty, ?_⟩
        intro j sc2 hj hget2
        cases j with
        | zero =>
          simp only [List.getElem?_cons_zero, Option.some.injEq] at hget2
          subst hget2
          exact hsc
        | succ n =>
          simp only [List.getElem?_cons_succ] at hget2
          exact hfirst n sc2 (by omega) hget2

/-- A registry with distinct simple types has at most three entries. -/
theorem DistinctSimpleTypes.length_le {scs : List BTCScriptConfigWithKeypath}
    (h : DistinctSimpleTypes scs) : scs.length ≤ 3 := by
  unfold DistinctSimpleTypes at h
  match scs, h with
  | [], _ => simp
  | [_], _ => simp
  | [_, _], _ => simp
  | [_, _, _], _ => simp
  | a :: b :: c :: d :: rest, h =>
    exfalso
    simp only [List.pairwise_cons, List.mem_cons, forall_eq_or_imp] at h
    obtain ⟨⟨hab, hac, had, _⟩, ⟨hbc, hbd, _⟩, ⟨hcd, _⟩, _⟩ := h
    revert hab hac had hbc hbd hcd
    cases a.ScriptConfig.SimpleType <;> cases b.ScriptConfig.SimpleType <;>
      cases c.ScriptConfig.SimpleType <;> cases d.ScriptConfig.SimpleType <;> simp

theorem uint32_of_small (n : Nat) (h : n < 2 ^ 32) : uint32 (n : Int) = n := by
  unfold uint32
  have h1 : ((n : Int) % 2 ^ 32) = n := by
    apply Int.emod_eq_of_lt
    · omega
    · exact_mod_cast h
  rw [h1]
  exact Int.toNat_natCast n

/-! ## Outputs of the request (C21, C23, C24, C27) -/

/-- C21: every output of the request with `Ours = true` refers to an entry of the
right registry: if `OutputScriptConfigIndex` is set it is a position of
`outputScriptConfigs`, otherwise `ScriptConfigIndex` is a position of
`scriptConfigs`, and the entry there has the device script type mapped from the
script type of the owning account. -/
theorem ours_output_index_valid (env : Env) (p : ProposedTransaction) (call : BTCSignCall)
    (hcall : (signBTCTransaction env p).calls = [call]) (i : Nat) (out : BTCSignOutputRequest)
    (hout : call.tx.Outputs[i]? = some out) (hours : out.Ours = true) :
    ∃ txOut a same t,
      p.TXProposal.Transaction.TxOut[i]? = some txOut ∧
      p.GetKeystoreAddress p.SendingAccount (env.NewScriptHashHex txOut.PkScript) =
        .ok (some a, same) ∧
      env.btcMsgScriptTypeMap a.AccountConfiguration.ScriptType = some t ∧
      (∀ k, out.OutputScriptConfigIndex = some k →
        k < call.outputScriptConfigs.length ∧
          ∃ sc, call.outputScriptConfigs[k]? = some sc ∧ sc.ScriptConfig.SimpleType = t) ∧
      (out.OutputScriptConfigIndex = none →
        out.ScriptConfigIndex < call.scriptConfigs.length ∧
          ∃ sc, call.scriptConfigs[out.ScriptConfigIndex]? = some sc ∧
            sc.ScriptConfig.SimpleType = t) := by
  obtain ⟨_, hd1, hd2, hget⟩ := signBTCTransaction_output env p call hcall
  obtain ⟨txOut, scs0, oscs0, r, htx, hr, heq, ⟨e1, he1⟩, ⟨e2, he2⟩⟩ := hget i out hout
  have hours2 : r.1.Ours = true := by rw [heq] at hours; exact hours
  have hsmall : ∀ (l : List BTCScriptConfigWithKeypath) (idx : Nat),
      DistinctSimpleTypes l → idx < l.length → uint32 (idx : Int) = idx := by
    intro l idx hd hlt
    have := hd.length_le
    exact uint32_of_small idx (by omega)
  rcases outputRequest_cases env p _ i txOut scs0 oscs0 r hr with
    ⟨h0, _⟩ | ⟨a, t, hk, hm, _, _, hidx, hoidx, h1, _⟩ |
    ⟨a, t, hk, hm, _, _, _, hidx, hoidx, _, h2⟩
  · rw [h0] at hours2
    cases hours2
  · refine ⟨txOut, a, true, t, htx, hk, hm, ?_, ?_⟩
    · intro k hk2
      rw [heq] at hk2
      dsimp only at hk2
      rw [hoidx] at hk2
      cases hk2
    · intro _
      obtain ⟨_, _, hf⟩ := addScriptConfig_spec scs0
        { ScriptConfig := NewBTCScriptConfigSimple t
          Keypath := a.AccountConfiguration.AbsoluteKeypath }
      rw [← h1] at hf
      have hf2 := findScriptConfig_append t _ e1 _ hf
      rw [← he1] at hf2
      obtain ⟨hlt, sc, hsc, hty, _⟩ := findScriptConfig_some t _ _ hf2
      have hconv : out.ScriptConfigIndex = (addScriptConfig scs0
          { ScriptConfig := NewBTCScriptConfigSimple t
            Keypath := a.AccountConfiguration.AbsoluteKeypath }).2 := by
        rw [heq]
        dsimp only
        rw [hidx]
        exact hsmall _ _ hd1 hlt
      rw [hconv]
      exact ⟨hlt, sc, hsc, hty⟩
  · refine ⟨txOut, a, false, t, htx, hk, hm, ?_, ?_⟩
    · intro k hk2
      obtain ⟨_, _, idx, hf, hconv⟩ := addOutputScriptConfig_spec oscs0
        { ScriptConfig := NewBTCScriptConfigSimple t
          Keypath := a.AccountConfiguration.AbsoluteKeypath }
      rw [← h2] at hf
      have hf2 := findScriptConfig_append t _ e2 _ hf
      rw [← he2] at hf2
      obtain ⟨hlt, sc, hsc, hty, _⟩ := findScriptConfig_some t _ _ hf2
      rw [heq] at hk2
      dsimp only at hk2
      rw [hoidx, hconv, hsmall _ _ hd2 hlt] at hk2
      cases hk2
      exact ⟨hlt, sc, hsc, hty⟩
    · intro hnone
      rw [heq] at hnone
      dsimp only at hnone
      rw [hoidx] at hnone
      cases hnone

/-- Witness of C21: the cross-account output at position 0 of the example. -/
theorem ours_output_index_valid_witness :
    ∃ txOut a same t,
      exampleProposalThreeOutputs.TXProposal.Transaction.TxOut[0]? = some txOut ∧
      exampleProposalThreeOutputs.GetKeystoreAddress exampleProposalThreeOutputs.SendingAccount
          ((exampleEnv ⟨9, 22, 0⟩ (exampleAnswer [1] [])).NewScriptHashHex txOut.PkScript) =
        .ok (some a, same) ∧
      (exampleEnv ⟨9, 22, 0⟩ (exampleAnswer [1] [])).btcMsgScriptTypeMap
          a.AccountConfiguration.ScriptType = some t ∧
      (∀ k, (some 0 : Option Nat) = some k →
        k < exampleCallThreeOutputs.outputScriptConfigs.length ∧
          ∃ sc, exampleCallThreeOutputs.outputScriptConfigs[k]? = some sc ∧
            sc.ScriptConfig.SimpleType = t) ∧
      ((some 0 : Option Nat) = none →
        0 < exampleCallThreeOutputs.scriptConfigs.length ∧
          ∃ sc, exampleCallThreeOutputs.scriptConfigs[0]? = some sc ∧
            sc.ScriptConfig.SimpleType = t) :=
  ours_output_index_valid (exampleEnv ⟨9, 22, 0⟩ (exampleAnswer [1] []))
    exampleProposalThreeOutputs exampleCallThreeOutputs (by decide) 0
    { Ours := true, Type_ := .P2WPKH, Value := 500, Payload := [0x21]
      Keypath := [84, 0, 1, 0, 7], ScriptConfigIndex := 0, PaymentRequestIndex := none
      SilentPayment := none, OutputScriptConfigIndex := some 0 } (by rfl) (by rfl)

/-- C27: every output of the request satisfies: with `Ours = false` the keypath is
empty, `ScriptConfigIndex` is 0 and `OutputScriptConfigIndex` is unset; with
`OutputScriptConfigIndex` set, `Ours` is true, the owning address is on another
account than the sender, the firmware is at least 9.22.0 and `ScriptConfigIndex`
is 0.  And in every iteration of the loop over the outputs, an output of another
account leaves the input-side list as it is and an output of the sending
account leaves the output-side list as it is. -/
theorem output_fields (env : Env) (p : ProposedTransaction) (call : BTCSignCall)
    (hcall : (signBTCTransaction env p).calls = [call]) (i : Nat) (out : BTCSignOutputRequest)
    (hout : call.tx.Outputs[i]? = some out) :
    (out.Ours = false →
      out.Keypath = [] ∧ out.ScriptConfigIndex = 0 ∧ out.OutputScriptConfigIndex = none) ∧
    (∀ k, out.OutputScriptConfigIndex = some k →
      out.Ours = true ∧
      (∃ txOut a, p.TXProposal.Transaction.TxOut[i]? = some txOut ∧
        p.GetKeystoreAddress p.SendingAccount (env.NewScriptHashHex txOut.PkScript) =
          .ok (some a, false)) ∧
      SemVer.NotBelow env.device.Version ⟨9, 22, 0⟩ ∧ out.ScriptConfigIndex = 0) ∧
    (∀ (net : BitcoinNet) (index : Nat) (txOut : TxOut)
      (scs oscs : List BTCScriptConfigWithKeypath)
      (r : BTCSignOutputRequest × List BTCScriptConfigWithKeypath ×
        List BTCScriptConfigWithKeypath) (a : Option AccountAddress),
      outputRequest env p net index txOut scs oscs = .ok r →
      (p.GetKeystoreAddress p.SendingAccount (env.NewScriptHashHex txOut.PkScript) =
          .ok (a, false) → r.2.1 = scs) ∧
      (p.GetKeystoreAddress p.SendingAccount (env.NewScriptHashHex txOut.PkScript) =
          .ok (a, true) → r.2.2 = oscs)) := by
  have h0 : uint32 0 = 0 := by decide
  obtain ⟨_, _, _, hget⟩ := signBTCTransaction_output env p call hcall
  obtain ⟨txOut, scs0, oscs0, r, htx, hr, heq, _, _⟩ := hget i out hout
  refine ⟨?_, ?_, ?_⟩
  · intro hfalse
    rw [heq] at hfalse ⊢
    dsimp only at hfalse ⊢
    rcases outputRequest_cases env p _ i txOut scs0 oscs0 r hr with
      ⟨_, h2, h3, h4, _⟩ | ⟨a, t, _, _, h1, _⟩ | ⟨a, t, _, _, _, h1, _⟩
    · exact ⟨h2, by rw [h3, h0], h4⟩
    · rw [h1] at hfalse; cases hfalse
    · rw [h1] at hfalse; cases hfalse
  · intro k hk
    rw [heq] at hk ⊢
    dsimp only at hk ⊢
    rcases outputRequest_cases env p _ i txOut scs0 oscs0 r hr with
      ⟨_, _, _, h4, _⟩ | ⟨a, t, _, _, _, _, _, h4, _⟩ | ⟨a, t, hka, _, h22, h1, _, h3, _⟩
    · rw [h4] at hk; cases hk
    · rw [h4] at hk; cases hk
    · exact ⟨h1, ⟨txOut, a, htx, hka⟩, (SemVer.atLeast_iff _ _).mp h22, by rw [h3, h0]⟩
  · intro net index txOut2 scs oscs r2 a hr2
    rcases outputRequest_cases env p net index txOut2 scs oscs r2 hr2 with
      ⟨_, _, _, _, h5, h6⟩ | ⟨b, t, hkb, _, _, _, _, _, _, h6⟩ |
      ⟨b, t, hkb, _, _, _, _, _, _, h5, _⟩
    · exact ⟨fun _ => h5, fun _ => h6⟩
    · refine ⟨?_, fun _ => h6⟩
      intro hk
      rw [hk] at hkb
      simp at hkb
    · refine ⟨fun _ => h5, ?_⟩
      intro hk
      rw [hk] at hkb
      simp at hkb

/-- Witness of C27: the cross-account output at position 0 of the example. -/
theorem output_fields_witness :
    ((true : Bool) = false →
      ([84, 0, 1, 0, 7] : List Nat) = [] ∧ (0 : Nat) = 0 ∧ (some 0 : Option Nat) = none) ∧
    (∀ k, (some 0 : Option Nat) = some k →
      (true : Bool) = true ∧
      (∃ txOut a, exampleProposalThreeOutputs.TXProposal.Transaction.TxOut[0]? = some txOut ∧
        exampleProposalThreeOutputs.GetKeystoreAddress exampleProposalThreeOutputs.SendingAccount
            ((exampleEnv ⟨9, 22, 0⟩ (exampleAnswer [1] [])).NewScriptHashHex txOut.PkScript) =
          .ok (some a, false)) ∧
      SemVer.NotBelow (exampleEnv ⟨9, 22, 0⟩ (exampleAnswer [1] [])).device.Version ⟨9, 22, 0⟩ ∧
      (0 : Nat) = 0) ∧
    (∀ (net : BitcoinNet) (index : Nat) (txOut : TxOut)
      (scs oscs : List BTCScriptConfigWithKeypath)
      (r : BTCSignOutputRequest × List BTCScriptConfigWithKeypath ×
        List BTCScriptConfigWithKeypath) (a : Option AccountAddress),
      outputRequest (exampleEnv ⟨9, 22, 0⟩ (exampleAnswer [1] [])) exampleProposalThreeOutputs
        net index txOut scs oscs = .ok r →
      (exampleProposalThreeOutputs.GetKeystoreAddress exampleProposalThreeOutputs.SendingAccount
          ((exampleEnv ⟨9, 22, 0⟩ (exampleAnswer [1] [])).NewScriptHashHex txOut.PkScript) =
          .ok (a, false) → r.2.1 = scs) ∧
      (exampleProposalThreeOutputs.GetKeystoreAddress exampleProposalThreeOutputs.SendingAccount
          ((exampleEnv ⟨9, 22, 0⟩ (exampleAnswer [1] [])).NewScriptHashHex txOut.PkScript) =
          .ok (a, true) → r.2.2 = oscs)) :=
  output_fields (exampleEnv ⟨9, 22, 0⟩ (exampleAnswer [1] []))
    exampleProposalThreeOutputs exampleCallThreeOutputs (by decide) 0
    { Ours := true, Type_ := .P2WPKH, Value := 500, Payload := [0x21]
      Keypath := [84, 0, 1, 0, 7], ScriptConfigIndex := 0, PaymentRequestIndex := none
      SilentPayment := none, OutputScriptConfigIndex := some 0 } (by rfl)

/-- C24: in the request, the output at `OutIndex` of a proposal with a non-empty
`SilentPaymentAddress` has `SilentPayment.Address` equal to that address, an
empty payload and the output type `UNKNOWN`, and building it does not depend
on the script decoder; every other output, and every output when the address
is empty, has no `SilentPayment` field and takes its type and payload from the
decoded script. -/
theorem silent_payment_output (env : Env) (p : ProposedTransaction) (call : BTCSignCall)
    (hcall : (signBTCTransaction env p).calls = [call]) (i : Nat) (out : BTCSignOutputRequest)
    (hout : call.tx.Outputs[i]? = some out) :
    ((i : Int) = p.TXProposal.OutIndex ∧ p.TXProposal.SilentPaymentAddress ≠ "" →
      out.SilentPayment = some { Address := p.TXProposal.SilentPaymentAddress } ∧
      out.Payload = [] ∧ out.Type_ = .UNKNOWN) ∧
    (¬ ((i : Int) = p.TXProposal.OutIndex ∧ p.TXProposal.SilentPaymentAddress ≠ "") →
      out.SilentPayment = none ∧
      ∃ txOut addr, p.TXProposal.Transaction.TxOut[i]? = some txOut ∧
        env.AddressFromPkScript txOut.PkScript p.TXProposal.Coin.Net = .ok addr ∧
        out.Payload = addr.ScriptAddress ∧
        (addr.kind, out.Type_) ∈
          [(AddressKind.AddressPubKeyHash, BTCOutputType.P2PKH),
           (AddressKind.AddressScriptHash, BTCOutputType.P2SH),
           (AddressKind.AddressWitnessPubKeyHash, BTCOutputType.P2WPKH),
           (AddressKind.AddressWitnessScriptHash, BTCOutputType.P2WSH),
           (AddressKind.AddressTaproot, BTCOutputType.P2TR)]) ∧
    (∀ (decoder : Bytes → BitcoinNet → Except Error Address) (net : BitcoinNet) (index : Nat)
      (txOut : TxOut) (scs oscs : List BTCScriptConfigWithKeypath),
      (index : Int) = p.TXProposal.OutIndex → p.TXProposal.SilentPaymentAddress ≠ "" →
      outputRequest { env with AddressFromPkScript := decoder } p net index txOut scs oscs =
        outputRequest env p net index txOut scs oscs) := by
  obtain ⟨_, _, _, hget⟩ := signBTCTransaction_output env p call hcall
  obtain ⟨txOut, scs0, oscs0, r, htx, hr, heq, _, _⟩ := hget i out hout
  obtain ⟨hdec, _, _⟩ := outputRequest_decoded env p _ i txOut scs0 oscs0 r hr
  have e1 : out.Type_ = r.1.Type_ := by rw [heq]
  have e2 : out.Payload = r.1.Payload := by rw [heq]
  have e3 : out.SilentPayment = r.1.SilentPayment := by rw [heq]
  rw [← e1, ← e2, ← e3] at hdec
  refine ⟨?_, ?_, ?_⟩
  · rintro ⟨hi, hsp⟩
    unfold outputTypeAndPayload at hdec
    simp only [hi, hsp, ne_eq, not_false_eq_true, decide_True, Bool.and_self, if_true,
      Except.ok.injEq, Prod.mk.injEq] at hdec
    obtain ⟨h1, h2, h3⟩ := hdec
    exact ⟨h3.symm, h2.symm, h1.symm⟩
  · intro hnot
    have hfalse : (decide ((i : Int) = p.TXProposal.OutIndex) &&
        decide (p.TXProposal.SilentPaymentAddress ≠ "")) = false := by
      rw [← Bool.not_eq_true]
      intro h
      apply hnot
      simpa using h
    rw [hfalse] at hdec
    unfold outputTypeAndPayload at hdec
    simp only [Bool.false_eq_true, if_false] at hdec
    cases hd : env.AddressFromPkScript txOut.PkScript p.TXProposal.Coin.Net with
    | error e => simp [hd] at hdec
    | ok addr =>
      simp only [hd] at hdec
      cases hk : addr.kind <;> simp only [hk, Except.ok.injEq, Prod.mk.injEq] at hdec <;>
        first
        | (obtain ⟨h1, h2, h3⟩ := hdec
           refine ⟨h3.symm, txOut, addr, htx, hd, h2.symm, ?_⟩
           rw [← h1, hk]
           simp)
        | cases hdec
  · intro decoder net index txOut2 scs oscs hi hsp
    unfold outputRequest outputTypeAndPayload
    simp only [hi, hsp, ne_eq, not_false_eq_true, decide_True, Bool.and_self, if_true]

/-- Witness of C24: the silent-payment output at position 0, whose script the
decoder of the examples rejects. -/
theorem silent_payment_output_witness :
    ((some { Address := "sp1qexample" } : Option BTCSignOutputRequest_SilentPayment) =
        some { Address :=
          exampleProposalSilentPaymentUndecodable.TXProposal.SilentPaymentAddress } ∧
      ([] : Bytes) = [] ∧ BTCOutputType.UNKNOWN = .UNKNOWN) ∧
    exampleProposalSilentPaymentUndecodable.TXProposal.Transaction.TxOut[0]? =
      some { Value := 500, PkScript := [0xff, 0x01] } ∧
    exampleAddressFromPkScript [0xff, 0x01] .btcMainNet = .error (.external "unknown script") :=
  ⟨(silent_payment_output (exampleEnv ⟨9, 22, 0⟩ (exampleAnswer [1] []))
      exampleProposalSilentPaymentUndecodable exampleCallSilentPayment (by decide) 0
      { Ours := false, Type_ := .UNKNOWN, Value := 500, Payload := []
        Keypath := [], ScriptConfigIndex := 0, PaymentRequestIndex := none
        SilentPayment := some { Address := "sp1qexample" }
        OutputScriptConfigIndex := none } (by rfl)).1 ⟨by decide, by decide⟩,
    rfl, rfl⟩

/-- No output built by the loop over the outputs has a payment-request index. -/
theorem outputsLoop_paymentRequestIndex (env : Env) (p : ProposedTransaction)
    (net : BitcoinNet) (txOuts : List TxOut) (k : Nat)
    (scs oscs : List BTCScriptConfigWithKeypath)
    (res : List BTCSignOutputRequest × List BTCScriptConfigWithKeypath ×
      List BTCScriptConfigWithKeypath)
    (h : outputsLoop env p net k txOuts scs oscs = .ok res) (i : Nat)
    (out : BTCSignOutputRequest) (hout : res.1[i]? = some out) :
    out.PaymentRequestIndex = none := by
  have hlen := outputsLoop_length env p net txOuts k scs oscs res h
  have hlt : i < txOuts.length := by
    have := (List.getElem?_eq_some_iff.mp hout).1
    omega
  obtain ⟨scs1, oscs1, r, hr, hri⟩ :=
    outputsLoop_get env p net txOuts k scs oscs res h i _ (List.getElem?_eq_getElem hlt)
  rw [hout] at hri
  cases hri
  exact (outputRequest_decoded env p net _ _ scs1 oscs1 r hr).2.2

/-- C23: with a payment request in the proposal, the request carries exactly one
payment request with the same recipient name, nonce, total amount and
signature and the notes of the memos in order, `OutIndex` is a position of the
outputs, and the payment-request index 0 is set on the output at `OutIndex`
and on no other; without one, the request carries no payment request and no
output has a payment-request index.  The step succeeds whenever `OutIndex` is a
position of the outputs. -/
theorem payment_request (env : Env) (p : ProposedTransaction) (call : BTCSignCall)
    (hcall : (signBTCTransaction env p).calls = [call]) :
    (∀ pr, p.TXProposal.PaymentRequest = some pr →
      (∃ req, call.tx.PaymentRequests = [req] ∧ req.RecipientName = pr.RecipientName ∧
        req.Nonce = pr.Nonce ∧ req.TotalAmount = pr.TotalAmount ∧
        req.Signature = pr.Signature ∧ req.Memos = pr.Memos.map (fun m => m.Note)) ∧
      0 ≤ p.TXProposal.OutIndex ∧ p.TXProposal.OutIndex.toNat < call.tx.Outputs.length ∧
      ∀ (i : Nat) (out : BTCSignOutputRequest), call.tx.Outputs[i]? = some out →
        out.PaymentRequestIndex = if (i : Int) = p.TXProposal.OutIndex then some 0 else none) ∧
    (p.TXProposal.PaymentRequest = none →
      call.tx.PaymentRequests = [] ∧
      ∀ (i : Nat) (out : BTCSignOutputRequest), call.tx.Outputs[i]? = some out →
        out.PaymentRequestIndex = none) ∧
    (∀ outputs : List BTCSignOutputRequest, 0 ≤ p.TXProposal.OutIndex →
      p.TXProposal.OutIndex.toNat < outputs.length →
      ∃ res, attachPaymentRequest p outputs = .ok res) := by
  have hb := buildBTCSignCall_of_calls env p call hcall
  obtain ⟨ins, scs1, outs, _, _, hloop, _, hatt⟩ := buildBTCSignCall_parts env p call hb
  have hnone := outputsLoop_paymentRequestIndex env p _ _ _ _ _ _ hloop
  dsimp only at hnone
  obtain ⟨hlen, hno, hsome⟩ := attachPaymentRequest_spec p _ _ _ hatt
  refine ⟨?_, ?_, ?_⟩
  · intro pr hpr
    obtain ⟨hprs, hnonneg, ⟨o, ho, ho2⟩, hother⟩ := hsome pr hpr
    have hlt : p.TXProposal.OutIndex.toNat < outs.length :=
      (List.getElem?_eq_some_iff.mp ho).1
    refine ⟨⟨newBTCPaymentRequest pr, hprs, rfl, rfl, rfl, rfl, rfl⟩, hnonneg,
      by rw [hlen]; exact hlt, ?_⟩
    intro i out hi
    by_cases hidx : (i : Int) = p.TXProposal.OutIndex
    · have hi2 : i = p.TXProposal.OutIndex.toNat := by omega
      rw [if_pos hidx]
      rw [hi2, ho2] at hi
      cases hi
      rfl
    · have hi2 : i ≠ p.TXProposal.OutIndex.toNat := by omega
      rw [if_neg hidx]
      rw [hother i hi2] at hi
      exact hnone i out hi
  · intro hpr
    obtain ⟨h1, h2⟩ := hno hpr
    refine ⟨h2, ?_⟩
    intro i out hi
    rw [h1] at hi
    exact hnone i out hi
  · intro outputs hnonneg hlt
    unfold attachPaymentRequest
    cases p.TXProposal.PaymentRequest with
    | none => exact ⟨_, rfl⟩
    | some pr =>
      dsimp only
      rw [if_neg (by omega), List.getElem?_eq_getElem hlt]
      exact ⟨_, rfl⟩

/-- Witness of C23: the example proposal with a payment request for position 1. -/
theorem payment_request_witness :
    (∃ req, exampleCallPaymentRequest.tx.PaymentRequests = [req] ∧
      req.RecipientName = examplePaymentRequest.RecipientName ∧
      req.Nonce = examplePaymentRequest.Nonce ∧
      req.TotalAmount = examplePaymentRequest.TotalAmount ∧
      req.Signature = examplePaymentRequest.Signature ∧
      req.Memos = examplePaymentRequest.Memos.map (fun m => m.Note)) ∧
    0 ≤ exampleProposalPaymentRequest.TXProposal.OutIndex ∧
    exampleProposalPaymentRequest.TXProposal.OutIndex.toNat <
      exampleCallPaymentRequest.tx.Outputs.length ∧
    ∀ (i : Nat) (out : BTCSignOutputRequest),
      exampleCallPaymentRequest.tx.Outputs[i]? = some out →
      out.PaymentRequestIndex =
        if (i : Int) = exampleProposalPaymentRequest.TXProposal.OutIndex then some 0 else none :=
  (payment_request (exampleEnv ⟨9, 22, 0⟩ (exampleAnswer [1] []))
    exampleProposalPaymentRequest exampleCallPaymentRequest (by decide)).1
    examplePaymentRequest rfl

/-! ## Registry calls and their sequences (C26) -/

theorem addOutputScriptConfig_fst (scs : List BTCScriptConfigWithKeypath)
    (sc : BTCScriptConfigWithKeypath) :
    (addOutputScriptConfig scs sc).1 = (addScriptConfig scs sc).1 := by
  unfold addOutputScriptConfig addScriptConfig
  cases findScriptConfig sc.ScriptConfig.SimpleType scs <;> rfl

theorem addOutputScriptConfigs_eq (scs calls : List BTCScriptConfigWithKeypath) :
    addOutputScriptConfigs scs calls = addScriptConfigs scs calls := by
  unfold addOutputScriptConfigs addScriptConfigs
  congr 1
  funext l c
  exact addOutputScriptConfig_fst l c

/-- A sequence of calls started with any registry: the registry is kept, and the
first entry of each simple type that the registry does not hold yet is
appended, in order of first appearance. -/
theorem addScriptConfigs_eq :
    ∀ (calls scs : List BTCScriptConfigWithKeypath),
      addScriptConfigs scs calls =
        scs ++ (firstOfEachType calls).filter (fun d =>
          scs.all (fun e => decide (e.ScriptConfig.SimpleType ≠ d.ScriptConfig.SimpleType))) := by
  intro calls
  induction calls with
  | nil => intro scs; simp [addScriptConfigs, firstOfEachType]
  | cons c rest ih =>
    intro scs
    have hstep : addScriptConfigs scs (c :: rest) =
        addScriptConfigs (addScriptConfig scs c).1 rest := rfl
    have hfirst : firstOfEachType (c :: rest) =
        c :: (firstOfEachType rest).filter
          (fun d => decide (d.ScriptConfig.SimpleType ≠ c.ScriptConfig.SimpleType)) := rfl
    rw [hstep, ih, hfirst]
    unfold addScriptConfig
    cases hf : findScriptConfig c.ScriptConfig.SimpleType scs with
    | some i =>
      dsimp only
      obtain ⟨_, e, hget, hty, _⟩ := findScriptConfig_some _ _ _ hf
      have hmem : e ∈ scs := List.mem_iff_getElem?.mpr ⟨i, hget⟩
      have hc : (scs.all (fun e => decide (e.ScriptConfig.SimpleType ≠
          c.ScriptConfig.SimpleType))) = false := by
        rw [List.all_eq_false]
        exact ⟨e, hmem, by simp [hty]⟩
      rw [List.filter_cons, hc]
      simp only [Bool.false_eq_true, if_false, List.filter_filter]
      congr 1
      apply List.filter_congr
      intro d _
      by_cases hd : d.ScriptConfig.SimpleType = c.ScriptConfig.SimpleType
      · have : (scs.all (fun e => decide (e.ScriptConfig.SimpleType ≠
            d.ScriptConfig.SimpleType))) = false := by
          rw [List.all_eq_false]
          exact ⟨e, hmem, by simp [hty, hd]⟩
        simp only [this, Bool.false_and]
      · simp [hd]
    | none =>
      dsimp only
      have hall := (findScriptConfig_eq_none _ scs).mp hf
      have hc : (scs.all (fun e => decide (e.ScriptConfig.SimpleType ≠
          c.ScriptConfig.SimpleType))) = true := by
        rw [List.all_eq_true]
        intro e he
        simpa using hall e he
      rw [List.filter_cons, hc]
      simp only [if_true, List.filter_filter, List.append_assoc, List.singleton_append]
      congr 2
      apply List.filter_congr
      intro d _
      simp only [List.all_append, List.all_cons, List.all_nil, Bool.and_true]
      by_cases hd : d.ScriptConfig.SimpleType = c.ScriptConfig.SimpleType
      · simp [hd]
      · have hd2 : ¬ c.ScriptConfig.SimpleType = d.ScriptConfig.SimpleType :=
          fun h => hd h.symm
        simp [hd, hd2]

theorem firstOfEachType_sublist :
    ∀ calls : List BTCScriptConfigWithKeypath, (firstOfEachType calls).Sublist calls := by
  intro calls
  induction calls with
  | nil => exact List.Sublist.slnil
  | cons c rest ih =>
    unfold firstOfEachType
    exact List.Sublist.cons₂ c ((List.filter_sublist _).trans ih)

theorem firstOfEachType_distinct :
    ∀ calls : List BTCScriptConfigWithKeypath, DistinctSimpleTypes (firstOfEachType calls) := by
  intro calls
  induction calls with
  | nil => exact List.Pairwise.nil
  | cons c rest ih =>
    unfold firstOfEachType DistinctSimpleTypes
    rw [List.pairwise_cons]
    refine ⟨?_, List.Pairwise.sublist (List.filter_sublist _) ih⟩
    intro d hd
    have := (List.mem_filter.mp hd).2
    intro heq
    simp [heq] at this

/-- The entry of a simple type in `firstOfEachType calls` is the first entry of
that type in `calls`. -/
theorem firstOfEachType_find (t : BTCScriptConfig_SimpleType) :
    ∀ calls : List BTCScriptConfigWithKeypath,
      (firstOfEachType calls).find? (fun e => decide (e.ScriptConfig.SimpleType = t)) =
        calls.find? (fun e => decide (e.ScriptConfig.SimpleType = t)) := by
  intro calls
  induction calls with
  | nil => rfl
  | cons c rest ih =>
    unfold firstOfEachType
    by_cases hc : c.ScriptConfig.SimpleType = t
    · simp [List.find?_cons, hc]
    · rw [List.find?_cons, List.find?_cons]
      simp only [hc, decide_False]
      rw [List.find?_filter, ← ih]
      congr 1
      funext e
      by_cases he : e.ScriptConfig.SimpleType = t
      · have : ¬ e.ScriptConfig.SimpleType = c.ScriptConfig.SimpleType := by
          rw [he]; exact fun h => hc h.symm
        subst he
        simp [this]
      · simp [he]

/-- C26: `addScriptConfig` and `addOutputScriptConfig`.  If the list holds an entry
with the simple type of the new entry, the call leaves the list as it is and
returns the index of the first such entry; otherwise it appends the entry and
returns the old length.  `addOutputScriptConfig` returns the index as `uint32`,
which is the index itself for every list of fewer than 2^32 entries, and so
for every list with distinct simple types.  After any sequence of calls on the
empty list the list is `firstOfEachType calls`: a sublist of the calls with
distinct simple types whose entry of each type is the first one of the calls. -/
theorem registry_calls (scriptConfigs : List BTCScriptConfigWithKeypath)
    (scriptConfig : BTCScriptConfigWithKeypath) :
    ((∃ e ∈ scriptConfigs,
        e.ScriptConfig.SimpleType = scriptConfig.ScriptConfig.SimpleType) →
      ∃ i, addScriptConfig scriptConfigs scriptConfig = (scriptConfigs, i) ∧
        addOutputScriptConfig scriptConfigs scriptConfig = (scriptConfigs, uint32 i) ∧
        (scriptConfigs.length ≤ 2 ^ 32 → uint32 i = i) ∧
        (∃ e, scriptConfigs[i]? = some e ∧
          e.ScriptConfig.SimpleType = scriptConfig.ScriptConfig.SimpleType) ∧
        ∀ (j : Nat) (e : BTCScriptConfigWithKeypath), j < i → scriptConfigs[j]? = some e →
          e.ScriptConfig.SimpleType ≠ scriptConfig.ScriptConfig.SimpleType) ∧
    ((∀ e ∈ scriptConfigs,
        e.ScriptConfig.SimpleType ≠ scriptConfig.ScriptConfig.SimpleType) →
      addScriptConfig scriptConfigs scriptConfig =
        (scriptConfigs ++ [scriptConfig], scriptConfigs.length) ∧
      addOutputScriptConfig scriptConfigs scriptConfig =
        (scriptConfigs ++ [scriptConfig], uint32 scriptConfigs.length) ∧
      (scriptConfigs.length < 2 ^ 32 → uint32 scriptConfigs.length = scriptConfigs.length)) ∧
    (DistinctSimpleTypes scriptConfigs → scriptConfigs.length < 2 ^ 32) ∧
    ∀ calls : List BTCScriptConfigWithKeypath,
      addScriptConfigs [] calls = firstOfEachType calls ∧
      addOutputScriptConfigs [] calls = firstOfEachType calls ∧
      (firstOfEachType calls).Sublist calls ∧
      DistinctSimpleTypes (firstOfEachType calls) ∧
      ∀ t : BTCScriptConfig_SimpleType,
        (firstOfEachType calls).find? (fun e => decide (e.ScriptConfig.SimpleType = t)) =
          calls.find? (fun e => decide (e.ScriptConfig.SimpleType = t)) := by
  refine ⟨?_, ?_, ?_, ?_⟩
  · rintro ⟨e, he, hty⟩
    cases hf : findScriptConfig scriptConfig.ScriptConfig.SimpleType scriptConfigs with
    | none => exact absurd hty ((findScriptConfig_eq_none _ _).mp hf e he)
    | some i =>
      obtain ⟨hlt, e2, hget, hty2, hfirst⟩ := findScriptConfig_some _ _ _ hf
      refine ⟨i, ?_, ?_, ?_, ⟨e2, hget, hty2⟩, fun j e3 hj hg => hfirst j e3 hj hg⟩
      · unfold addScriptConfig
        rw [hf]
      · unfold addOutputScriptConfig
        rw [hf]
      · intro hlen
        exact uint32_of_small i (by omega)
  · intro hall
    have hf := (findScriptConfig_eq_none _ _).mpr hall
    refine ⟨?_, ?_, fun hlen => uint32_of_small _ hlen⟩
    · unfold addScriptConfig
      rw [hf]
      simp
    · unfold addOutputScriptConfig
      rw [hf]
      simp
  · intro hd
    have := hd.length_le
    have h32 : (3 : Nat) < 2 ^ 32 := by decide
    omega
  · intro calls
    have h := addScriptConfigs_eq calls []
    simp only [List.all_nil, List.filter_true, List.nil_append] at h
    refine ⟨h, by rw [addOutputScriptConfigs_eq, h], firstOfEachType_sublist calls,
      firstOfEachType_distinct calls, fun t => firstOfEachType_find t calls⟩

/-- Witness of C26: a second native-segwit entry reuses index 0 and leaves the
list as it is. -/
theorem registry_calls_witness :
    ∃ i, addScriptConfig exampleCallThreeOutputs.scriptConfigs
          { ScriptConfig := { SimpleType := .P2WPKH }, Keypath := [84, 0, 5] } =
        (exampleCallThreeOutputs.scriptConfigs, i) ∧
      addOutputScriptConfig exampleCallThreeOutputs.scriptConfigs
          { ScriptConfig := { SimpleType := .P2WPKH }, Keypath := [84, 0, 5] } =
        (exampleCallThreeOutputs.scriptConfigs, uint32 i) ∧
      (exampleCallThreeOutputs.scriptConfigs.length ≤ 2 ^ 32 → uint32 i = i) ∧
      (∃ e, exampleCallThreeOutputs.scriptConfigs[i]? = some e ∧
        e.ScriptConfig.SimpleType = .P2WPKH) ∧
      ∀ (j : Nat) (e : BTCScriptConfigWithKeypath), j < i →
        exampleCallThreeOutputs.scriptConfigs[j]? = some e →
        e.ScriptConfig.SimpleType ≠ .P2WPKH :=
  (registry_calls exampleCallThreeOutputs.scriptConfigs
    { ScriptConfig := { SimpleType := .P2WPKH }, Keypath := [84, 0, 5] }).1
    ⟨{ ScriptConfig := { SimpleType := .P2WPKH }, Keypath := [84, 0, 0] }, by decide, rfl⟩

/-! ## Generated outputs (C25) -/

theorem addScriptConfig_mem (scs : List BTCScriptConfigWithKeypath)
    (c sc : BTCScriptConfigWithKeypath) (h : sc ∈ (addScriptConfig scs c).1) :
    sc ∈ scs ∨ sc = c := by
  unfold addScriptConfig at h
  cases hf : findScriptConfig c.ScriptConfig.SimpleType scs with
  | some i =>
    rw [hf] at h
    exact Or.inl h
  | none =>
    rw [hf] at h
    simpa using h

/-- Every entry of the registry after the loop over the inputs was there before
or was built for the address of a spent output. -/
theorem inputsLoop_mem (env : Env) (p : ProposedTransaction) :
    ∀ (txIns : List TxIn) (scs : List BTCScriptConfigWithKeypath)
      (res : List BTCTxInput × List BTCScriptConfigWithKeypath),
      inputsLoop env p txIns scs = .ok res →
      ∀ sc ∈ res.2, sc ∈ scs ∨
        ∃ txIn ∈ txIns, ∃ prevOut t,
          p.TXProposal.PreviousOutputs txIn.PreviousOutPoint = some prevOut ∧
          env.btcMsgScriptTypeMap prevOut.Address.AccountConfiguration.ScriptType = some t ∧
          sc = scriptConfigOf t prevOut.Address.AccountConfiguration := by
  intro txIns
  induction txIns with
  | nil =>
    intro scs res h sc hsc
    simp only [inputsLoop, Except.ok.injEq] at h
    subst h
    exact Or.inl hsc
  | cons t rest ih =>
    intro scs res h sc hsc
    unfold inputsLoop at h
    cases hprev : p.TXProposal.PreviousOutputs t.PreviousOutPoint with
    | none => simp [hprev] at h
    | some prevOut =>
      simp only [hprev] at h
      cases hm : env.btcMsgScriptTypeMap prevOut.Address.AccountConfiguration.ScriptType with
      | none => simp [hm] at h
      | some msgScriptType =>
        simp only [hm] at h
        split at h
        · cases h
        · split at h
          · cases h
          · rename_i inputs scs2 hloop
            simp only [Except.ok.injEq] at h
            subst h
            rcases ih _ _ hloop sc hsc with hold | ⟨txIn, hmem, prevOut2, t2, h1, h2, h3⟩
            · rcases addScriptConfig_mem _ _ _ hold with hold2 | hnew
              · exact Or.inl hold2
              · exact Or.inr ⟨t, List.mem_cons_self _ _, prevOut, msgScriptType, hprev, hm, hnew⟩
            · exact Or.inr ⟨txIn, List.mem_cons_of_mem _ hmem, prevOut2, t2, h1, h2, h3⟩

/-- Every entry of the two registries after the loop over the outputs was there
before or was built for the address of an output: of the sending account for the
first registry, of another account for the second. -/
theorem outputsLoop_mem (env : Env) (p : ProposedTransaction) (net : BitcoinNet) :
    ∀ (txOuts : List TxOut) (k : Nat) (scs oscs : List BTCScriptConfigWithKeypath)
      (res : List BTCSignOutputRequest × List BTCScriptConfigWithKeypath ×
        List BTCScriptConfigWithKeypath),
      outputsLoop env p net k txOuts scs oscs = .ok res →
      (∀ sc ∈ res.2.1, sc ∈ scs ∨
        ∃ txOut ∈ txOuts, ∃ a t,
          p.GetKeystoreAddress p.SendingAccount (env.NewScriptHashHex txOut.PkScript) =
            .ok (some a, true) ∧
          env.btcMsgScriptTypeMap a.AccountConfiguration.ScriptType = some t ∧
          sc = scriptConfigOf t a.AccountConfiguration) ∧
      (∀ sc ∈ res.2.2, sc ∈ oscs ∨
        ∃ txOut ∈ txOuts, ∃ a t,
          p.GetKeystoreAddress p.SendingAccount (env.NewScriptHashHex txOut.PkScript) =
            .ok (some a, false) ∧
          env.btcMsgScriptTypeMap a.AccountConfiguration.ScriptType = some t ∧
          sc = scriptConfigOf t a.AccountConfiguration) := by
  intro txOuts
  induction txOuts with
  | nil =>
    intro k scs oscs res h
    simp only [outputsLoop, Except.ok.injEq] at h
    subst h
    exact ⟨fun _ h => Or.inl h, fun _ h => Or.inl h⟩
  | cons o1 rest ih =>
    intro k scs oscs res h
    unfold outputsLoop at h
    cases h1 : outputRequest env p net k o1 scs oscs with
    | error a => simp [h1] at h
    | ok v =>
      obtain ⟨o, scs1, oscs1⟩ := v
      simp only [h1] at h
      cases h2 : outputsLoop env p net (k + 1) rest scs1 oscs1 with
      | error a => simp [h2] at h
      | ok w =>
        obtain ⟨os, scs2, oscs2⟩ := w
        simp only [h2, Except.ok.injEq] at h
        subst h
        obtain ⟨ih1, ih2⟩ := ih _ _ _ _ h2
        dsimp only at ih1 ih2 ⊢
        have hstep : (∀ sc ∈ scs1, sc ∈ scs ∨ ∃ a t,
              p.GetKeystoreAddress p.SendingAccount (env.NewScriptHashHex o1.PkScript) =
                .ok (some a, true) ∧
              env.btcMsgScriptTypeMap a.AccountConfiguration.ScriptType = some t ∧
              sc = scriptConfigOf t a.AccountConfiguration) ∧
            (∀ sc ∈ oscs1, sc ∈ oscs ∨ ∃ a t,
              p.GetKeystoreAddress p.SendingAccount (env.NewScriptHashHex o1.PkScript) =
                .ok (some a, false) ∧
              env.btcMsgScriptTypeMap a.AccountConfiguration.ScriptType = some t ∧
              sc = scriptConfigOf t a.AccountConfiguration) := by
          rcases outputRequest_cases env p net k o1 scs oscs _ h1 with
            ⟨_, _, _, _, e1, e2⟩ | ⟨a, ty, hk, hm, _, _, _, _, e1, e2⟩ |
            ⟨a, ty, hk, hm, _, _, _, _, _, e1, e2⟩
          · subst e1 e2
            exact ⟨fun _ h => Or.inl h, fun _ h => Or.inl h⟩
          · subst e2
            refine ⟨?_, fun _ h => Or.inl h⟩
            intro sc hsc
            have e1b : scs1 = _ := e1
            rw [e1b] at hsc
            rcases addScriptConfig_mem _ _ _ hsc with hold | hnew
            · exact Or.inl hold
            · exact Or.inr ⟨a, ty, hk, hm, hnew⟩
          · subst e1
            refine ⟨fun _ h => Or.inl h, ?_⟩
            intro sc hsc
            have e2b : oscs1 = _ := e2
            rw [e2b, addOutputScriptConfig_fst] at hsc
            rcases addScriptConfig_mem _ _ _ hsc with hold | hnew
            · exact Or.inl hold
            · exact Or.inr ⟨a, ty, hk, hm, hnew⟩
        constructor
        · intro sc hsc
          rcases ih1 sc hsc with hold | ⟨txOut, hmem, a, ty, hk, hm, he⟩
          · rcases hstep.1 sc hold with hold2 | ⟨a, ty, hk, hm, he⟩
            · exact Or.inl hold2
            · exact Or.inr ⟨o1, List.mem_cons_self _ _, a, ty, hk, hm, he⟩
          · exact Or.inr ⟨txOut, List.mem_cons_of_mem _ hmem, a, ty, hk, hm, he⟩
        · intro sc hsc
          rcases ih2 sc hsc with hold | ⟨txOut, hmem, a, ty, hk, hm, he⟩
          · rcases hstep.2 sc hold with hold2 | ⟨a, ty, hk, hm, he⟩
            · exact Or.inl hold2
            · exact Or.inr ⟨o1, List.mem_cons_self _ _, a, ty, hk, hm, he⟩
          · exact Or.inr ⟨txOut, List.mem_cons_of_mem _ hmem, a, ty, hk, hm, he⟩

/-- Every entry of the registries of the request was built for an account
configuration that registers with that registry. -/
theorem buildBTCSignCall_entries (env : Env) (p : ProposedTransaction) (call : BTCSignCall)
    (h : buildBTCSignCall env p = .ok call) :
    (∀ sc ∈ call.scriptConfigs, ∃ c t, RegistersScriptConfig env p c ∧
      env.btcMsgScriptTypeMap c.ScriptType = some t ∧ sc = scriptConfigOf t c) ∧
    (∀ sc ∈ call.outputScriptConfigs, ∃ c t, RegistersOutputScriptConfig env p c ∧
      env.btcMsgScriptTypeMap c.ScriptType = some t ∧ sc = scriptConfigOf t c) := by
  obtain ⟨ins, scs1, outs, _, hin, hout, _, _⟩ := buildBTCSignCall_parts env p call h
  have h1 := inputsLoop_mem env p _ _ _ hin
  obtain ⟨h2, h3⟩ := outputsLoop_mem env p _ _ _ _ _ _ hout
  dsimp only at h1 h2 h3
  constructor
  · intro sc hsc
    rcases h2 sc hsc with hold | ⟨txOut, hmem, a, t, hk, hm, he⟩
    · rcases h1 sc hold with hnil | ⟨txIn, hmem, prevOut, t, hp, hm, he⟩
      · cases hnil
      · exact ⟨_, t, Or.inl ⟨txIn, hmem, prevOut, hp, rfl⟩, hm, he⟩
    · exact ⟨_, t, Or.inr ⟨txOut, hmem, a, hk, rfl⟩, hm, he⟩
  · intro sc hsc
    rcases h3 sc hsc with hnil | ⟨txOut, hmem, a, t, hk, hm, he⟩
    · cases hnil
    · exact ⟨_, t, ⟨txOut, hmem, a, hk, rfl⟩, hm, he⟩

/-- The registry entry that a marked output of the request refers to: it has the
device script type of the owning account and sits in `scriptConfigs` for an
output of the sending account, in `outputScriptConfigs` for an output of another
account. -/
theorem signBTCTransaction_ours_entry (env : Env) (p : ProposedTransaction)
    (call : BTCSignCall) (hcall : (signBTCTransaction env p).calls = [call]) (i : Nat)
    (out : BTCSignOutputRequest) (hout : call.tx.Outputs[i]? = some out)
    (hours : out.Ours = true) :
    ∃ txOut a same sc,
      p.TXProposal.Transaction.TxOut[i]? = some txOut ∧
      p.GetKeystoreAddress p.SendingAccount (env.NewScriptHashHex txOut.PkScript) =
        .ok (some a, same) ∧
      env.btcMsgScriptTypeMap a.AccountConfiguration.ScriptType =
        some sc.ScriptConfig.SimpleType ∧
      (same = true → out.OutputScriptConfigIndex = none ∧
        call.scriptConfigs[out.ScriptConfigIndex]? = some sc) ∧
      (same = false → ∃ k, out.OutputScriptConfigIndex = some k ∧
        call.outputScriptConfigs[k]? = some sc) := by
  obtain ⟨_, hd1, hd2, hget⟩ := signBTCTransaction_output env p call hcall
  obtain ⟨txOut, scs0, oscs0, r, htx, hr, heq, ⟨e1, he1⟩, ⟨e2, he2⟩⟩ := hget i out hout
  have hours2 : r.1.Ours = true := by rw [heq] at hours; exact hours
  have hsmall : ∀ (l : List BTCScriptConfigWithKeypath) (idx : Nat),
      DistinctSimpleTypes l → idx < l.length → uint32 (idx : Int) = idx := by
    intro l idx hd hlt
    have := hd.length_le
    exact uint32_of_small idx (by omega)
  rcases outputRequest_cases env p _ i txOut scs0 oscs0 r hr with
    ⟨h0, _⟩ | ⟨a, t, hk, hm, _, _, hidx, hoidx, h1, _⟩ |
    ⟨a, t, hk, hm, _, _, _, hidx, hoidx, _, h2⟩
  · rw [h0] at hours2
    cases hours2
  · obtain ⟨_, _, hf⟩ := addScriptConfig_spec scs0
      { ScriptConfig := NewBTCScriptConfigSimple t
        Keypath := a.AccountConfiguration.AbsoluteKeypath }
    rw [← h1] at hf
    have hf2 := findScriptConfig_append t _ e1 _ hf
    rw [← he1] at hf2
    obtain ⟨hlt, sc, hsc, hty, _⟩ := findScriptConfig_some t _ _ hf2
    have hconv : out.ScriptConfigIndex = (addScriptConfig scs0
        { ScriptConfig := NewBTCScriptConfigSimple t
          Keypath := a.AccountConfiguration.AbsoluteKeypath }).2 := by
      rw [heq]
      dsimp only
      rw [hidx]
      exact hsmall _ _ hd1 hlt
    refine ⟨txOut, a, true, sc, htx, hk, by rw [hm, hty], ?_, fun h => (by cases h)⟩
    intro _
    refine ⟨?_, by rw [hconv]; exact hsc⟩
    rw [heq]
    exact hoidx
  · obtain ⟨_, _, idx, hf, hconv⟩ := addOutputScriptConfig_spec oscs0
      { ScriptConfig := NewBTCScriptConfigSimple t
        Keypath := a.AccountConfiguration.AbsoluteKeypath }
    rw [← h2] at hf
    have hf2 := findScriptConfig_append t _ e2 _ hf
    rw [← he2] at hf2
    obtain ⟨hlt, sc, hsc, hty, _⟩ := findScriptConfig_some t _ _ hf2
    refine ⟨txOut, a, false, sc, htx, hk, by rw [hm, hty], fun h => (by cases h), ?_⟩
    intro _
    refine ⟨idx, ?_, hsc⟩
    rw [heq]
    dsimp only
    rw [hoidx, hconv, hsmall _ _ hd2 hlt]

/-- The registry entry that an input of the request refers to: it sits in
`scriptConfigs` and has the device script type of the account of the spent
output. -/
theorem signBTCTransaction_input_entry (env : Env) (p : ProposedTransaction)
    (call : BTCSignCall) (hcall : (signBTCTransaction env p).calls = [call]) (i : Nat)
    (input : BTCTxInput) (hinput : call.tx.Inputs[i]? = some input) :
    ∃ txIn prevOut sc,
      p.TXProposal.Transaction.TxIn[i]? = some txIn ∧
      p.TXProposal.PreviousOutputs txIn.PreviousOutPoint = some prevOut ∧
      call.scriptConfigs[input.Input.ScriptConfigIndex]? = some sc ∧
      env.btcMsgScriptTypeMap prevOut.Address.AccountConfiguration.ScriptType =
        some sc.ScriptConfig.SimpleType := by
  have hb := buildBTCSignCall_of_calls env p call hcall
  obtain ⟨_, hd1, _, _⟩ := signBTCTransaction_output env p call hcall
  obtain ⟨ins, scs1, hin, ⟨ext, hext⟩, hlen, hget⟩ := buildBTCSignCall_inputs env p call hb
  have hlt : i < p.TXProposal.Transaction.TxIn.length := by
    have := (List.getElem?_eq_some_iff.mp hinput).1
    omega
  have htx : p.TXProposal.Transaction.TxIn[i]? = some p.TXProposal.Transaction.TxIn[i] :=
    List.getElem?_eq_getElem hlt
  obtain ⟨prevOut, input0, t, idx, h1, h2, _, _, _, _, _, _, _, _, hm, hf, hidx⟩ :=
    (inputsLoop_inputs env p _ _ _ hin).2 i _ htx
  dsimp only at h2 hf
  obtain ⟨input2, hi2, heq, _⟩ := hget i _ input0 htx h2
  rw [hinput] at hi2
  cases hi2
  have hf2 := findScriptConfig_append t _ ext _ hf
  rw [← hext] at hf2
  obtain ⟨hlt2, sc, hsc, hty, _⟩ := findScriptConfig_some t _ _ hf2
  have hconv : input.Input.ScriptConfigIndex = idx := by
    rw [heq, hidx]
    have := hd1.length_le
    exact uint32_of_small idx (by omega)
  exact ⟨_, prevOut, sc, htx, h1, by rw [hconv]; exact hsc, by rw [hm, hty]⟩

/-! ## Keypaths of the registry entries (C29) -/

/-- C29 (as amended): every entry of `scriptConfigs` and of `outputScriptConfigs`
carries the device script type and the account-level keypath of an account
configuration that registers with that list.  The entry an input refers to, and
the entry a marked output refers to (in `scriptConfigs` for the sending
account, in `outputScriptConfigs` for another account), has the device script
type of the input's or output's account; its keypath is that account's keypath
whenever all account configurations that register with the same list under the
same device script type have the same keypath. -/
theorem registry_keypaths (env : Env) (p : ProposedTransaction) (call : BTCSignCall)
    (hcall : (signBTCTransaction env p).calls = [call]) :
    (∀ sc ∈ call.scriptConfigs, ∃ c t, RegistersScriptConfig env p c ∧
      env.btcMsgScriptTypeMap c.ScriptType = some t ∧ sc = scriptConfigOf t c) ∧
    (∀ sc ∈ call.outputScriptConfigs, ∃ c t, RegistersOutputScriptConfig env p c ∧
      env.btcMsgScriptTypeMap c.ScriptType = some t ∧ sc = scriptConfigOf t c) ∧
    (∀ (i : Nat) (input : BTCTxInput), call.tx.Inputs[i]? = some input →
      ∃ txIn prevOut sc,
        p.TXProposal.Transaction.TxIn[i]? = some txIn ∧
        p.TXProposal.PreviousOutputs txIn.PreviousOutPoint = some prevOut ∧
        call.scriptConfigs[input.Input.ScriptConfigIndex]? = some sc ∧
        env.btcMsgScriptTypeMap prevOut.Address.AccountConfiguration.ScriptType =
          some sc.ScriptConfig.SimpleType ∧
        ((∀ c, RegistersScriptConfig env p c →
            env.btcMsgScriptTypeMap c.ScriptType =
              env.btcMsgScriptTypeMap prevOut.Address.AccountConfiguration.ScriptType →
            c.AbsoluteKeypath = prevOut.Address.AccountConfiguration.AbsoluteKeypath) →
          sc.Keypath = prevOut.Address.AccountConfiguration.AbsoluteKeypath)) ∧
    (∀ (i : Nat) (out : BTCSignOutputRequest), call.tx.Outputs[i]? = some out →
      out.Ours = true →
      ∃ txOut a same sc,
        p.TXProposal.Transaction.TxOut[i]? = some txOut ∧
        p.GetKeystoreAddress p.SendingAccount (env.NewScriptHashHex txOut.PkScript) =
          .ok (some a, same) ∧
        env.btcMsgScriptTypeMap a.AccountConfiguration.ScriptType =
          some sc.ScriptConfig.SimpleType ∧
        (same = true → out.OutputScriptConfigIndex = none ∧
          call.scriptConfigs[out.ScriptConfigIndex]? = some sc ∧
          ((∀ c, RegistersScriptConfig env p c →
              env.btcMsgScriptTypeMap c.ScriptType =
                env.btcMsgScriptTypeMap a.AccountConfiguration.ScriptType →
              c.AbsoluteKeypath = a.AccountConfiguration.AbsoluteKeypath) →
            sc.Keypath = a.AccountConfiguration.AbsoluteKeypath)) ∧
        (same = false → ∃ k, out.OutputScriptConfigIndex = some k ∧
          call.outputScriptConfigs[k]? = some sc ∧
          ((∀ c, RegistersOutputScriptConfig env p c →
              env.btcMsgScriptTypeMap c.ScriptType =
                env.btcMsgScriptTypeMap a.AccountConfiguration.ScriptType →
              c.AbsoluteKeypath = a.AccountConfiguration.AbsoluteKeypath) →
            sc.Keypath = a.AccountConfiguration.AbsoluteKeypath))) := by
  have hb := buildBTCSignCall_of_calls env p call hcall
  obtain ⟨hreg1, hreg2⟩ := buildBTCSignCall_entries env p call hb
  refine ⟨hreg1, hreg2, ?_, ?_⟩
  · intro i input hinput
    obtain ⟨txIn, prevOut, sc, h1, h2, h3, h4⟩ :=
      signBTCTransaction_input_entry env p call hcall i input hinput
    refine ⟨txIn, prevOut, sc, h1, h2, h3, h4, ?_⟩
    intro hsame
    obtain ⟨c, t, hc, hm, rfl⟩ := hreg1 sc (List.mem_iff_getElem?.mpr ⟨_, h3⟩)
    exact hsame c hc (by rw [hm, h4]; rfl)
  · intro i out hout hours
    obtain ⟨txOut, a, same, sc, h1, h2, h3, h4, h5⟩ :=
      signBTCTransaction_ours_entry env p call hcall i out hout hours
    refine ⟨txOut, a, same, sc, h1, h2, h3, ?_, ?_⟩
    · intro hs
      obtain ⟨h6, h7⟩ := h4 hs
      refine ⟨h6, h7, ?_⟩
      intro hsame
      obtain ⟨c, t, hc, hm, rfl⟩ := hreg1 sc (List.mem_iff_getElem?.mpr ⟨_, h7⟩)
      exact hsame c hc (by rw [hm, h3]; rfl)
    · intro hs
      obtain ⟨k, h6, h7⟩ := h5 hs
      refine ⟨k, h6, h7, ?_⟩
      intro hsame
      obtain ⟨c, t, hc, hm, rfl⟩ := hreg2 sc (List.mem_iff_getElem?.mpr ⟨_, h7⟩)
      exact hsame c hc (by rw [hm, h3]; rfl)

/-- Witness of C29 (as amended): in the example only one other account is paid,
and the entry of `outputScriptConfigs` that the output at position 0 refers to
has the keypath of that account. -/
theorem registry_keypaths_witness :
    ∃ a sc,
      exampleProposalThreeOutputs.GetKeystoreAddress exampleProposalThreeOutputs.SendingAccount
          ((exampleEnv ⟨9, 22, 0⟩ (exampleAnswer [1] [])).NewScriptHashHex [0x00, 0x21]) =
        .ok (some a, false) ∧
      exampleCallThreeOutputs.outputScriptConfigs[0]? = some sc ∧
      sc.Keypath = a.AccountConfiguration.AbsoluteKeypath ∧ sc.Keypath = [84, 0, 1] := by
  obtain ⟨_, _, _, hout⟩ := registry_keypaths (exampleEnv ⟨9, 22, 0⟩ (exampleAnswer [1] []))
    exampleProposalThreeOutputs exampleCallThreeOutputs (by decide)
  obtain ⟨txOut, a, same, sc, htx, hlook, _, _, hother⟩ := hout 0
    { Ours := true, Type_ := .P2WPKH, Value := 500, Payload := [0x21]
      Keypath := [84, 0, 1, 0, 7], ScriptConfigIndex := 0, PaymentRequestIndex := none
      SilentPayment := none, OutputScriptConfigIndex := some 0 } (by rfl) (by rfl)
  have htx2 : exampleProposalThreeOutputs.TXProposal.Transaction.TxOut[0]? =
      some { Value := 500, PkScript := [0x00, 0x21] } := rfl
  rw [htx2] at htx
  cases htx
  have hlook2 : exampleProposalThreeOutputs.GetKeystoreAddress
      exampleProposalThreeOutputs.SendingAccount
        ((exampleEnv ⟨9, 22, 0⟩ (exampleAnswer [1] [])).NewScriptHashHex [0x00, 0x21]) =
      .ok (some (exampleAddress [84, 0, 1] [0x00, 0x21]), false) := rfl
  have hlook3 := hlook
  rw [hlook2] at hlook3
  cases hlook3
  obtain ⟨k, hk, hsc, hkey⟩ := hother rfl
  cases hk
  have hkeypath := hkey (by
    rintro c ⟨txOut, hmem, b, hb, rfl⟩ _
    have houts : exampleProposalThreeOutputs.TXProposal.Transaction.TxOut =
        [{ Value := 500, PkScript := [0x00, 0x21] }, { Value := 500, PkScript := [0x00, 0x22] },
          { Value := 500, PkScript := [0x00, 0x23] }] := rfl
    rw [houts] at hmem
    simp only [List.mem_cons, List.mem_singleton, List.not_mem_nil, or_false] at hmem
    rcases hmem with rfl | rfl | rfl
    · rw [hlook2] at hb
      cases hb
      rfl
    · have h2 : exampleProposalThreeOutputs.GetKeystoreAddress
          exampleProposalThreeOutputs.SendingAccount
            ((exampleEnv ⟨9, 22, 0⟩ (exampleAnswer [1] [])).NewScriptHashHex [0x00, 0x22]) =
          .ok (some (exampleAddress [84, 0, 0] [0x00, 0x22]), true) := rfl
      rw [h2] at hb
      cases hb
    · have h2 : exampleProposalThreeOutputs.GetKeystoreAddress
          exampleProposalThreeOutputs.SendingAccount
            ((exampleEnv ⟨9, 22, 0⟩ (exampleAnswer [1] [])).NewScriptHashHex [0x00, 0x23]) =
          .ok (some (exampleAddress [84, 0, 0] [0x00, 0x22]), true) := rfl
      rw [h2] at hb
      cases hb)
  exact ⟨_, sc, hlook2, hsc, hkeypath, by rw [hkeypath]; rfl⟩

/-- C29, counterexample: on firmware 9.22.0 a transaction pays two other accounts
of the keystore, both native segwit, at the keypaths `[84, 0, 1]` and
`[84, 0, 2]`.  `outputScriptConfigs` has the single entry of the first account,
and the second output, marked and with `OutputScriptConfigIndex` 0, refers to
it, although its account has the keypath `[84, 0, 2]`. -/
theorem other_account_keypath_mismatch :
    (signBTCTransaction (exampleEnv ⟨9, 22, 0⟩ (exampleAnswer [1] []))
        exampleProposalTwoOtherAccounts).calls.map
      (fun c => (c.outputScriptConfigs.map (fun sc => sc.Keypath),
        c.tx.Outputs.map (fun o => (o.Ours, o.OutputScriptConfigIndex, o.Keypath)))) =
      [([[84, 0, 1]], [(true, some 0, [84, 0, 1, 0, 7]), (true, some 0, [84, 0, 2, 0, 7])])] ∧
    exampleProposalTwoOtherAccounts.GetKeystoreAddress
        exampleProposalTwoOtherAccounts.SendingAccount
        ((exampleEnv ⟨9, 22, 0⟩ (exampleAnswer [1] [])).NewScriptHashHex [0x00, 0x24]) =
      .ok (some (exampleAddress [84, 0, 2] [0x00, 0x24]), false) ∧
    (exampleAddress [84, 0, 2] [0x00, 0x24]).AccountConfiguration.AbsoluteKeypath =
      [84, 0, 2] :=
  ⟨by decide, rfl, rfl⟩

end Keystore
